import Mathlib

/-!
# KProcessHacker internal object manager (`ref.c`, `include/ref.h`)

A shallow embedding of the reference-counted object manager of the
KProcessHacker driver, followed by theorems about it.

Conventions of the embedding

* A pointer is a natural number; a pointer that may be `NULL` is an `Option`.
  `KphObjectToObjectHeader` / `KphObjectHeaderToObject` add or subtract a
  constant offset, so an object and its header are named by the same address.
* `LONG` values are integers kept in `[-2^31, 2^31)` by `wrapLong`; `ULONG`
  values are naturals kept below `2^32` by `% 2^32`.
* The pool is `State.heap`; an address is live when the heap maps it to a header.
  Touching an address that is not live is undefined in C and is the outcome
  `Outcome.fault` here.
* `ExRaiseStatus` does not return: it is the outcome `Outcome.raise`.
* The fast mutex only brackets the list operations; in this sequential
  embedding acquiring and releasing it has no effect.
* Calls that leave the object manager (pool allocation, pool free, a type's
  delete procedure) and the structural steps on the counters and the registry
  are recorded, in program order, in `State.trace`. A delete procedure is code
  outside `ref.c`: its call is recorded with its arguments and it is taken not
  to call back into the object manager.
-/

namespace KphRef

/-! ## Basic types and constants -/

/-- An address of the kernel pool. -/
abbrev Addr := Nat

/-- An `NTSTATUS` as its unsigned 32-bit value; the constants are those of `ntstatus.h`. -/
abbrev NTSTATUS := Nat

def STATUS_SUCCESS : NTSTATUS := 0x00000000
def STATUS_INSUFFICIENT_RESOURCES : NTSTATUS := 0xC000009A
def STATUS_INVALID_PARAMETER_2 : NTSTATUS := 0xC00000F0
def STATUS_INVALID_PARAMETER_3 : NTSTATUS := 0xC00000F1
def STATUS_INVALID_PARAMETER_4 : NTSTATUS := 0xC00000F2
def STATUS_INVALID_PARAMETER_5 : NTSTATUS := 0xC00000F3

/-- The `NT_SUCCESS` test: the status, read as a signed 32-bit value, is not negative. -/
def NT_SUCCESS (status : NTSTATUS) : Bool := decide (status < 0x80000000)

inductive POOL_TYPE where
  | NonPagedPool
  | PagedPool
  deriving DecidableEq, Repr

def TAG_KPHOBJ : Nat := 0x624F6850

def KPHOBJ_RAISE_ON_FAIL : Nat := 0x00000001
def KPHOBJ_PAGED_POOL : Nat := 0x00000002
def KPHOBJ_NONPAGED_POOL : Nat := 0x00000004
def KPHOBJ_VALID_FLAGS : Nat := 0x00000007

/-- Two's-complement reduction of an integer to the range of a `LONG`. -/
def wrapLong (x : Int) : Int := (x + 2147483648) % 4294967296 - 2147483648

/-- The values a `LONG` can hold. -/
def InLong (x : Int) : Prop := -2147483648 ≤ x ∧ x < 2147483648

instance (x : Int) : Decidable (InLong x) := by unfold InLong; infer_instance

/-- The type body `KPH_OBJECT_TYPE` (its fast mutex is never used and is left out). -/
structure KPH_OBJECT_TYPE where
  DefaultPoolType : POOL_TYPE
  DeleteProcedure : Option Nat
  NumberOfObjects : Nat
  deriving DecidableEq, Repr

/-- The block `KPH_OBJECT_HEADER`. The field `Type` is spelt `Type_`. `Body` is
`none` until the body has been initialised as a type object. The two list
entries are represented by the registry list of the state. -/
structure KPH_OBJECT_HEADER where
  RefCount : Int
  Flags : Nat
  Size : Nat
  Type_ : Option Addr
  Body : Option KPH_OBJECT_TYPE
  deriving DecidableEq, Repr

/-- Calls and structural steps recorded in program order. -/
inductive Event where
  | ExAllocatePoolWithTag (PoolType : POOL_TYPE) (NumberOfBytes Tag : Nat) (result : Option Addr)
  | InterlockedIncrementType (ObjectType : Addr)
  | InsertHeadList (Object : Addr)
  | DeleteProcedure (proc : Nat) (Object : Addr) (Flags Size : Nat) (registry : List Addr)
  | InterlockedDecrementType (ObjectType : Addr)
  | RemoveEntryList (Object : Addr)
  | ExFreePoolWithTag (Object : Addr) (Tag : Nat)
  deriving DecidableEq, Repr

/-- Global state of the object manager: the pool blocks it owns, the list
`KphObjectListHead` (head first), the global `KphObjectType`, and the trace. -/
structure State where
  heap : Addr → Option KPH_OBJECT_HEADER
  KphObjectListHead : List Addr
  KphObjectType : Option Addr
  trace : List Event

/-- What the kernel and the build supply to one call: the behaviour of
`ExAllocatePoolWithTag` and the `sizeof` constants of the target. -/
structure Env where
  ExAllocatePoolWithTag : POOL_TYPE → Nat → Nat → Option Addr
  sizeofObjectHeader : Nat
  sizeofObjectType : Nat
  sizeofULONG : Nat

/-- Result of a call: it returns a value, raises a status, or touches memory
that is not live. -/
inductive Outcome (α : Type) where
  | ret (value : α) (s : State)
  | raise (status : NTSTATUS) (s : State)
  | fault

/-! ## Memory helpers -/

def heapSet (h : Addr → Option KPH_OBJECT_HEADER) (a : Addr) (v : Option KPH_OBJECT_HEADER) :
    Addr → Option KPH_OBJECT_HEADER :=
  fun b => if b = a then v else h b

def State.log (s : State) (e : Event) : State :=
  { s with trace := s.trace ++ [e] }

/-- The type body stored at an address, when the address is live and holds one. -/
def State.typeAt (s : State) (T : Addr) : Option KPH_OBJECT_TYPE :=
  match s.heap T with
  | some h => h.Body
  | none => none

/-- The field `NumberOfObjects` of the type at an address. -/
def State.numberOfObjects (s : State) (T : Addr) : Option Nat :=
  (s.typeAt T).map (fun ty => ty.NumberOfObjects)

/-- The field `RefCount` of the object at an address. -/
def State.refCount (s : State) (a : Addr) : Option Int :=
  (s.heap a).map (fun h => h.RefCount)

/-- `KphpAddObjectHeaderSize` (ref.h line 32):
`(Size) + sizeof(KPH_OBJECT_HEADER) - sizeof(ULONG)`, computed in `SIZE_T`, which
has 32 bits on the kernels the driver is for: the sum is reduced modulo `2^32`. -/
def KphpAddObjectHeaderSize (env : Env) (Size : Nat) : Nat :=
  (Size + env.sizeofObjectHeader + (4294967296 - env.sizeofULONG % 4294967296)) % 4294967296

/-- `KphpAllocateObject`: asks the pool for a block. -/
def KphpAllocateObject (env : Env) (s : State) (ObjectSize : Nat) (PoolType : POOL_TYPE) :
    Option Addr × State :=
  let r := env.ExAllocatePoolWithTag PoolType (KphpAddObjectHeaderSize env ObjectSize) TAG_KPHOBJ
  (r, s.log (Event.ExAllocatePoolWithTag PoolType (KphpAddObjectHeaderSize env ObjectSize)
    TAG_KPHOBJ r))

/-- `KphpFreeObject`: gives the block back to the pool. -/
def KphpFreeObject (s : State) (ObjectHeader : Addr) : State :=
  { s with
    heap := heapSet s.heap ObjectHeader none,
           trace := s.trace ++ [Event.ExFreePoolWithTag ObjectHeader TAG_KPHOBJ] }

/-- `InterlockedIncrement(&ObjectType->NumberOfObjects)` on a live type. -/
def InterlockedIncrementType (s : State) (T : Addr) : Option State :=
  match s.heap T with
  | some h =>
    match h.Body with
    | some ty =>
      some { s with
        heap := heapSet s.heap T
          (some { h with Body := some { ty with
            NumberOfObjects := (ty.NumberOfObjects + 1) % 4294967296 } }),
        trace := s.trace ++ [Event.InterlockedIncrementType T] }
    | none => none
  | none => none

/-- `InterlockedDecrement(&objectHeader->Type->NumberOfObjects)` on a live type. -/
def InterlockedDecrementType (s : State) (T : Addr) : Option State :=
  match s.heap T with
  | some h =>
    match h.Body with
    | some ty =>
      some { s with
        heap := heapSet s.heap T
          (some { h with Body := some { ty with
            NumberOfObjects := (ty.NumberOfObjects + 4294967295) % 4294967296 } }),
        trace := s.trace ++ [Event.InterlockedDecrementType T] }
    | none => none
  | none => none

/-- `InsertHeadList(&KphObjectListHead, &objectHeader->GlobalObjectListEntry)`. -/
def InsertHeadList (s : State) (a : Addr) : State :=
  { s with KphObjectListHead := a :: s.KphObjectListHead,
           trace := s.trace ++ [Event.InsertHeadList a] }

/-- `RemoveEntryList(&objectHeader->GlobalObjectListEntry)`. -/
def RemoveEntryList (s : State) (a : Addr) : State :=
  { s with KphObjectListHead := s.KphObjectListHead.erase a,
           trace := s.trace ++ [Event.RemoveEntryList a] }

/-- Invocation of a type's delete procedure: recorded with its three
arguments and the registry as it stands during the call. -/
def callDeleteProcedure (s : State) (proc : Option Nat) (Object : Addr) (Flags Size : Nat) :
    State :=
  match proc with
  | some p => s.log (Event.DeleteProcedure p Object Flags Size s.KphObjectListHead)
  | none => s

/-! ## The object manager -/

/-- The pool type chosen by `KphCreateObject` (lines 141-150): `none` when the
type pointer has to be read and does not point to a type. -/
def choosePoolType (s : State) (Flags : Nat) (ObjectType : Option Addr) : Option POOL_TYPE :=
  if Flags &&& KPHOBJ_PAGED_POOL ≠ 0 then some POOL_TYPE.PagedPool
  else if Flags &&& KPHOBJ_NONPAGED_POOL ≠ 0 then some POOL_TYPE.NonPagedPool
  else
    match ObjectType with
    | some T => (s.typeAt T).map (fun ty => ty.DefaultPoolType)
    | none => some POOL_TYPE.NonPagedPool

/-- `KphCreateObject`. The value returned is the status and what was stored
through `Object` (nothing on the failing paths). -/
def KphCreateObject (env : Env) (s : State) (ObjectSize Flags : Nat)
    (ObjectType : Option Addr) (AdditionalReferences : Int) :
    Outcome (NTSTATUS × Option Addr) :=
  if Flags &&& KPHOBJ_VALID_FLAGS ≠ Flags then
    Outcome.ret (STATUS_INVALID_PARAMETER_3, none) s
  else if Flags &&& KPHOBJ_PAGED_POOL ≠ 0 ∧ Flags &&& KPHOBJ_NONPAGED_POOL ≠ 0 then
    Outcome.ret (STATUS_INVALID_PARAMETER_3, none) s
  else if ObjectType = none ∧ s.KphObjectType ≠ none then
    Outcome.ret (STATUS_INVALID_PARAMETER_4, none) s
  else if AdditionalReferences < 0 then
    Outcome.ret (STATUS_INVALID_PARAMETER_5, none) s
  else
    match choosePoolType s Flags ObjectType with
    | none => Outcome.fault
    | some poolType =>
      match KphpAllocateObject env s ObjectSize poolType with
      | (none, s1) =>
        if Flags &&& KPHOBJ_RAISE_ON_FAIL ≠ 0 then
          Outcome.raise STATUS_INSUFFICIENT_RESOURCES s1
        else
          Outcome.ret (STATUS_INSUFFICIENT_RESOURCES, none) s1
      | (some objectHeader, s1) =>
        let counted : Option State :=
          match ObjectType with
          | some T => InterlockedIncrementType s1 T
          | none => some s1
        match counted with
        | none => Outcome.fault
        | some s2 =>
          let s3 : State :=
            { s2 with
              heap := heapSet s2.heap objectHeader
                (some { RefCount := wrapLong (1 + AdditionalReferences),
                        Flags := Flags,
                        Size := ObjectSize,
                        Type_ := ObjectType,
                        Body := none }) }
          Outcome.ret (STATUS_SUCCESS, some objectHeader) (InsertHeadList s3 objectHeader)

/-- `KphCreateObjectType`. -/
def KphCreateObjectType (env : Env) (s : State) (DefaultPoolType : POOL_TYPE)
    (DeleteProcedure : Option Nat) : Outcome (NTSTATUS × Option Addr) :=
  match KphCreateObject env s env.sizeofObjectType 0 s.KphObjectType 0 with
  | Outcome.ret (status, out) s1 =>
    if !NT_SUCCESS status then Outcome.ret (status, none) s1
    else
      match out with
      | none => Outcome.fault
      | some objectType =>
        match s1.heap objectType with
        | none => Outcome.fault
        | some h =>
          Outcome.ret (status, some objectType)
            { s1 with
              heap := heapSet s1.heap objectType
                (some { h with Body := some { DefaultPoolType := DefaultPoolType,
                                              DeleteProcedure := DeleteProcedure,
                                              NumberOfObjects := 0 } }) }
  | Outcome.raise status s1 => Outcome.raise status s1
  | Outcome.fault => Outcome.fault

/-- `KphRefInit`. -/
def KphRefInit (env : Env) (s : State) : Outcome NTSTATUS :=
  let s0 : State := { s with KphObjectListHead := [] }
  match KphCreateObjectType env s0 POOL_TYPE.NonPagedPool none with
  | Outcome.ret (status, out) s1 =>
    if !NT_SUCCESS status then Outcome.ret status s1
    else
      match out with
      | none => Outcome.fault
      | some root =>
        match s1.heap root with
        | none => Outcome.fault
        | some h =>
          match h.Body with
          | none => Outcome.fault
          | some ty =>
            Outcome.ret status
              { s1 with
                KphObjectType := some root,
                heap := heapSet s1.heap root
                  (some { h with Type_ := some root,
                                 Body := some { ty with NumberOfObjects := 1 } }) }
  | Outcome.raise status s1 => Outcome.raise status s1
  | Outcome.fault => Outcome.fault

/-- The loop of `KphRefDeinit`: take the head entry off the list and free it. -/
def freeAll : List Addr → State → State
  | [], s => s
  | a :: rest, s =>
    freeAll rest (KphpFreeObject { s with KphObjectListHead := rest } a)

/-- `KphRefDeinit`. -/
def KphRefDeinit (s : State) : Outcome NTSTATUS :=
  Outcome.ret STATUS_SUCCESS (freeAll s.KphObjectListHead s)

/-- `KphDereferenceObjectEx`. `OldRefCount` tells whether the caller passed a
place for the old count; the value returned is `freed` and what was stored there. -/
def KphDereferenceObjectEx (s : State) (Object : Addr) (RefCount : Int) (OldRefCount : Bool) :
    Outcome (Bool × Option Int) :=
  if RefCount < 0 then Outcome.raise STATUS_INVALID_PARAMETER_2 s
  else
    match s.heap Object with
    | none => Outcome.fault
    | some h =>
      let oldRefCount := h.RefCount
      let s1 : State :=
        { s with
          heap := heapSet s.heap Object
            (some { h with RefCount := wrapLong (oldRefCount + wrapLong (-RefCount)) }) }
      let stored : Option Int := if OldRefCount then some oldRefCount else none
      if wrapLong (oldRefCount - RefCount) = 0 then
        match h.Type_ with
        | none => Outcome.fault
        | some T =>
          match s1.typeAt T with
          | none => Outcome.fault
          | some ty =>
            let s2 := callDeleteProcedure s1 ty.DeleteProcedure Object h.Flags h.Size
            match InterlockedDecrementType s2 T with
            | none => Outcome.fault
            | some s3 =>
              Outcome.ret (true, stored) (KphpFreeObject (RemoveEntryList s3 Object) Object)
      else
        Outcome.ret (false, stored) s1

/-- `KphDereferenceObject`. -/
def KphDereferenceObject (s : State) (Object : Addr) : Outcome Bool :=
  match KphDereferenceObjectEx s Object 1 false with
  | Outcome.ret (freed, _) s1 => Outcome.ret freed s1
  | Outcome.raise status s1 => Outcome.raise status s1
  | Outcome.fault => Outcome.fault

/-- `KphGetTypeObject`. -/
def KphGetTypeObject (s : State) (Object : Addr) : Option (Option Addr) :=
  (s.heap Object).map (fun h => h.Type_)

/-- `KphReferenceObject`. -/
def KphReferenceObject (s : State) (Object : Addr) : Outcome Unit :=
  match s.heap Object with
  | none => Outcome.fault
  | some h =>
    Outcome.ret ()
      { s with
        heap := heapSet s.heap Object
          (some { h with RefCount := wrapLong (h.RefCount + 1) }) }

/-- `KphReferenceObjectEx`. The value returned is what was stored through
`OldRefCount`. -/
def KphReferenceObjectEx (s : State) (Object : Addr) (RefCount : Int) (OldRefCount : Bool) :
    Outcome (Option Int) :=
  if RefCount < 0 then Outcome.raise STATUS_INVALID_PARAMETER_2 s
  else
    match s.heap Object with
    | none => Outcome.fault
    | some h =>
      let oldRefCount := h.RefCount
      Outcome.ret (if OldRefCount then some oldRefCount else none)
        { s with
          heap := heapSet s.heap Object
            (some { h with RefCount := wrapLong (oldRefCount + RefCount) }) }

/-! ## Sequences of reference operations on one object -/

/-- One reference-count operation applied to a fixed object. -/
inductive RefOp where
  | KphReferenceObject
  | KphReferenceObjectEx (RefCount : Int)
  | KphDereferenceObject
  | KphDereferenceObjectEx (RefCount : Int)
  deriving DecidableEq, Repr

/-- Forget the value a call returned. -/
def Outcome.discard {α : Type} : Outcome α → Outcome Unit
  | Outcome.ret _ s => Outcome.ret () s
  | Outcome.raise status s => Outcome.raise status s
  | Outcome.fault => Outcome.fault

def applyRefOp (s : State) (Object : Addr) : RefOp → Outcome Unit
  | RefOp.KphReferenceObject => KphReferenceObject s Object
  | RefOp.KphReferenceObjectEx n => (KphReferenceObjectEx s Object n false).discard
  | RefOp.KphDereferenceObject => (KphDereferenceObject s Object).discard
  | RefOp.KphDereferenceObjectEx n => (KphDereferenceObjectEx s Object n false).discard

/-- The operations applied one after another; a raise or a fault ends the run. -/
def runRefOps (s : State) (Object : Addr) : List RefOp → Outcome Unit
  | [] => Outcome.ret () s
  | op :: ops =>
    match applyRefOp s Object op with
    | Outcome.ret _ s1 => runRefOps s1 Object ops
    | Outcome.raise status s1 => Outcome.raise status s1
    | Outcome.fault => Outcome.fault

/-- The amount an operation adds or subtracts. -/
def RefOp.amount : RefOp → Int
  | RefOp.KphReferenceObject => 1
  | RefOp.KphReferenceObjectEx n => n
  | RefOp.KphDereferenceObject => 1
  | RefOp.KphDereferenceObjectEx n => n

/-- The net change an operation asks for, as an unbounded integer. -/
def RefOp.delta : RefOp → Int
  | RefOp.KphReferenceObject => 1
  | RefOp.KphReferenceObjectEx n => n
  | RefOp.KphDereferenceObject => -1
  | RefOp.KphDereferenceObjectEx n => -n

/-- The count after each operation of a sequence, in unbounded arithmetic. -/
def countsAfter (c : Int) : List RefOp → List Int
  | [] => []
  | op :: ops => (c + op.delta) :: countsAfter (c + op.delta) ops

/-- The count after the whole sequence, in unbounded arithmetic. -/
def finalCount (c : Int) : List RefOp → Int
  | [] => c
  | op :: ops => finalCount (c + op.delta) ops

/-- A sequence that respects the contract: amounts are non-negative, the
count never goes below zero nor above the largest `LONG`, and nothing is done
to the object once its count has reached zero. -/
def Disciplined (c : Int) : List RefOp → Prop
  | [] => True
  | op :: ops =>
    0 ≤ op.amount ∧ op.amount < 2147483648 ∧
    0 ≤ c + op.delta ∧ c + op.delta < 2147483648 ∧
    (c + op.delta = 0 → ops = []) ∧ Disciplined (c + op.delta) ops

/-- Number of recorded delete-procedure calls made for an object. -/
def deleteCalls (Object : Addr) : List Event → Nat
  | [] => 0
  | Event.DeleteProcedure _ o _ _ _ :: rest =>
    (if o = Object then 1 else 0) + deleteCalls Object rest
  | _ :: rest => deleteCalls Object rest

/-! ## Sequences of object-manager calls -/

/-- One call into the object manager. -/
inductive MgrOp where
  | KphCreateObject (env : Env) (ObjectSize Flags : Nat) (ObjectType : Option Addr)
      (AdditionalReferences : Int)
  | KphCreateObjectType (env : Env) (DefaultPoolType : POOL_TYPE) (DeleteProcedure : Option Nat)
  | KphReferenceObject (Object : Addr)
  | KphReferenceObjectEx (Object : Addr) (RefCount : Int)
  | KphDereferenceObject (Object : Addr)
  | KphDereferenceObjectEx (Object : Addr) (RefCount : Int)

/-- What one call did: the state it left, the type argument and block of a
successful `KphCreateObject` made by it, and the object it freed with that
object's type. -/
structure Step where
  state : State
  created : Option (Option Addr × Addr)
  freed : Option (Addr × Option Addr)

/-- The step of a call that creates an object of type `ObjectType`. -/
def createStep (ObjectType : Option Addr) : Outcome (NTSTATUS × Option Addr) → Option Step
  | Outcome.ret (status, out) s1 =>
    some { state := s1,
           created := if status = STATUS_SUCCESS then out.map (fun a => (ObjectType, a)) else none,
           freed := none }
  | Outcome.raise _ s1 => some { state := s1, created := none, freed := none }
  | Outcome.fault => none

/-- The step of a call that adds references. -/
def referenceStep {α : Type} : Outcome α → Option Step
  | Outcome.ret _ s1 => some { state := s1, created := none, freed := none }
  | Outcome.raise _ s1 => some { state := s1, created := none, freed := none }
  | Outcome.fault => none

/-- The step of a call that drops references of `Object`, whose type was `ty`. -/
def dereferenceStep (Object : Addr) (ty : Option Addr) : Outcome Bool → Option Step
  | Outcome.ret freed s1 =>
    some { state := s1, created := none, freed := if freed then some (Object, ty) else none }
  | Outcome.raise _ s1 => some { state := s1, created := none, freed := none }
  | Outcome.fault => none

/-- Forget the old count a dereference stored. -/
def Outcome.freedOnly : Outcome (Bool × Option Int) → Outcome Bool
  | Outcome.ret (freed, _) s => Outcome.ret freed s
  | Outcome.raise status s => Outcome.raise status s
  | Outcome.fault => Outcome.fault

/-- The type recorded in the header of a live object. -/
def State.typeOf (s : State) (Object : Addr) : Option Addr :=
  match s.heap Object with
  | some h => h.Type_
  | none => none

def step (s : State) : MgrOp → Option Step
  | MgrOp.KphCreateObject env ObjectSize Flags ObjectType AdditionalReferences =>
    createStep ObjectType (KphCreateObject env s ObjectSize Flags ObjectType AdditionalReferences)
  | MgrOp.KphCreateObjectType env DefaultPoolType DeleteProcedure =>
    createStep s.KphObjectType (KphCreateObjectType env s DefaultPoolType DeleteProcedure)
  | MgrOp.KphReferenceObject Object => referenceStep (KphReferenceObject s Object)
  | MgrOp.KphReferenceObjectEx Object n => referenceStep (KphReferenceObjectEx s Object n false)
  | MgrOp.KphDereferenceObject Object =>
    dereferenceStep Object (s.typeOf Object) (KphDereferenceObject s Object)
  | MgrOp.KphDereferenceObjectEx Object n =>
    dereferenceStep Object (s.typeOf Object) (KphDereferenceObjectEx s Object n false).freedOnly

/-- A step is admissible for the accounting of type `T` when the pool handed
out a block that was not in use and the type object `T` itself was not freed. -/
def Step.admissible (T : Addr) (s : State) (r : Step) : Bool :=
  (match r.created with
   | some (_, a) => (s.heap a).isNone
   | none => true) &&
  (match r.freed with
   | some (o, _) => decide (o ≠ T)
   | none => true)

/-- Does the step count as a successful creation of an object of type `T`? -/
def Step.creates (T : Addr) (r : Step) : Nat :=
  match r.created with
  | some (some T', _) => if T' = T then 1 else 0
  | _ => 0

/-- Does the step count as the freeing of an object of type `T`? -/
def Step.frees (T : Addr) (r : Step) : Nat :=
  match r.freed with
  | some (_, some T') => if T' = T then 1 else 0
  | _ => 0

/-- Runs the calls in order and counts, for the type `T`, the successful
creations `k` and the objects dereferenced to zero `j`; `none` when a call
faults or a step is not admissible. -/
def accounting (T : Addr) : State → List MgrOp → Option (Nat × Nat × State)
  | s, [] => some (0, 0, s)
  | s, op :: ops =>
    match step s op with
    | none => none
    | some r =>
      if r.admissible T s then
        match accounting T r.state ops with
        | none => none
        | some (k, j, s') => some (k + r.creates T, j + r.frees T, s')
      else none

/-! ## Words of the specification about the flags -/

/-- Some bit of the flags lies outside the valid mask `0x7`. -/
def OutsideValidMask (Flags : Nat) : Prop :=
  ∃ i, Flags.testBit i = true ∧ KPHOBJ_VALID_FLAGS.testBit i = false

/-- Both pool classes are requested (bit 1 is `KPHOBJ_PAGED_POOL`, bit 2 is
`KPHOBJ_NONPAGED_POOL`). -/
def BothPools (Flags : Nat) : Prop :=
  Flags.testBit 1 = true ∧ Flags.testBit 2 = true

/-- The registry invariant: every registered object has a count that is not negative. -/
def RegisteredNonNegative (s : State) : Prop :=
  ∀ a, a ∈ s.KphObjectListHead → ∀ h, s.heap a = some h → 0 ≤ h.RefCount

/-! ## Concurrent calls of `KphDereferenceObjectEx` -/

/-- Where a thread stands inside `KphDereferenceObjectEx` (lines 240-291): before
one of its accesses to shared memory, or after the call has ended. -/
inductive DerefPc where
  /-- Before the check of `RefCount` and `InterlockedExchangeAdd` (lines 251-258). -/
  | exchange
  /-- Inside the `if`, before the delete procedure is read and called (lines 264-271). -/
  | callDelete
  /-- Before `InterlockedDecrement` of the type's counter (line 274). -/
  | decrementType
  /-- Before `RemoveEntryList` under the list mutex (lines 277-279). -/
  | removeEntry
  /-- Before `KphpFreeObject` (line 282). -/
  | freeObject
  | returned
  | raised (status : NTSTATUS)
  | faulted
  deriving DecidableEq, Repr

/-- A thread inside `KphDereferenceObjectEx(Object, RefCount, OldRefCount)`: the two
arguments that differ between threads (`OldRefCount` tells whether a place for the
old count was passed), its position, and its locals `oldRefCount` and `freed`. -/
structure DerefThread where
  RefCount : Int
  OldRefCount : Bool
  pc : DerefPc
  oldRefCount : Option Int
  freed : Bool
  deriving DecidableEq, Repr

/-- A thread that has just entered the function. -/
def DerefThread.start (RefCount : Int) (OldRefCount : Bool) : DerefThread :=
  { RefCount := RefCount, OldRefCount := OldRefCount, pc := DerefPc.exchange,
    oldRefCount := none, freed := false }

/-- One step of one thread: the code from its position up to and including its
next access to shared memory. The interlocked operations and the list removal
under `KphObjectListMutex` are single steps; the tests on the locals belong to
the step before them. A thread that has ended does nothing. -/
def derefStep (s : State) (Object : Addr) (t : DerefThread) : State × DerefThread :=
  match t.pc with
  | DerefPc.exchange =>
    if t.RefCount < 0 then (s, { t with pc := DerefPc.raised STATUS_INVALID_PARAMETER_2 })
    else
      match s.heap Object with
      | none => (s, { t with pc := DerefPc.faulted })
      | some h =>
        ({ s with
           heap := heapSet s.heap Object
             (some { h with RefCount := wrapLong (h.RefCount + wrapLong (-t.RefCount)) }) },
         { t with
           oldRefCount := some h.RefCount,
           pc := if wrapLong (h.RefCount - t.RefCount) = 0 then DerefPc.callDelete
                 else DerefPc.returned })
  | DerefPc.callDelete =>
    match s.heap Object with
    | none => (s, { t with pc := DerefPc.faulted })
    | some h =>
      match h.Type_ with
      | none => (s, { t with pc := DerefPc.faulted })
      | some T =>
        match s.typeAt T with
        | none => (s, { t with pc := DerefPc.faulted })
        | some ty =>
          (callDeleteProcedure s ty.DeleteProcedure Object h.Flags h.Size,
           { t with pc := DerefPc.decrementType })
  | DerefPc.decrementType =>
    match s.heap Object with
    | none => (s, { t with pc := DerefPc.faulted })
    | some h =>
      match h.Type_ with
      | none => (s, { t with pc := DerefPc.faulted })
      | some T =>
        match InterlockedDecrementType s T with
        | none => (s, { t with pc := DerefPc.faulted })
        | some s3 => (s3, { t with pc := DerefPc.removeEntry })
  | DerefPc.removeEntry => (RemoveEntryList s Object, { t with pc := DerefPc.freeObject })
  | DerefPc.freeObject =>
    (KphpFreeObject s Object, { t with pc := DerefPc.returned, freed := true })
  | DerefPc.returned => (s, t)
  | DerefPc.raised _ => (s, t)
  | DerefPc.faulted => (s, t)

/-- A thread run alone for a number of steps. -/
def derefAlone (Object : Addr) : Nat → State × DerefThread → State × DerefThread
  | 0, c => c
  | k + 1, c => derefAlone Object k (derefStep c.1 Object c.2)

/-- What a call that has ended gives back; a call still running counts as a fault. -/
def DerefThread.result (t : DerefThread) (s : State) : Outcome (Bool × Option Int) :=
  match t.pc with
  | DerefPc.returned => Outcome.ret (t.freed, if t.OldRefCount then t.oldRefCount else none) s
  | DerefPc.raised status => Outcome.raise status s
  | _ => Outcome.fault

/-- The thread's atomic subtraction computed `oldRefCount - RefCount == 0`. -/
def DerefThread.observedZero (t : DerefThread) : Bool :=
  match t.oldRefCount with
  | some old => decide (wrapLong (old - t.RefCount) = 0)
  | none => false

/-- Threads inside `KphDereferenceObjectEx` on the same object, and the memory they
share. -/
structure DerefSystem where
  shared : State
  threads : List DerefThread

/-- Threads entering with the given arguments. -/
def DerefSystem.start (s : State) (calls : List (Int × Bool)) : DerefSystem :=
  { shared := s, threads := calls.map (fun c => DerefThread.start c.1 c.2) }

/-- The scheduler lets thread `i` make one step. -/
def DerefSystem.step (Object : Addr) (c : DerefSystem) (i : Nat) : DerefSystem :=
  match c.threads[i]? with
  | none => c
  | some t =>
    { shared := (derefStep c.shared Object t).1,
      threads := c.threads.set i (derefStep c.shared Object t).2 }

/-- An interleaving: the threads step in the order the schedule names them. -/
def DerefSystem.run (Object : Addr) (c : DerefSystem) (schedule : List Nat) : DerefSystem :=
  schedule.foldl (DerefSystem.step Object) c

/-- Number of recorded `ExFreePoolWithTag` calls on a block. -/
def freeCalls (Object : Addr) : List Event → Nat
  | [] => 0
  | Event.ExFreePoolWithTag o _ :: rest => (if o = Object then 1 else 0) + freeCalls Object rest
  | _ :: rest => freeCalls Object rest

/-- What a thread still has to subtract: its amount while it stands before the
exchange, 0 afterwards. -/
def DerefThread.pending (t : DerefThread) : Int :=
  if t.pc = DerefPc.exchange then t.RefCount else 0

/-- What the threads together still have to subtract. -/
def pendingSum (threads : List DerefThread) : Int := (threads.map DerefThread.pending).sum

/-- The relation between the position of a thread and its locals. -/
def DerefThread.wf (t : DerefThread) : Prop :=
  0 < t.RefCount
  ∧ (t.pc = DerefPc.exchange → t.observedZero = false)
  ∧ (t.pc = DerefPc.callDelete ∨ t.pc = DerefPc.decrementType ∨ t.pc = DerefPc.removeEntry
      ∨ t.pc = DerefPc.freeObject → t.observedZero = true)
  ∧ (t.pc = DerefPc.returned → t.freed = t.observedZero)
  ∧ (t.freed = true → t.pc = DerefPc.returned)

/-- What holds in every state of a system whose threads release only references
they hold: `slack` references stay with other holders, `d0` and `f0` are the
numbers of delete-procedure calls and of frees of the object recorded before the
threads entered. -/
structure DerefInv (Object : Addr) (slack : Int) (d0 f0 : Nat) (c : DerefSystem) : Prop where
  wf : ∀ (i : Nat) (t : DerefThread), c.threads[i]? = some t → t.wf
  unique : ∀ (i j : Nat) (ti tj : DerefThread), c.threads[i]? = some ti → c.threads[j]? = some tj →
    ti.observedZero = true → tj.observedZero = true → i = j
  live : (∃ (i : Nat) (t : DerefThread), c.threads[i]? = some t ∧ t.pc = DerefPc.exchange) →
    (∀ (i : Nat) (t : DerefThread), c.threads[i]? = some t → t.observedZero = false)
    ∧ ∃ h, c.shared.heap Object = some h ∧ h.RefCount = pendingSum c.threads + slack
        ∧ h.RefCount ≤ 2147483647
  complete : slack = 0 → (∃ (i : Nat) (t : DerefThread), c.threads[i]? = some t) →
    (∃ (i : Nat) (t : DerefThread), c.threads[i]? = some t ∧ t.pc = DerefPc.exchange)
    ∨ (∃ (i : Nat) (t : DerefThread), c.threads[i]? = some t ∧ t.observedZero = true)
  deletes : deleteCalls Object c.shared.trace = d0
    ∨ (deleteCalls Object c.shared.trace = d0 + 1
        ∧ ∃ (i : Nat) (t : DerefThread), c.threads[i]? = some t ∧ t.observedZero = true
            ∧ t.pc ≠ DerefPc.exchange ∧ t.pc ≠ DerefPc.callDelete)
  frees : (freeCalls Object c.shared.trace = f0 ∧ ∀ (i : Nat) (t : DerefThread), c.threads[i]? = some t → t.freed = false)
    ∨ (freeCalls Object c.shared.trace = f0 + 1 ∧ ∃ (i : Nat) (t : DerefThread), c.threads[i]? = some t ∧ t.freed = true)

/-! ## Sample states -/

def sampleEnv (r : Option Addr) : Env :=
  { ExAllocatePoolWithTag := fun _ _ _ => r,
    sizeofObjectHeader := 36, sizeofObjectType := 44, sizeofULONG := 4 }

/-- A manager on which nothing has run yet. -/
def emptyState : State :=
  { heap := fun _ => none, KphObjectListHead := [], KphObjectType := none, trace := [] }

/-- Header of the root type right after `KphRefInit`. -/
def bootRootHeader : KPH_OBJECT_HEADER :=
  { RefCount := 1, Flags := 0, Size := 44, Type_ := some 16,
    Body := some { DefaultPoolType := POOL_TYPE.NonPagedPool,
                   DeleteProcedure := none, NumberOfObjects := 1 } }

/-- The manager after `KphRefInit` obtained the block 16 for the root type. -/
def bootState : State :=
  { heap := fun a => if a = 16 then some bootRootHeader else none,
    KphObjectListHead := [16], KphObjectType := some 16,
    trace := [Event.ExAllocatePoolWithTag POOL_TYPE.NonPagedPool 76 TAG_KPHOBJ (some 16),
              Event.InsertHeadList 16] }

/-- Body of the sample type: paged pool, delete procedure 7, one live object. -/
def sampleType : KPH_OBJECT_TYPE :=
  { DefaultPoolType := POOL_TYPE.PagedPool, DeleteProcedure := some 7, NumberOfObjects := 1 }

/-- Header of the sample type object. -/
def sampleTypeHeader : KPH_OBJECT_HEADER :=
  { RefCount := 1, Flags := 0, Size := 44, Type_ := some 16, Body := some sampleType }

/-- Header of the sample object: count 1, created with flags 2 and size 8, of type 32. -/
def sampleObject : KPH_OBJECT_HEADER :=
  { RefCount := 1, Flags := 2, Size := 8, Type_ := some 32, Body := none }

/-- A manager holding the root type 16, the sample type 32 and the sample object 48. -/
def sampleState : State :=
  { heap := fun a =>
      if a = 16 then
        some { RefCount := 1, Flags := 0, Size := 44, Type_ := some 16,
               Body := some { DefaultPoolType := POOL_TYPE.NonPagedPool,
                              DeleteProcedure := none, NumberOfObjects := 2 } }
      else if a = 32 then some sampleTypeHeader
      else if a = 48 then some sampleObject
      else none,
    KphObjectListHead := [48, 32, 16], KphObjectType := some 16,
    trace := [] }

/-- The sample manager with two references held on the object 48. -/
def sampleStateTwo : State :=
  { sampleState with
    heap := heapSet sampleState.heap 48 (some { sampleObject with RefCount := 2 }) }

end KphRef

/-!
# KProcessHacker hooks (`hooks.c`)

A shallow embedding of the hook macros and of the trampolines of `hooks.c`.

Conventions of the embedding

* A pointer and a `HANDLE` are natural numbers, `0` being `NULL`.
* The dispatch table is a function from the entry index to the entry.
* `ssdt.h` / `ssdt.c`, `hooks.h` and `debug.h` are not among the sources. What
  `hooks.c` takes from them is a parameter: the table accessor (`Ssdt`), the
  addresses of the `Zw` exports and of the trampolines, and the compile-time
  switches. `dprintf` / `dwprintf` append a message to a debug log.
* `ClientPID` and `OrigKiServiceTable` are `extern`: they are fields of the
  state, written by other parts of the driver.
* Calling through a function pointer runs code that is not in `hooks.c`: its
  effect on the kernel is the parameter `Env.invoke`, and each such call is
  recorded, with the pointer and the arguments, in the trace of the world.
-/

namespace KphHooks

/-! ## Basic types and constants -/

abbrev PVOID := Nat

abbrev HANDLE := Nat

def STATUS_NOT_IMPLEMENTED : KphRef.NTSTATUS := 0xC0000002
def STATUS_ACCESS_VIOLATION : KphRef.NTSTATUS := 0xC0000005

/-- The native calls `hooks.c` has a trampoline `NewNt..` and a saved pointer
`OldNt..` for, named without the `Zw` / `Nt` part. -/
inductive Routine where
  | CreateFile | CreateKey | DeleteKey | DeleteValueKey | DuplicateObject
  | EnumerateKey | EnumerateValueKey | OpenFile | OpenKey | OpenProcess
  | OpenThread | QueryInformationFile | QueryInformationProcess
  | QueryInformationThread | QueryKey | QuerySystemInformation | QueryValueKey
  | ReadFile | SetInformationFile | SetInformationProcess | SetInformationThread
  | SetValueKey | TerminateProcess | TerminateThread | WriteFile
  deriving DecidableEq, Repr

/-- The routines that have a variable `Zw..Index` (lines 74-79) and are reached
by `HOOK_INDEX`, `UNHOOK_INDEX` and `CallOrigByIndex`. -/
inductive IndexRoutine where
  | OpenThread | QueryInformationProcess | QueryInformationThread
  | QuerySystemInformation | SetInformationProcess | TerminateThread
  deriving DecidableEq, Repr

def IndexRoutine.routine : IndexRoutine → Routine
  | IndexRoutine.OpenThread => Routine.OpenThread
  | IndexRoutine.QueryInformationProcess => Routine.QueryInformationProcess
  | IndexRoutine.QueryInformationThread => Routine.QueryInformationThread
  | IndexRoutine.QuerySystemInformation => Routine.QuerySystemInformation
  | IndexRoutine.SetInformationProcess => Routine.SetInformationProcess
  | IndexRoutine.TerminateThread => Routine.TerminateThread

/-- The dispatch table: entry index to entry. -/
abbrev Table := Nat → PVOID

def tableSet (t : Table) (i : Nat) (v : PVOID) : Table :=
  fun j => if j = i then v else t j

/-- What `hooks.c` uses of `ssdt.h` / `ssdt.c`: the macro `SYSCALL_INDEX` and the
four accessor functions. A modify function returns the value it hands back and
the table it leaves; a restore function returns the table it leaves. -/
structure Ssdt where
  SYSCALL_INDEX : PVOID → Nat
  SsdtModifyEntryByCall : Table → PVOID → PVOID → PVOID × Table
  SsdtModifyEntryByIndex : Table → Nat → PVOID → PVOID × Table
  SsdtRestoreEntryByCall : Table → PVOID → PVOID → PVOID → Table
  SsdtRestoreEntryByIndex : Table → Nat → PVOID → PVOID → Table

/-- Modelled from the spec: the contract of the Hook Table Accessor of `ssdt.c`,
which is not among the sources. Installation "replaces the table entry ... with
the routine's trampoline, receiving back whatever value was there before";
uninstall "restores `savedOriginal` into the table". A function given by call
address works on the entry `SYSCALL_INDEX` names. -/
def Ssdt.Lawful (ssdt : Ssdt) : Prop :=
  (∀ t i f, ssdt.SsdtModifyEntryByIndex t i f = (t i, tableSet t i f))
  ∧ (∀ t z f, ssdt.SsdtModifyEntryByCall t z f
      = (t (ssdt.SYSCALL_INDEX z), tableSet t (ssdt.SYSCALL_INDEX z) f))
  ∧ (∀ t i old new, ssdt.SsdtRestoreEntryByIndex t i old new = tableSet t i old)
  ∧ (∀ t z old new, ssdt.SsdtRestoreEntryByCall t z old new
      = tableSet t (ssdt.SYSCALL_INDEX z) old)

/-- Modelled from the spec: the Hook Table Accessor of `ssdt.c`, which is not among
the sources, as the spec describes it: modify writes the new entry and returns
the previous one, restore writes the old entry it is given. -/
def specSsdt (SYSCALL_INDEX : PVOID → Nat) : Ssdt :=
  { SYSCALL_INDEX := SYSCALL_INDEX,
    SsdtModifyEntryByCall := fun t z f => (t (SYSCALL_INDEX z), tableSet t (SYSCALL_INDEX z) f),
    SsdtModifyEntryByIndex := fun t i f => (t i, tableSet t i f),
    SsdtRestoreEntryByCall := fun t z old _ => tableSet t (SYSCALL_INDEX z) old,
    SsdtRestoreEntryByIndex := fun t i old _ => tableSet t i old }

/-- The thread that entered a trampoline: `PsGetProcessId(PsGetCurrentProcess())`
and `PsIsSystemThread(PsGetCurrentThread())`. -/
structure Caller where
  ProcessId : HANDLE
  IsSystemThread : Bool
  deriving DecidableEq, Repr

/-- The part of the kernel the trampolines look at: the words of memory the
current thread can read (`none` where an access faults) and the handle table of
the calling process (handle and object). -/
structure KernelState where
  memory : Nat → Option Nat
  handleTable : List (HANDLE × PVOID)

/-- Calls a trampoline makes, in program order. -/
inductive Event where
  | call (target : PVOID) (args : List Nat)
  | ObReferenceObjectByHandle (Handle : HANDLE) (status : KphRef.NTSTATUS) (Object : PVOID)
  | ObDereferenceObject (Object : PVOID)
  deriving DecidableEq, Repr

structure World where
  kernel : KernelState
  trace : List Event

/-- Lines of the debug log. -/
inductive Message where
  | warningAlreadySet (f : Routine)
  | noSuitableIndices (dwMajorVersion dwMinorVersion : Nat)
  | hookingFile | hookingKey | hookingProcess | hookingInformation | hooked
  | unhookingFile | unhookingKey | unhookingProcess | unhookingInformation | unhooked
  deriving DecidableEq, Repr

/-- What the build and the kernel supply. -/
structure Env where
  ssdt : Ssdt
  Zw : Routine → PVOID
  NewNt : Routine → PVOID
  PROTECT_CLIENT : Bool
  HOOK_FILE : Bool
  HOOK_KEY : Bool
  HOOK_PROCESS : Bool
  HOOK_INFORMATION : Bool
  sizeofCLIENT_ID : Nat
  invoke : PVOID → List Nat → Caller → KernelState → KphRef.NTSTATUS × KernelState
  ProbeForRead : KernelState → Nat → Nat → Nat → Bool
  ObReferenceObjectByHandle : KernelState → Caller → HANDLE → KphRef.NTSTATUS × PVOID
  threadProcessId : KernelState → PVOID → HANDLE

/-- The globals of `hooks.c` with the live dispatch table. -/
structure HookState where
  KiServiceTable : Table
  OldNt : Routine → PVOID
  ZwOpenThreadIndex : Nat
  ZwQueryInformationProcessIndex : Nat
  ZwQueryInformationThreadIndex : Nat
  ZwQuerySystemInformationIndex : Nat
  ZwSetInformationProcessIndex : Nat
  ZwTerminateThreadIndex : Nat
  ClientPID : Int
  OrigKiServiceTable : Option Table
  debug : List Message

/-- The globals as their initialisers leave them (lines 74-105): every index 0,
every saved pointer `NULL`. -/
def initialHookState (table : Table) (ClientPID : Int) (orig : Option Table) : HookState :=
  { KiServiceTable := table,
    OldNt := fun _ => 0,
    ZwOpenThreadIndex := 0,
    ZwQueryInformationProcessIndex := 0,
    ZwQueryInformationThreadIndex := 0,
    ZwQuerySystemInformationIndex := 0,
    ZwSetInformationProcessIndex := 0,
    ZwTerminateThreadIndex := 0,
    ClientPID := ClientPID,
    OrigKiServiceTable := orig,
    debug := [] }

/-- The variable `Zw..Index` of a routine. -/
def HookState.ZwIndex (s : HookState) : IndexRoutine → Nat
  | IndexRoutine.OpenThread => s.ZwOpenThreadIndex
  | IndexRoutine.QueryInformationProcess => s.ZwQueryInformationProcessIndex
  | IndexRoutine.QueryInformationThread => s.ZwQueryInformationThreadIndex
  | IndexRoutine.QuerySystemInformation => s.ZwQuerySystemInformationIndex
  | IndexRoutine.SetInformationProcess => s.ZwSetInformationProcessIndex
  | IndexRoutine.TerminateThread => s.ZwTerminateThreadIndex

/-- The macro `OrigEmpty`: `OrigKiServiceTable == NULL`. -/
def HookState.OrigEmpty (s : HookState) : Bool := s.OrigKiServiceTable.isNone

def setOldNt (OldNt : Routine → PVOID) (f : Routine) (v : PVOID) : Routine → PVOID :=
  fun g => if g = f then v else OldNt g

/-! ## The hook macros -/

/-- `HOOK_CALL(f)`. -/
def HOOK_CALL (env : Env) (s : HookState) (f : Routine) : HookState :=
  match env.ssdt.SsdtModifyEntryByCall s.KiServiceTable (env.Zw f) (env.NewNt f) with
  | (temp, table) =>
    if temp ≠ env.NewNt f then
      { s with KiServiceTable := table, OldNt := setOldNt s.OldNt f temp }
    else
      { s with KiServiceTable := table, debug := s.debug ++ [Message.warningAlreadySet f] }

/-- `HOOK_INDEX(f)`. -/
def HOOK_INDEX (env : Env) (s : HookState) (f : IndexRoutine) : HookState :=
  match env.ssdt.SsdtModifyEntryByIndex s.KiServiceTable (s.ZwIndex f) (env.NewNt f.routine) with
  | (temp, table) =>
    if temp ≠ env.NewNt f.routine then
      { s with KiServiceTable := table, OldNt := setOldNt s.OldNt f.routine temp }
    else
      { s with KiServiceTable := table,
               debug := s.debug ++ [Message.warningAlreadySet f.routine] }

/-- `UNHOOK_CALL(f)`. -/
def UNHOOK_CALL (env : Env) (s : HookState) (f : Routine) : HookState :=
  { s with
    KiServiceTable :=
      env.ssdt.SsdtRestoreEntryByCall s.KiServiceTable (env.Zw f) (s.OldNt f) (env.NewNt f) }

/-- `UNHOOK_INDEX(f)`. -/
def UNHOOK_INDEX (env : Env) (s : HookState) (f : IndexRoutine) : HookState :=
  { s with
    KiServiceTable :=
      env.ssdt.SsdtRestoreEntryByIndex s.KiServiceTable (s.ZwIndex f) (s.OldNt f.routine)
        (env.NewNt f.routine) }

/-- A routine together with its install method. -/
inductive Hooked where
  | ByAddress (f : Routine)
  | ByIndex (f : IndexRoutine)
  deriving DecidableEq, Repr

def Hooked.routine : Hooked → Routine
  | Hooked.ByAddress f => f
  | Hooked.ByIndex f => f.routine

/-- The index of the table entry of a hooked routine. -/
def entryIndex (env : Env) (s : HookState) : Hooked → Nat
  | Hooked.ByAddress f => env.ssdt.SYSCALL_INDEX (env.Zw f)
  | Hooked.ByIndex f => s.ZwIndex f

/-- Installing a routine: `HOOK_CALL` or `HOOK_INDEX` according to its method. -/
def install (env : Env) (s : HookState) : Hooked → HookState
  | Hooked.ByAddress f => HOOK_CALL env s f
  | Hooked.ByIndex f => HOOK_INDEX env s f

/-- Uninstalling a routine: `UNHOOK_CALL` or `UNHOOK_INDEX` according to its method. -/
def uninstall (env : Env) (s : HookState) : Hooked → HookState
  | Hooked.ByAddress f => UNHOOK_CALL env s f
  | Hooked.ByIndex f => UNHOOK_INDEX env s f

/-- Modelled from the spec: another hooking agent installs its trampoline over a
table entry and keeps the value it found there (the scenario of section 8 and of
the comment at lines 42-62; such an agent is not part of this repository). -/
def otherAgentInstall (table : Table) (i : Nat) (trampoline : PVOID) : PVOID × Table :=
  (table i, tableSet table i trampoline)

/-- Modelled from the spec: the other agent puts back the value it kept. -/
def otherAgentUninstall (table : Table) (i : Nat) (saved : PVOID) : Table :=
  tableSet table i saved

/-- The scenario of the comment at lines 42-62 for a routine: this driver
installs, another agent installs on top, this driver uninstalls, the other agent
uninstalls, this driver installs again. The result is the final state and the
value the other agent had kept. -/
def reentrancyScenario (env : Env) (s0 : HookState) (R : Hooked) (otherTrampoline : PVOID) :
    HookState × PVOID :=
  let s1 := install env s0 R
  let other := otherAgentInstall s1.KiServiceTable (entryIndex env s1 R) otherTrampoline
  let s2 : HookState := { s1 with KiServiceTable := other.2 }
  let s3 := uninstall env s2 R
  let s4 : HookState :=
    { s3 with
      KiServiceTable := otherAgentUninstall s3.KiServiceTable (entryIndex env s3 R) other.1 }
  (install env s4 R, other.1)

/-- The invariant on the saved pointers: none is the address of its own trampoline. -/
def SavedNeverTrampoline (env : Env) (s : HookState) : Prop :=
  ∀ f : Routine, s.OldNt f ≠ env.NewNt f

/-- What can happen to the table and the saved pointers while the driver is
loaded: this driver installs or uninstalls a routine, or other code writes a
table entry. -/
inductive HookOp where
  | install (R : Hooked)
  | uninstall (R : Hooked)
  | tableWrite (i : Nat) (v : PVOID)
  deriving DecidableEq, Repr

def applyHookOp (env : Env) (s : HookState) : HookOp → HookState
  | HookOp.install R => install env s R
  | HookOp.uninstall R => uninstall env s R
  | HookOp.tableWrite i v => { s with KiServiceTable := tableSet s.KiServiceTable i v }

/-- A run of such steps, in order. -/
def runHookOps (env : Env) (s : HookState) (ops : List HookOp) : HookState :=
  ops.foldl (applyHookOp env) s

/-! ## The trampolines -/

/-- The `int` `ClientPID` converted to the pointer-sized value it is compared as
(32-bit kernel, the one the table indices of `KPHHook` are for). -/
def handleOfInt (x : Int) : HANDLE := (x % 4294967296).toNat

/-- A call through a function pointer, recorded in the trace. -/
def callPointer (env : Env) (target : PVOID) (args : List Nat) (caller : Caller) (w : World) :
    KphRef.NTSTATUS × World :=
  match env.invoke target args caller w.kernel with
  | (status, kernel) =>
    (status, { kernel := kernel, trace := w.trace ++ [Event.call target args] })

/-- `CallOrig(f, ...)`: the call goes to the entry of the snapshot at
`SYSCALL_INDEX(f)`; `none` when the snapshot pointer is `NULL`. -/
def CallOrig (env : Env) (s : HookState) (f : Routine) (args : List Nat) (caller : Caller)
    (w : World) : Option (KphRef.NTSTATUS × World) :=
  match s.OrigKiServiceTable with
  | some orig => some (callPointer env (orig (env.ssdt.SYSCALL_INDEX (env.Zw f))) args caller w)
  | none => none

/-- `CallOrigByIndex(f, ...)`: the call goes to the entry of the snapshot at
`f##Index`. -/
def CallOrigByIndex (env : Env) (s : HookState) (f : IndexRoutine) (args : List Nat)
    (caller : Caller) (w : World) : Option (KphRef.NTSTATUS × World) :=
  match s.OrigKiServiceTable with
  | some orig => some (callPointer env (orig (s.ZwIndex f)) args caller w)
  | none => none

/-- The body shared by the trampolines that use `CallOrig` (all but
`NewNtOpenProcess` among those installed by `HOOK_CALL`). -/
def NewNtByCall (env : Env) (s : HookState) (f : Routine) (caller : Caller) (args : List Nat)
    (w : World) : Option (KphRef.NTSTATUS × World) :=
  if caller.ProcessId = handleOfInt s.ClientPID ∧ s.OrigEmpty = false then
    CallOrig env s f args caller w
  else
    some (callPointer env (s.OldNt f) args caller w)

/-- The body shared by the trampolines that use `CallOrigByIndex` (all but
`NewNtOpenThread` among those installed by `HOOK_INDEX`). -/
def NewNtByIndex (env : Env) (s : HookState) (f : IndexRoutine) (caller : Caller)
    (args : List Nat) (w : World) : Option (KphRef.NTSTATUS × World) :=
  if caller.ProcessId = handleOfInt s.ClientPID ∧ s.OrigEmpty = false then
    CallOrigByIndex env s f args caller w
  else
    some (callPointer env (s.OldNt f.routine) args caller w)

/-- `NewNtOpenProcess`. -/
def NewNtOpenProcess (env : Env) (s : HookState) (caller : Caller)
    (ProcessHandle DesiredAccess ObjectAttributes ClientId : Nat) (w : World) :
    Option (KphRef.NTSTATUS × World) :=
  let guarded : Option KphRef.NTSTATUS :=
    if env.PROTECT_CLIENT = true ∧ caller.ProcessId ≠ handleOfInt s.ClientPID
        ∧ caller.IsSystemThread = false then
      match (if env.ProbeForRead w.kernel ClientId env.sizeofCLIENT_ID 1 = true
             then w.kernel.memory ClientId else none) with
      | none => some STATUS_ACCESS_VIOLATION
      | some UniqueProcess =>
        if UniqueProcess = handleOfInt s.ClientPID then some STATUS_NOT_IMPLEMENTED else none
    else none
  match guarded with
  | some status => some (status, w)
  | none =>
    if caller.ProcessId = handleOfInt s.ClientPID ∧ s.OrigEmpty = false then
      CallOrig env s Routine.OpenProcess
        [ProcessHandle, DesiredAccess, ObjectAttributes, ClientId] caller w
    else
      some (callPointer env (s.OldNt Routine.OpenProcess)
        [ProcessHandle, DesiredAccess, ObjectAttributes, ClientId] caller w)

/-- `NewNtOpenThread`; `none` when reading `*ThreadHandle` faults. -/
def NewNtOpenThread (env : Env) (s : HookState) (caller : Caller)
    (ThreadHandle DesiredAccess ObjectAttributes ClientId : Nat) (w : World) :
    Option (KphRef.NTSTATUS × World) :=
  if caller.ProcessId = handleOfInt s.ClientPID ∧ s.OrigEmpty = false then
    CallOrigByIndex env s IndexRoutine.OpenThread
      [ThreadHandle, DesiredAccess, ObjectAttributes, ClientId] caller w
  else
    match callPointer env (s.OldNt Routine.OpenThread)
        [ThreadHandle, DesiredAccess, ObjectAttributes, ClientId] caller w with
    | (status, w1) =>
      if env.PROTECT_CLIENT = true then
        if status = KphRef.STATUS_SUCCESS ∧ caller.IsSystemThread = false then
          match w1.kernel.memory ThreadHandle with
          | none => none
          | some handle =>
            match env.ObReferenceObjectByHandle w1.kernel caller handle with
            | (status2, eThread) =>
              let w2 : World :=
                { w1 with
                  trace := w1.trace ++ [Event.ObReferenceObjectByHandle handle status2 eThread] }
              if status2 ≠ KphRef.STATUS_SUCCESS then some (status2, w2)
              else if env.threadProcessId w2.kernel eThread = handleOfInt s.ClientPID then
                some (STATUS_NOT_IMPLEMENTED,
                  { kernel :=
                      { w2.kernel with
                        memory := fun a => if a = ThreadHandle then some 0
                                           else w2.kernel.memory a },
                    trace := w2.trace ++ [Event.ObDereferenceObject eThread] })
              else
                some (KphRef.STATUS_SUCCESS,
                  { w2 with trace := w2.trace ++ [Event.ObDereferenceObject eThread] })
        else some (status, w1)
      else some (status, w1)

/-- The trampoline `NewNt..` of a routine other than open-process and open-thread,
applied to its argument list: the twenty-three functions `NewNtCreateFile`, ..,
`NewNtWriteFile` of the source differ only in the routine they name and in
`CallOrig` against `CallOrigByIndex`. For the two special routines the list is
the four arguments. -/
def NewNt (env : Env) (s : HookState) (f : Routine) (caller : Caller) (args : List Nat)
    (w : World) : Option (KphRef.NTSTATUS × World) :=
  match f with
  | Routine.OpenProcess =>
    NewNtOpenProcess env s caller (args.getD 0 0) (args.getD 1 0) (args.getD 2 0)
      (args.getD 3 0) w
  | Routine.OpenThread =>
    NewNtOpenThread env s caller (args.getD 0 0) (args.getD 1 0) (args.getD 2 0)
      (args.getD 3 0) w
  | Routine.QueryInformationProcess =>
    NewNtByIndex env s IndexRoutine.QueryInformationProcess caller args w
  | Routine.QueryInformationThread =>
    NewNtByIndex env s IndexRoutine.QueryInformationThread caller args w
  | Routine.QuerySystemInformation =>
    NewNtByIndex env s IndexRoutine.QuerySystemInformation caller args w
  | Routine.SetInformationProcess =>
    NewNtByIndex env s IndexRoutine.SetInformationProcess caller args w
  | Routine.TerminateThread =>
    NewNtByIndex env s IndexRoutine.TerminateThread caller args w
  | g => NewNtByCall env s g caller args w

/-- The index of the snapshot entry a routine's trampoline calls for the client. -/
def snapshotIndex (env : Env) (s : HookState) : Routine → Nat
  | Routine.OpenThread => s.ZwOpenThreadIndex
  | Routine.QueryInformationProcess => s.ZwQueryInformationProcessIndex
  | Routine.QueryInformationThread => s.ZwQueryInformationThreadIndex
  | Routine.QuerySystemInformation => s.ZwQuerySystemInformationIndex
  | Routine.SetInformationProcess => s.ZwSetInformationProcessIndex
  | Routine.TerminateThread => s.ZwTerminateThreadIndex
  | g => env.ssdt.SYSCALL_INDEX (env.Zw g)

/-! ## `KPHHook` and `KPHUnhook` -/

/-- A run of `KPHHook`: the globals, the local `temp` (line 671), and a record of the
calls of `SsdtModifyEntryByCall` and `SsdtModifyEntryByIndex` made so far, in
program order, as the routines they were made for with their method (the record
is kept beside the state; the source has no such variable). -/
structure HookRun where
  state : HookState
  temp : PVOID
  calls : List Hooked

/-- `dprintf`. -/
def HookRun.dprintf (r : HookRun) (m : Message) : HookRun :=
  { r with state := { r.state with debug := r.state.debug ++ [m] } }

/-- The first statement of `HOOK_CALL(f)` and of `HOOK_INDEX(f)`:
`temp = SsdtModifyEntryByCall(Zw##f, NewNt##f);`, or
`temp = SsdtModifyEntryByIndex(Zw##f##Index, NewNt##f);`. -/
def HookRun.modifyEntry (env : Env) (r : HookRun) : Hooked → HookRun
  | Hooked.ByAddress f =>
    match env.ssdt.SsdtModifyEntryByCall r.state.KiServiceTable (env.Zw f) (env.NewNt f) with
    | (temp, table) =>
      { state := { r.state with KiServiceTable := table },
        temp := temp,
        calls := r.calls ++ [Hooked.ByAddress f] }
  | Hooked.ByIndex f =>
    match env.ssdt.SsdtModifyEntryByIndex r.state.KiServiceTable (r.state.ZwIndex f)
        (env.NewNt f.routine) with
    | (temp, table) =>
      { state := { r.state with KiServiceTable := table },
        temp := temp,
        calls := r.calls ++ [Hooked.ByIndex f] }

/-- The second statement of `HOOK_CALL(f)` and of `HOOK_INDEX(f)`:
`if (temp != NewNt##f) OldNt##f = temp; else dwprintf(..);`. -/
def HookRun.saveOriginal (env : Env) (r : HookRun) (f : Routine) : HookRun :=
  if r.temp ≠ env.NewNt f then
    { r with state := { r.state with OldNt := setOldNt r.state.OldNt f r.temp } }
  else
    { r with state := { r.state with debug := r.state.debug ++ [Message.warningAlreadySet f] } }

/-- `HOOK_CALL(f);` as a statement of `KPHHook`: both statements of the macro run. -/
def HookRun.hook (env : Env) (r : HookRun) (f : Routine) : HookRun :=
  (r.modifyEntry env (Hooked.ByAddress f)).saveOriginal env f

/-- `if (Zw##f##Index != 0) HOOK_INDEX(f);`. The macro expands to two statements
without braces, so the `if` governs the first one only: the table is written
when the index is not 0, and the second statement runs in either case, with the
`temp` of the last table write when this one was passed over. -/
def HookRun.hookIndex (env : Env) (r : HookRun) (f : IndexRoutine) : HookRun :=
  (if r.state.ZwIndex f ≠ 0 then r.modifyEntry env (Hooked.ByIndex f) else r).saveOriginal env
    f.routine

/-- A run of `KPHUnhook`: the globals and a record of the calls of
`SsdtRestoreEntryByCall` and `SsdtRestoreEntryByIndex` made so far, in program
order (`KPHUnhook` has no local). -/
structure UnhookRun where
  state : HookState
  calls : List Hooked

/-- `dprintf`. -/
def UnhookRun.dprintf (r : UnhookRun) (m : Message) : UnhookRun :=
  { r with state := { r.state with debug := r.state.debug ++ [m] } }

/-- One `UNHOOK_CALL(f)` or `UNHOOK_INDEX(f)` of `KPHUnhook` (a single statement). -/
def UnhookRun.unhook (env : Env) (r : UnhookRun) (R : Hooked) : UnhookRun :=
  { state := uninstall env r.state R, calls := r.calls ++ [R] }

/-- `if (Zw##f##Index != 0) UNHOOK_INDEX(f);`. -/
def UnhookRun.unhookIndex (env : Env) (r : UnhookRun) (f : IndexRoutine) : UnhookRun :=
  if r.state.ZwIndex f ≠ 0 then r.unhook env (Hooked.ByIndex f) else r

/-- The version test of `KPHHook` (lines 680-704). -/
def setIndices (s : HookState) (dwMajorVersion dwMinorVersion : Nat) : HookState :=
  if dwMajorVersion = 5 ∧ dwMinorVersion = 1 then
    { s with
      ZwOpenThreadIndex := 0x80,
      ZwQueryInformationProcessIndex := 0x9a,
      ZwQueryInformationThreadIndex := 0x9b,
      ZwQuerySystemInformationIndex := 0xad,
      ZwSetInformationProcessIndex := 0xe4,
      ZwTerminateThreadIndex := 0x102 }
  else if dwMajorVersion = 6 ∧ dwMinorVersion = 0 then
    { s with
      ZwOpenThreadIndex := 0xc9,
      ZwQueryInformationProcessIndex := 0xe4,
      ZwQueryInformationThreadIndex := 0xe5,
      ZwQuerySystemInformationIndex := 0xf8,
      ZwSetInformationProcessIndex := 0x131,
      ZwTerminateThreadIndex := 0x14f }
  else
    { s with
      debug := s.debug ++ [Message.noSuitableIndices dwMajorVersion dwMinorVersion] }

/-- The block of `KPHHook` under `#ifdef HOOK_FILE` (lines 706-714). -/
def hookFileFunctions (env : Env) (r : HookRun) : HookRun :=
  if env.HOOK_FILE = true then
    ((((((r.dprintf Message.hookingFile).hook env
      Routine.CreateFile).hook env
      Routine.OpenFile).hook env
      Routine.QueryInformationFile).hook env
      Routine.ReadFile).hook env
      Routine.SetInformationFile).hook env
      Routine.WriteFile
  else r

/-- The block of `KPHHook` under `#ifdef HOOK_KEY` (lines 716-727). -/
def hookKeyFunctions (env : Env) (r : HookRun) : HookRun :=
  if env.HOOK_KEY = true then
    (((((((((r.dprintf Message.hookingKey).hook env
      Routine.CreateKey).hook env
      Routine.DeleteKey).hook env
      Routine.DeleteValueKey).hook env
      Routine.EnumerateKey).hook env
      Routine.EnumerateValueKey).hook env
      Routine.OpenKey).hook env
      Routine.QueryKey).hook env
      Routine.QueryValueKey).hook env
      Routine.SetValueKey
  else r

/-- The block of `KPHHook` under `#ifdef HOOK_PROCESS` (lines 729-745). -/
def hookProcessFunctions (env : Env) (r : HookRun) : HookRun :=
  if env.HOOK_PROCESS = true then
    ((((((((r.dprintf Message.hookingProcess).hook env
      Routine.OpenProcess).hookIndex env
      IndexRoutine.OpenThread).hookIndex env
      IndexRoutine.QueryInformationProcess).hookIndex env
      IndexRoutine.QueryInformationThread).hookIndex env
      IndexRoutine.SetInformationProcess).hook env
      Routine.SetInformationThread).hook env
      Routine.TerminateProcess).hookIndex env
      IndexRoutine.TerminateThread
  else r

/-- The block of `KPHHook` under `#ifdef HOOK_INFORMATION` (lines 747-752). -/
def hookInformationFunctions (env : Env) (r : HookRun) : HookRun :=
  if env.HOOK_INFORMATION = true then
    ((r.dprintf Message.hookingInformation).hook env
      Routine.DuplicateObject).hookIndex env
      IndexRoutine.QuerySystemInformation
  else r

/-- `KPHHook`. `RtlGetVersion` is what the kernel's `RtlGetVersion` gives: its status
and the two version numbers it stores. The local `temp` starts as `NULL`. -/
def KPHHook (env : Env) (RtlGetVersion : KphRef.NTSTATUS × Nat × Nat) (s : HookState) :
    KphRef.NTSTATUS × HookRun :=
  match RtlGetVersion with
  | (status, dwMajorVersion, dwMinorVersion) =>
    if status ≠ KphRef.STATUS_SUCCESS then (status, { state := s, temp := 0, calls := [] })
    else
      (KphRef.STATUS_SUCCESS,
        (hookInformationFunctions env
          (hookProcessFunctions env
            (hookKeyFunctions env
              (hookFileFunctions env
                { state := setIndices s dwMajorVersion dwMinorVersion,
                  temp := 0,
                  calls := [] })))).dprintf Message.hooked)

/-- The block of `KPHUnhook` under `#ifdef HOOK_FILE` (lines 761-769). -/
def unhookFileFunctions (env : Env) (r : UnhookRun) : UnhookRun :=
  if env.HOOK_FILE = true then
    ((((((r.dprintf Message.unhookingFile).unhook env
      (Hooked.ByAddress Routine.CreateFile)).unhook env
      (Hooked.ByAddress Routine.OpenFile)).unhook env
      (Hooked.ByAddress Routine.QueryInformationFile)).unhook env
      (Hooked.ByAddress Routine.ReadFile)).unhook env
      (Hooked.ByAddress Routine.SetInformationFile)).unhook env
      (Hooked.ByAddress Routine.WriteFile)
  else r

/-- The block of `KPHUnhook` under `#ifdef HOOK_KEY` (lines 771-782). -/
def unhookKeyFunctions (env : Env) (r : UnhookRun) : UnhookRun :=
  if env.HOOK_KEY = true then
    (((((((((r.dprintf Message.unhookingKey).unhook env
      (Hooked.ByAddress Routine.CreateKey)).unhook env
      (Hooked.ByAddress Routine.DeleteKey)).unhook env
      (Hooked.ByAddress Routine.DeleteValueKey)).unhook env
      (Hooked.ByAddress Routine.EnumerateKey)).unhook env
      (Hooked.ByAddress Routine.EnumerateValueKey)).unhook env
      (Hooked.ByAddress Routine.OpenKey)).unhook env
      (Hooked.ByAddress Routine.QueryKey)).unhook env
      (Hooked.ByAddress Routine.QueryValueKey)).unhook env
      (Hooked.ByAddress Routine.SetValueKey)
  else r

/-- The block of `KPHUnhook` under `#ifdef HOOK_PROCESS` (lines 784-800). -/
def unhookProcessFunctions (env : Env) (r : UnhookRun) : UnhookRun :=
  if env.HOOK_PROCESS = true then
    ((((((((r.dprintf Message.unhookingProcess).unhook env
      (Hooked.ByAddress Routine.OpenProcess)).unhookIndex env
      IndexRoutine.OpenThread).unhookIndex env
      IndexRoutine.QueryInformationProcess).unhookIndex env
      IndexRoutine.QueryInformationThread).unhookIndex env
      IndexRoutine.SetInformationProcess).unhook env
      (Hooked.ByAddress Routine.SetInformationThread)).unhook env
      (Hooked.ByAddress Routine.TerminateProcess)).unhookIndex env
      IndexRoutine.TerminateThread
  else r

/-- The block of `KPHUnhook` under `#ifdef HOOK_INFORMATION` (lines 802-807). -/
def unhookInformationFunctions (env : Env) (r : UnhookRun) : UnhookRun :=
  if env.HOOK_INFORMATION = true then
    ((r.dprintf Message.unhookingInformation).unhook env
      (Hooked.ByAddress Routine.DuplicateObject)).unhookIndex env
      IndexRoutine.QuerySystemInformation
  else r

/-- `KPHUnhook`. -/
def KPHUnhook (env : Env) (s : HookState) : UnhookRun :=
  (unhookInformationFunctions env
    (unhookProcessFunctions env
      (unhookKeyFunctions env
        (unhookFileFunctions env { state := s, calls := [] })))).dprintf Message.unhooked

/-- The routines the block under `HOOK_FILE` names, in program order. -/
def filePlan (env : Env) : List Hooked :=
  if env.HOOK_FILE = true then
    [Hooked.ByAddress Routine.CreateFile, Hooked.ByAddress Routine.OpenFile,
     Hooked.ByAddress Routine.QueryInformationFile, Hooked.ByAddress Routine.ReadFile,
     Hooked.ByAddress Routine.SetInformationFile, Hooked.ByAddress Routine.WriteFile]
  else []

/-- The routines the block under `HOOK_KEY` names, in program order. -/
def keyPlan (env : Env) : List Hooked :=
  if env.HOOK_KEY = true then
    [Hooked.ByAddress Routine.CreateKey, Hooked.ByAddress Routine.DeleteKey,
     Hooked.ByAddress Routine.DeleteValueKey, Hooked.ByAddress Routine.EnumerateKey,
     Hooked.ByAddress Routine.EnumerateValueKey, Hooked.ByAddress Routine.OpenKey,
     Hooked.ByAddress Routine.QueryKey, Hooked.ByAddress Routine.QueryValueKey,
     Hooked.ByAddress Routine.SetValueKey]
  else []

/-- A routine hooked by index, when its index `Z f` is not 0. -/
def indexPlan (Z : IndexRoutine → Nat) (f : IndexRoutine) : List Hooked :=
  if Z f ≠ 0 then [Hooked.ByIndex f] else []

/-- The routines the block under `HOOK_PROCESS` names, in program order, for the
index values `Z`. -/
def processPlan (env : Env) (Z : IndexRoutine → Nat) : List Hooked :=
  if env.HOOK_PROCESS = true then
    [Hooked.ByAddress Routine.OpenProcess]
      ++ indexPlan Z IndexRoutine.OpenThread
      ++ indexPlan Z IndexRoutine.QueryInformationProcess
      ++ indexPlan Z IndexRoutine.QueryInformationThread
      ++ indexPlan Z IndexRoutine.SetInformationProcess
      ++ [Hooked.ByAddress Routine.SetInformationThread,
          Hooked.ByAddress Routine.TerminateProcess]
      ++ indexPlan Z IndexRoutine.TerminateThread
  else []

/-- The routines the block under `HOOK_INFORMATION` names, in program order. -/
def informationPlan (env : Env) (Z : IndexRoutine → Nat) : List Hooked :=
  if env.HOOK_INFORMATION = true then
    [Hooked.ByAddress Routine.DuplicateObject] ++ indexPlan Z IndexRoutine.QuerySystemInformation
  else []

/-- The routines the four blocks name, with their methods, as one list: the closed
form of the record of table writes of `KPHHook` and of `KPHUnhook`. -/
def hookPlan (env : Env) (Z : IndexRoutine → Nat) : List Hooked :=
  filePlan env ++ keyPlan env ++ processPlan env Z ++ informationPlan env Z

/-! ## Sample environment -/

/-- Position of a routine in the list of saved pointers (lines 81-105). -/
def Routine.ordinal : Routine → Nat
  | Routine.CreateFile => 0
  | Routine.CreateKey => 1
  | Routine.DeleteKey => 2
  | Routine.DeleteValueKey => 3
  | Routine.DuplicateObject => 4
  | Routine.EnumerateKey => 5
  | Routine.EnumerateValueKey => 6
  | Routine.OpenFile => 7
  | Routine.OpenKey => 8
  | Routine.OpenProcess => 9
  | Routine.OpenThread => 10
  | Routine.QueryInformationFile => 11
  | Routine.QueryInformationProcess => 12
  | Routine.QueryInformationThread => 13
  | Routine.QueryKey => 14
  | Routine.QuerySystemInformation => 15
  | Routine.QueryValueKey => 16
  | Routine.ReadFile => 17
  | Routine.SetInformationFile => 18
  | Routine.SetInformationProcess => 19
  | Routine.SetInformationThread => 20
  | Routine.SetValueKey => 21
  | Routine.TerminateProcess => 22
  | Routine.TerminateThread => 23
  | Routine.WriteFile => 24

/-- The code behind the pointers of the sample kernel. The pointers `0x8080` (the
kernel's open-thread, entry `0x80` of the table) and `0x600A` (an earlier hook
of open-thread that ends in it) open the thread object `0x7000`: they add the
handle `0x44` to the handle table of the caller, store it through the first
argument and return `STATUS_SUCCESS`. Code at any other pointer returns the
pointer as its status and changes nothing. -/
def sampleInvoke (target : PVOID) (args : List Nat) (_caller : Caller) (k : KernelState) :
    KphRef.NTSTATUS × KernelState :=
  if target = 0x8080 ∨ target = 0x600A then
    (KphRef.STATUS_SUCCESS,
      { memory := fun a => if a = args.getD 0 0 then some 0x44 else k.memory a,
        handleTable := (0x44, 0x7000) :: k.handleTable })
  else (target, k)

/-- The sample build: `PROTECT_CLIENT` and every hook group enabled, the accessor of
the spec, `Zw` exports at `0x1000 + n` whose call index is `n`, trampolines at
`0x9000 + n`, user addresses below `0x7FFF0000`, handles resolved in the handle
table of the caller, the thread object `0x7000` owned by process 1234. -/
def sampleHookEnv : Env :=
  { ssdt := specSsdt (fun z => z - 0x1000),
    Zw := fun f => 0x1000 + f.ordinal,
    NewNt := fun f => 0x9000 + f.ordinal,
    PROTECT_CLIENT := true,
    HOOK_FILE := true,
    HOOK_KEY := true,
    HOOK_PROCESS := true,
    HOOK_INFORMATION := true,
    sizeofCLIENT_ID := 8,
    invoke := sampleInvoke,
    ProbeForRead := fun _ a _ _ => decide (a < 0x7FFF0000),
    ObReferenceObjectByHandle := fun k _ h =>
      match k.handleTable.lookup h with
      | some object => (KphRef.STATUS_SUCCESS, object)
      | none => (0xC0000008, 0),
    threadProcessId := fun _ object => if object = 0x7000 then 1234 else 4 }

/-- A loaded driver: the original table has the entry `0x8000 + i` at index `i`,
the indices are those of version 5.1, every saved pointer is the earlier hook
`0x6000 + n`, the client is process 1234. -/
def sampleHookState (orig : Option Table) : HookState :=
  { KiServiceTable := fun i => 0x8000 + i,
    OldNt := fun f => 0x6000 + f.ordinal,
    ZwOpenThreadIndex := 0x80,
    ZwQueryInformationProcessIndex := 0x9a,
    ZwQueryInformationThreadIndex := 0x9b,
    ZwQuerySystemInformationIndex := 0xad,
    ZwSetInformationProcessIndex := 0xe4,
    ZwTerminateThreadIndex := 0x102,
    ClientPID := 1234,
    OrigKiServiceTable := orig,
    debug := [] }

/-- The snapshot of the sample table. -/
def sampleSnapshot : Table := fun i => 0x8000 + i

/-- A world with three readable words: the handle slot `0x500`, a `CLIENT_ID` at
`0x600` naming process 1234 and one at `0x700` naming process 999; the caller
holds no handle. -/
def sampleWorld : World :=
  { kernel :=
      { memory := fun a =>
          if a = 0x500 then some 0
          else if a = 0x600 then some 1234
          else if a = 0x700 then some 999
          else none,
        handleTable := [] },
    trace := [] }

end KphHooks

namespace KphRef

/-! ## Basic facts -/

theorem wrapLong_of_inLong (x : Int) (h : InLong x) : wrapLong x = x := by
  unfold InLong at h; unfold wrapLong; omega

theorem wrapLong_inLong (x : Int) : InLong (wrapLong x) := by
  unfold InLong wrapLong; omega

theorem wrapLong_add_wrapLong (a b : Int) : wrapLong (a + wrapLong b) = wrapLong (a + b) := by
  unfold wrapLong; omega

theorem wrapLong_sub_eq_zero (c n : Int) (hc : InLong c) (hn : InLong n) :
    wrapLong (c - n) = 0 ↔ c - n = 0 := by
  unfold InLong at hc hn; unfold wrapLong; omega

@[simp] theorem heapSet_same (h : Addr → Option KPH_OBJECT_HEADER) (a : Addr)
    (v : Option KPH_OBJECT_HEADER) : heapSet h a v a = v := by
  simp [heapSet]

theorem heapSet_other (h : Addr → Option KPH_OBJECT_HEADER) (a b : Addr)
    (v : Option KPH_OBJECT_HEADER) (hne : b ≠ a) : heapSet h a v b = h b := by
  simp [heapSet, hne]

theorem typeAt_some_iff (s : State) (T : Addr) (ty : KPH_OBJECT_TYPE) :
    s.typeAt T = some ty ↔ ∃ h, s.heap T = some h ∧ h.Body = some ty := by
  unfold State.typeAt
  cases hh : s.heap T with
  | none => simp
  | some h => simp

theorem typeAt_heapSet_body (s : State) (Object : Addr) (h h' : KPH_OBJECT_HEADER)
    (hlive : s.heap Object = some h) (hbody : h'.Body = h.Body) (T : Addr) :
    State.typeAt { s with heap := heapSet s.heap Object (some h') } T = s.typeAt T := by
  by_cases e : T = Object
  · subst e; simp [State.typeAt, hlive, hbody]
  · simp [State.typeAt, heapSet_other _ _ _ _ e]

theorem numberOfObjects_live (s : State) (T : Addr) (n : Nat)
    (hT : s.numberOfObjects T = some n) :
    ∃ hT0 tb, s.heap T = some hT0 ∧ hT0.Body = some tb ∧ tb.NumberOfObjects = n := by
  unfold State.numberOfObjects at hT
  cases hty : s.typeAt T with
  | none => rw [hty] at hT; simp at hT
  | some tb =>
    rw [hty] at hT
    simp only [Option.map_some', Option.some.injEq] at hT
    obtain ⟨hT0, hh, hb⟩ := (typeAt_some_iff s T tb).mp hty
    exact ⟨hT0, tb, hh, hb, hT⟩

theorem numberOfObjects_congr (s s1 : State) (T : Addr) (h : s1.heap T = s.heap T) :
    s1.numberOfObjects T = s.numberOfObjects T := by
  unfold State.numberOfObjects State.typeAt
  rw [h]

theorem deleteCalls_append (Object : Addr) (tr ev : List Event) :
    deleteCalls Object (tr ++ ev) = deleteCalls Object tr + deleteCalls Object ev := by
  induction tr with
  | nil => simp [deleteCalls]
  | cons e rest ih =>
    cases e <;> simp [deleteCalls, ih]
    omega

theorem and_two_pow_ne_zero (x k : Nat) : x &&& 2 ^ k ≠ 0 ↔ x.testBit k = true := by
  constructor
  · intro hne
    by_contra hbit
    apply hne
    apply Nat.eq_of_testBit_eq
    intro i
    rw [Nat.testBit_and, Nat.testBit_two_pow, Nat.zero_testBit]
    by_cases e : k = i
    · subst e; simp [hbit]
    · simp [e]
  · intro hbit hz
    have := congrArg (fun y => y.testBit k) hz
    simp [Nat.testBit_two_pow_self, hbit] at this

theorem outsideValidMask_iff (Flags : Nat) :
    Flags &&& KPHOBJ_VALID_FLAGS ≠ Flags ↔ OutsideValidMask Flags := by
  unfold OutsideValidMask
  constructor
  · intro hne
    by_contra hall
    apply hne
    apply Nat.eq_of_testBit_eq
    intro i
    rw [Nat.testBit_and]
    cases hb : Flags.testBit i with
    | false => simp
    | true =>
      cases hm : KPHOBJ_VALID_FLAGS.testBit i with
      | false => exact absurd ⟨i, hb, hm⟩ hall
      | true => simp
  · rintro ⟨i, hb, hm⟩ heq
    have := congrArg (fun y => y.testBit i) heq
    simp [Nat.testBit_and, hb, hm] at this

theorem bothPools_iff (Flags : Nat) :
    (Flags &&& KPHOBJ_PAGED_POOL ≠ 0 ∧ Flags &&& KPHOBJ_NONPAGED_POOL ≠ 0) ↔ BothPools Flags := by
  unfold BothPools
  have h1 : KPHOBJ_PAGED_POOL = 2 ^ 1 := by decide
  have h2 : KPHOBJ_NONPAGED_POOL = 2 ^ 2 := by decide
  rw [h1, h2, and_two_pow_ne_zero, and_two_pow_ne_zero]

theorem sampleState_registeredNonNegative : RegisteredNonNegative sampleState := by
  intro a ha h hh
  have ha' : a = 48 ∨ a = 32 ∨ a = 16 := by simpa [sampleState] using ha
  rcases ha' with e | e | e <;> subst e <;>
    · have hx : sampleState.heap _ = some h := hh
      simp [sampleState, sampleObject, sampleTypeHeader] at hx
      subst hx
      decide

/-! ## The ways a call can end -/

/-- The ways a `KphCreateObject` call can end, with the state each one leaves. -/
theorem KphCreateObject_cases (env : Env) (s : State) (ObjectSize Flags : Nat)
    (ObjectType : Option Addr) (AdditionalReferences : Int) :
    KphCreateObject env s ObjectSize Flags ObjectType AdditionalReferences = Outcome.fault
    ∨ (∃ st s1, st ≠ STATUS_SUCCESS ∧ NT_SUCCESS st = false
        ∧ (KphCreateObject env s ObjectSize Flags ObjectType AdditionalReferences
              = Outcome.ret (st, none) s1
            ∨ KphCreateObject env s ObjectSize Flags ObjectType AdditionalReferences
              = Outcome.raise st s1)
        ∧ s1.heap = s.heap ∧ s1.KphObjectListHead = s.KphObjectListHead
        ∧ s1.KphObjectType = s.KphObjectType)
    ∨ (∃ a s1 H,
        KphCreateObject env s ObjectSize Flags ObjectType AdditionalReferences
          = Outcome.ret (STATUS_SUCCESS, some a) s1
        ∧ 0 ≤ AdditionalReferences
        ∧ s1.KphObjectListHead = a :: s.KphObjectListHead
        ∧ s1.KphObjectType = s.KphObjectType
        ∧ s1.heap = heapSet H a
            (some { RefCount := wrapLong (1 + AdditionalReferences), Flags := Flags,
                    Size := ObjectSize, Type_ := ObjectType, Body := none })
        ∧ ((ObjectType = none ∧ H = s.heap)
           ∨ (∃ T hT tb, ObjectType = some T ∧ s.heap T = some hT ∧ hT.Body = some tb
                ∧ H = heapSet s.heap T
                    (some { hT with Body := some { tb with
                      NumberOfObjects := (tb.NumberOfObjects + 1) % 4294967296 } })))) := by
  unfold KphCreateObject
  by_cases h1 : Flags &&& KPHOBJ_VALID_FLAGS ≠ Flags
  · rw [if_pos h1]
    exact Or.inr (Or.inl ⟨_, _, by decide, by decide, Or.inl rfl, rfl, rfl, rfl⟩)
  rw [if_neg h1]
  by_cases h2 : Flags &&& KPHOBJ_PAGED_POOL ≠ 0 ∧ Flags &&& KPHOBJ_NONPAGED_POOL ≠ 0
  · rw [if_pos h2]
    exact Or.inr (Or.inl ⟨_, _, by decide, by decide, Or.inl rfl, rfl, rfl, rfl⟩)
  rw [if_neg h2]
  by_cases h3 : ObjectType = none ∧ s.KphObjectType ≠ none
  · rw [if_pos h3]
    exact Or.inr (Or.inl ⟨_, _, by decide, by decide, Or.inl rfl, rfl, rfl, rfl⟩)
  rw [if_neg h3]
  by_cases h4 : AdditionalReferences < 0
  · rw [if_pos h4]
    exact Or.inr (Or.inl ⟨_, _, by decide, by decide, Or.inl rfl, rfl, rfl, rfl⟩)
  rw [if_neg h4]
  cases hp : choosePoolType s Flags ObjectType with
  | none => exact Or.inl rfl
  | some p =>
    simp only [KphpAllocateObject]
    cases hr : env.ExAllocatePoolWithTag p (KphpAddObjectHeaderSize env ObjectSize) TAG_KPHOBJ with
    | none =>
      simp only []
      by_cases h5 : Flags &&& KPHOBJ_RAISE_ON_FAIL ≠ 0
      · rw [if_pos h5]
        exact Or.inr (Or.inl ⟨_, _, by decide, by decide, Or.inr rfl, rfl, rfl, rfl⟩)
      · rw [if_neg h5]
        exact Or.inr (Or.inl ⟨_, _, by decide, by decide, Or.inl rfl, rfl, rfl, rfl⟩)
    | some a =>
      simp only []
      cases ObjectType with
      | none =>
        simp only []
        exact Or.inr (Or.inr ⟨a, _, s.heap, rfl, by omega, rfl, rfl, rfl, Or.inl ⟨trivial, rfl⟩⟩)
      | some T =>
        simp only [InterlockedIncrementType, State.log]
        cases hh : s.heap T with
        | none => exact Or.inl rfl
        | some hT =>
          simp only []
          cases hb : hT.Body with
          | none => exact Or.inl rfl
          | some tb =>
            simp only []
            exact Or.inr (Or.inr ⟨a, _, _, rfl, by omega, rfl, rfl, rfl,
              Or.inr ⟨T, hT, tb, rfl, hh, hb, rfl⟩⟩)

/-- The ways a `KphDereferenceObjectEx` call can end. -/
theorem KphDereferenceObjectEx_cases (s : State) (Object : Addr) (n : Int) (OldRefCount : Bool) :
    (n < 0 ∧ KphDereferenceObjectEx s Object n OldRefCount
        = Outcome.raise STATUS_INVALID_PARAMETER_2 s)
    ∨ KphDereferenceObjectEx s Object n OldRefCount = Outcome.fault
    ∨ (0 ≤ n ∧ ∃ h, s.heap Object = some h ∧ wrapLong (h.RefCount - n) ≠ 0)
    ∨ (0 ≤ n ∧ ∃ h T ty, s.heap Object = some h ∧ wrapLong (h.RefCount - n) = 0
        ∧ h.Type_ = some T ∧ s.typeAt T = some ty) := by
  by_cases hneg : n < 0
  · left
    refine ⟨hneg, ?_⟩
    unfold KphDereferenceObjectEx
    rw [if_pos hneg]
  · right
    have h0 : 0 ≤ n := by omega
    cases hlive : s.heap Object with
    | none =>
      left
      unfold KphDereferenceObjectEx
      rw [if_neg hneg]
      simp only [hlive]
    | some h =>
      by_cases hz : wrapLong (h.RefCount - n) = 0
      · cases hT : h.Type_ with
        | none =>
          left
          unfold KphDereferenceObjectEx
          rw [if_neg hneg]
          simp only [hlive, hT, if_pos hz]
        | some T =>
          cases hty : s.typeAt T with
          | none =>
            left
            unfold KphDereferenceObjectEx
            rw [if_neg hneg]
            simp only [hlive, hT, if_pos hz]
            rw [typeAt_heapSet_body s Object h _ hlive ?_ T, hty]
            rfl
          | some ty =>
            right; right
            exact ⟨h0, h, T, ty, rfl, hz, hT, hty⟩
      · right; left
        exact ⟨h0, h, rfl, hz⟩

/-- The trace a deletion appends: the delete procedure (when the type has one),
then the counter decrement, the unlink and the pool free. -/
theorem KphDereferenceObjectEx_freed (s : State) (Object : Addr) (h : KPH_OBJECT_HEADER)
    (n : Int) (OldRefCount : Bool) (T : Addr) (ty : KPH_OBJECT_TYPE)
    (hlive : s.heap Object = some h) (hn : 0 ≤ n)
    (hzero : wrapLong (h.RefCount - n) = 0)
    (hT : h.Type_ = some T) (hty : s.typeAt T = some ty) :
    ∃ s', KphDereferenceObjectEx s Object n OldRefCount
        = Outcome.ret (true, if OldRefCount then some h.RefCount else none) s'
      ∧ s'.trace = s.trace
          ++ (match ty.DeleteProcedure with
              | some p => [Event.DeleteProcedure p Object h.Flags h.Size s.KphObjectListHead]
              | none => [])
          ++ [Event.InterlockedDecrementType T, Event.RemoveEntryList Object,
              Event.ExFreePoolWithTag Object TAG_KPHOBJ]
      ∧ s'.KphObjectListHead = s.KphObjectListHead.erase Object
      ∧ s'.KphObjectType = s.KphObjectType
      ∧ s'.heap Object = none
      ∧ (∀ b, b ≠ Object → b ≠ T → s'.heap b = s.heap b)
      ∧ (T ≠ Object → ∃ hT, s.heap T = some hT ∧
          s'.heap T = some { hT with Body := some { ty with
            NumberOfObjects := (ty.NumberOfObjects + 4294967295) % 4294967296 } }) := by
  obtain ⟨hT0, hh, hb⟩ := (typeAt_some_iff s T ty).mp hty
  unfold KphDereferenceObjectEx
  rw [if_neg (by omega)]
  simp only [hlive, hT, if_pos hzero]
  by_cases e : T = Object
  · subst e
    rw [hlive] at hh; cases hh
    cases hd : ty.DeleteProcedure <;>
      simp [State.typeAt, hb, hd, callDeleteProcedure, InterlockedDecrementType, KphpFreeObject,
        RemoveEntryList, State.log] <;>
      intro b hb1 <;> simp [heapSet, hb1]
  · cases hd : ty.DeleteProcedure <;>
      simp [State.typeAt, heapSet_other _ _ _ _ e, hh, hb, hd, callDeleteProcedure,
        InterlockedDecrementType, KphpFreeObject, RemoveEntryList, State.log, e] <;>
      intro b hb1 hb2 <;> simp [heapSet, hb1, hb2]

/-- A dereference that does not reach zero only rewrites the count. -/
theorem KphDereferenceObjectEx_kept (s : State) (Object : Addr) (h : KPH_OBJECT_HEADER)
    (n : Int) (OldRefCount : Bool)
    (hlive : s.heap Object = some h) (hn : 0 ≤ n)
    (hnz : wrapLong (h.RefCount - n) ≠ 0) :
    KphDereferenceObjectEx s Object n OldRefCount
      = Outcome.ret (false, if OldRefCount then some h.RefCount else none)
          { s with
            heap := heapSet s.heap Object
              (some { h with RefCount := wrapLong (h.RefCount - n) }) } := by
  have hw : wrapLong (h.RefCount + wrapLong (-n)) = wrapLong (h.RefCount - n) := by
    rw [wrapLong_add_wrapLong]; congr 1
  unfold KphDereferenceObjectEx
  rw [if_neg (by omega)]
  simp only [hlive, hw, if_neg hnz]

theorem KphDereferenceObject_eq (s : State) (Object : Addr) :
    KphDereferenceObject s Object = (KphDereferenceObjectEx s Object 1 false).freedOnly := by
  unfold KphDereferenceObject Outcome.freedOnly
  cases KphDereferenceObjectEx s Object 1 false with
  | ret v s1 => cases v; rfl
  | raise st s1 => rfl
  | fault => rfl

/-! ## The size of a pool request -/

/-- The request is a `SIZE_T` value. -/
theorem KphpAddObjectHeaderSize_lt (env : Env) (Size : Nat) :
    KphpAddObjectHeaderSize env Size < 4294967296 := by
  unfold KphpAddObjectHeaderSize
  omega

/-- When the header holds at least a `ULONG` and body plus header fit `SIZE_T`, the
request is the full size of the block. -/
theorem KphpAddObjectHeaderSize_of_fits (env : Env) (Size : Nat)
    (hhdr : env.sizeofULONG ≤ env.sizeofObjectHeader)
    (hsize : Size + env.sizeofObjectHeader - env.sizeofULONG < 4294967296) :
    KphpAddObjectHeaderSize env Size = Size + env.sizeofObjectHeader - env.sizeofULONG := by
  unfold KphpAddObjectHeaderSize
  omega

/-- When body plus header do not fit `SIZE_T` the request wraps: with the header of
the sample build, a body of `0xFFFFFFFF` bytes asks the pool for 31 bytes, less
than the header alone. -/
theorem KphpAddObjectHeaderSize_wraps :
    KphpAddObjectHeaderSize (sampleEnv none) 4294967295 = 31
    ∧ (sampleEnv none).sizeofObjectHeader - (sampleEnv none).sizeofULONG = 32 := by
  decide

/-! ## `KphCreateObject` on success (C1) -/

/-- Claim C1 (amended): a call `KphCreateObject(size, flags, type, extraRefs)` that
passes validation, with `0 ≤ extraRefs < 2^31 - 1` so that `1 + extraRefs` fits a
`LONG`, with `size + sizeof(KPH_OBJECT_HEADER) - sizeof(ULONG) < 2^32` so that the
pool request does not wrap in `SIZE_T` (the header being at least a `ULONG`, the
size of its last field), whose type pointer (when not null) points
to a type object and whose allocation succeeds with a block `a` that was not in
use, returns `STATUS_SUCCESS`; the pool was asked for exactly
`size + sizeof(KPH_OBJECT_HEADER) - sizeof(ULONG)` bytes; the new header has
`RefCount = 1 + extraRefs`, `Flags = flags`, `Size = size` and `Type = type`; the
object is inserted at the head of the registry; and, when `type` is not null,
its `NumberOfObjects` is one greater than before as a 32-bit counter (exactly
one greater below `2^32 - 1`). -/
theorem KphCreateObject_success (env : Env) (s : State) (ObjectSize Flags : Nat)
    (ObjectType : Option Addr) (AdditionalReferences : Int) (p : POOL_TYPE) (a : Addr)
    (hmask : Flags &&& KPHOBJ_VALID_FLAGS = Flags)
    (hpool : ¬ (Flags &&& KPHOBJ_PAGED_POOL ≠ 0 ∧ Flags &&& KPHOBJ_NONPAGED_POOL ≠ 0))
    (htype : ¬ (ObjectType = none ∧ s.KphObjectType ≠ none))
    (hrefs : 0 ≤ AdditionalReferences)
    (hmax : AdditionalReferences < 2147483647)
    (hvalid : ∀ T, ObjectType = some T → s.typeAt T ≠ none)
    (hp : choosePoolType s Flags ObjectType = some p)
    (hhdr : env.sizeofULONG ≤ env.sizeofObjectHeader)
    (hsize : ObjectSize + env.sizeofObjectHeader - env.sizeofULONG < 4294967296)
    (halloc : env.ExAllocatePoolWithTag p (KphpAddObjectHeaderSize env ObjectSize) TAG_KPHOBJ
      = some a)
    (hfresh : s.heap a = none) :
    ∃ s', KphCreateObject env s ObjectSize Flags ObjectType AdditionalReferences
        = Outcome.ret (STATUS_SUCCESS, some a) s'
      ∧ Event.ExAllocatePoolWithTag p
          (ObjectSize + env.sizeofObjectHeader - env.sizeofULONG) TAG_KPHOBJ (some a) ∈ s'.trace
      ∧ s'.heap a = some { RefCount := 1 + AdditionalReferences, Flags := Flags,
                           Size := ObjectSize, Type_ := ObjectType, Body := none }
      ∧ s'.KphObjectListHead = a :: s.KphObjectListHead
      ∧ (∀ T n, ObjectType = some T → s.numberOfObjects T = some n →
          s'.numberOfObjects T = some ((n + 1) % 4294967296)
          ∧ (n < 4294967295 → s'.numberOfObjects T = some (n + 1))) := by
  have hw : wrapLong (1 + AdditionalReferences) = 1 + AdditionalReferences :=
    wrapLong_of_inLong _ (by unfold InLong; omega)
  have hreq := KphpAddObjectHeaderSize_of_fits env ObjectSize hhdr hsize
  rcases KphCreateObject_cases env s ObjectSize Flags ObjectType AdditionalReferences with
    hf | ⟨st, s1, hst, -, hor, -⟩ | ⟨a', s1, H, heq, -, hreg, -, hheap, hH⟩
  · -- a fault needs a type pointer that does not point to a type
    exfalso
    unfold KphCreateObject at hf
    rw [if_neg (by simpa using hmask), if_neg hpool, if_neg htype, if_neg (by omega)] at hf
    simp only [hp, KphpAllocateObject, halloc] at hf
    cases ObjectType with
    | none => simp at hf
    | some T =>
      obtain ⟨ty, hty⟩ := Option.ne_none_iff_exists'.mp (hvalid T rfl)
      obtain ⟨h, hh, hb⟩ := (typeAt_some_iff s T ty).mp hty
      simp [InterlockedIncrementType, hh, hb, State.log] at hf
  · -- a failure status needs a failed validation or a failed allocation
    exfalso
    unfold KphCreateObject at hor
    rw [if_neg (by simpa using hmask), if_neg hpool, if_neg htype, if_neg (by omega)] at hor
    simp only [hp, KphpAllocateObject, halloc] at hor
    cases ObjectType with
    | none =>
      rcases hor with hor | hor
      · simp only [Outcome.ret.injEq, Prod.mk.injEq] at hor
        exact hst hor.1.1.symm
      · cases hor
    | some T =>
      obtain ⟨ty, hty⟩ := Option.ne_none_iff_exists'.mp (hvalid T rfl)
      obtain ⟨h, hh, hb⟩ := (typeAt_some_iff s T ty).mp hty
      simp only [InterlockedIncrementType, hh, hb, State.log] at hor
      rcases hor with hor | hor
      · simp only [Outcome.ret.injEq, Prod.mk.injEq] at hor
        exact hst hor.1.1.symm
      · cases hor
  · have ha : a' = a
        ∧ Event.ExAllocatePoolWithTag p (KphpAddObjectHeaderSize env ObjectSize) TAG_KPHOBJ
            (some a) ∈ s1.trace := by
      have h2 := heq
      unfold KphCreateObject at h2
      rw [if_neg (by simpa using hmask), if_neg hpool, if_neg htype, if_neg (by omega)] at h2
      simp only [hp, KphpAllocateObject, halloc] at h2
      cases ObjectType with
      | none =>
        simp only [Outcome.ret.injEq, Prod.mk.injEq, Option.some.injEq] at h2
        refine ⟨h2.1.2.symm, ?_⟩
        rw [← h2.2]
        simp [InsertHeadList, State.log]
      | some T =>
        obtain ⟨ty, hty⟩ := Option.ne_none_iff_exists'.mp (hvalid T rfl)
        obtain ⟨h, hh, hb⟩ := (typeAt_some_iff s T ty).mp hty
        simp only [InterlockedIncrementType, hh, hb, State.log, Outcome.ret.injEq,
          Prod.mk.injEq, Option.some.injEq] at h2
        refine ⟨h2.1.2.symm, ?_⟩
        rw [← h2.2]
        simp [InsertHeadList]
    obtain ⟨ha, htrace⟩ := ha
    subst ha
    rw [hreq] at htrace
    refine ⟨s1, heq, htrace, ?_, hreg, ?_⟩
    · rw [hheap, heapSet_same, hw]
    · intro T n hT hn
      rcases hH with ⟨hnone, -⟩ | ⟨T', hT', tb, hty, hh, hb, hHeq⟩
      · rw [hnone] at hT; cases hT
      · rw [hty] at hT; cases hT
        have hne : T ≠ a' := by
          intro e; rw [e, hfresh] at hh; cases hh
        have hn' : tb.NumberOfObjects = n := by
          simpa [State.numberOfObjects, State.typeAt, hh, hb] using hn
        have e : s1.numberOfObjects T = some ((n + 1) % 4294967296) := by
          simp [State.numberOfObjects, State.typeAt, hheap, hHeq, heapSet_other _ _ _ _ hne, hn']
        refine ⟨e, fun hlt => ?_⟩
        rw [e, Nat.mod_eq_of_lt (by omega)]

/-- The amended claim C1 applied to the sample manager: an object of type 32 with
three additional references and a body of 8 bytes, in the fresh block 64; the
pool is asked for 40 bytes. -/
theorem KphCreateObject_success_witness :
    ∃ s', KphCreateObject (sampleEnv (some 64)) sampleState 8 2 (some 32) 3
        = Outcome.ret (STATUS_SUCCESS, some 64) s'
      ∧ Event.ExAllocatePoolWithTag POOL_TYPE.PagedPool (8 + 36 - 4) TAG_KPHOBJ (some 64)
          ∈ s'.trace
      ∧ s'.heap 64 = some { RefCount := 1 + 3, Flags := 2, Size := 8, Type_ := some 32,
                            Body := none }
      ∧ s'.KphObjectListHead = 64 :: sampleState.KphObjectListHead
      ∧ (∀ T n, some 32 = some T → sampleState.numberOfObjects T = some n →
          s'.numberOfObjects T = some ((n + 1) % 4294967296)
          ∧ (n < 4294967295 → s'.numberOfObjects T = some (n + 1))) :=
  KphCreateObject_success (sampleEnv (some 64)) sampleState 8 2 (some 32) 3
    POOL_TYPE.PagedPool 64 (by decide) (by decide) (by decide) (by decide) (by decide)
    (by intro T h; cases h; decide) (by decide) (by decide) (by decide) rfl (by decide)

/-- Claim C1 fails as stated: on the manager left by `KphRefInit`, the valid call
with `extraRefs = 2147483647` succeeds and stores the count `-2147483648`, which
is not `1 + extraRefs`. -/
theorem KphCreateObject_refcount_overflow :
    ∃ s', KphCreateObject (sampleEnv (some 32)) bootState 8 0 (some 16) 2147483647
        = Outcome.ret (STATUS_SUCCESS, some 32) s'
      ∧ s'.refCount 32 = some (-2147483648)
      ∧ s'.refCount 32 ≠ some (1 + 2147483647) :=
  ⟨_, rfl, by decide, by decide⟩

/-! ## `KphDereferenceObjectEx` (C2) -/

/-- Claim C2 (amended): for an object with count `c` and an amount `n`, both
`LONG` values: for `n < 0` the call raises `STATUS_INVALID_PARAMETER_2` and
changes nothing; for `n ≥ 0` with `c - n ≥ -2^31` and `c - n ≠ 0` it stores the
old count `c`, leaves the count at `c - n`, changes nothing else and returns
`FALSE`; for `n ≥ 0` with `c - n = 0` (the type pointer pointing to a type) it
stores the old count `c`, returns `TRUE` and the object is freed; and
`KphDereferenceObject(object)` is `KphDereferenceObjectEx(object, 1, NULL)`. -/
theorem KphDereferenceObjectEx_amended (s : State) (Object : Addr) (h : KPH_OBJECT_HEADER)
    (n : Int) (OldRefCount : Bool)
    (hlive : s.heap Object = some h) (hc : InLong h.RefCount) (hn : InLong n) :
    (n < 0 → KphDereferenceObjectEx s Object n OldRefCount
        = Outcome.raise STATUS_INVALID_PARAMETER_2 s)
    ∧ (0 ≤ n → h.RefCount - n ≠ 0 → -2147483648 ≤ h.RefCount - n →
        KphDereferenceObjectEx s Object n OldRefCount
          = Outcome.ret (false, if OldRefCount then some h.RefCount else none)
              { s with
                heap := heapSet s.heap Object (some { h with RefCount := h.RefCount - n }) })
    ∧ (0 ≤ n → h.RefCount - n = 0 →
        ∀ T, h.Type_ = some T → s.typeAt T ≠ none →
        ∃ s', KphDereferenceObjectEx s Object n OldRefCount
              = Outcome.ret (true, if OldRefCount then some h.RefCount else none) s'
          ∧ s'.heap Object = none)
    ∧ KphDereferenceObject s Object = (KphDereferenceObjectEx s Object 1 false).freedOnly := by
  refine ⟨?_, ?_, ?_, ?_⟩
  · intro hneg
    unfold KphDereferenceObjectEx
    rw [if_pos hneg]
  · intro h0 hnz hlo
    have hz : wrapLong (h.RefCount - n) ≠ 0 := by
      rw [Ne, wrapLong_sub_eq_zero _ _ hc hn]; exact hnz
    have hw : wrapLong (h.RefCount - n) = h.RefCount - n :=
      wrapLong_of_inLong _ (by unfold InLong at *; omega)
    rw [KphDereferenceObjectEx_kept s Object h n OldRefCount hlive h0 hz, hw]
  · intro h0 hzero T hT hty
    obtain ⟨ty, hty'⟩ := Option.ne_none_iff_exists'.mp hty
    have hz : wrapLong (h.RefCount - n) = 0 := by
      rw [wrapLong_sub_eq_zero _ _ hc hn]; exact hzero
    obtain ⟨s', he, -, -, -, hgone, -⟩ :=
      KphDereferenceObjectEx_freed s Object h n OldRefCount T ty hlive h0 hz hT hty'
    exact ⟨s', he, hgone⟩
  · unfold KphDereferenceObject Outcome.freedOnly
    cases KphDereferenceObjectEx s Object 1 false with
    | ret v s1 => cases v; rfl
    | raise st s1 => rfl
    | fault => rfl

/-- The amended claim C2 on the object 48 of the sample manager, whose count is 1:
a negative amount, an amount that leaves a count, and the amount that frees it. -/
theorem KphDereferenceObjectEx_amended_witness :
    KphDereferenceObjectEx sampleState 48 (-1) true
        = Outcome.raise STATUS_INVALID_PARAMETER_2 sampleState
    ∧ (∃ s', KphDereferenceObjectEx sampleState 48 0 true = Outcome.ret (false, some 1) s'
        ∧ s'.refCount 48 = some 1)
    ∧ (∃ s', KphDereferenceObjectEx sampleState 48 1 true = Outcome.ret (true, some 1) s'
        ∧ s'.heap 48 = none) :=
  ⟨(KphDereferenceObjectEx_amended sampleState 48 sampleObject (-1) true
      (by decide) (by decide) (by decide)).1 (by decide),
   ⟨_, (KphDereferenceObjectEx_amended sampleState 48 sampleObject 0 true
      (by decide) (by decide) (by decide)).2.1
        (by decide) (by decide) (by decide), by decide⟩,
   (KphDereferenceObjectEx_amended sampleState 48 sampleObject 1 true
      (by decide) (by decide) (by decide)).2.2.1
        (by decide) (by decide) 32 (by decide) (by decide)⟩

/-- Claim C2 fails as stated: two dereferences by `2147483647` of an object whose
count is 1 are both accepted; the second finds `c = -2147483646` and leaves the
count at `3`, not at `c - n`. -/
theorem KphDereferenceObjectEx_count_wraps :
    ∃ s1 s2,
      KphDereferenceObjectEx sampleState 48 2147483647 true = Outcome.ret (false, some 1) s1
      ∧ KphDereferenceObjectEx s1 48 2147483647 true
          = Outcome.ret (false, some (-2147483646)) s2
      ∧ s2.refCount 48 = some 3
      ∧ s2.refCount 48 ≠ some (-2147483646 - 2147483647) :=
  ⟨_, _, rfl, rfl, by decide, by decide⟩

/-! ## Steps of a run of object-manager calls -/

/-- Effect of one `KphCreateObject` step on the counter of a live type `T`. -/
theorem createStep_counter (T : Addr) (env : Env) (s : State) (ObjectSize Flags : Nat)
    (ObjectType : Option Addr) (AdditionalReferences : Int) (r : Step) (n : Nat)
    (hT : s.numberOfObjects T = some n) (hlt : n < 4294967296)
    (hs : createStep ObjectType
      (KphCreateObject env s ObjectSize Flags ObjectType AdditionalReferences) = some r)
    (hadm : r.admissible T s = true) :
    ∃ n', r.state.numberOfObjects T = some n' ∧ n' = (n + r.creates T) % 4294967296
      ∧ (r.creates T = 0 → n' = n) ∧ r.frees T = 0 := by
  obtain ⟨hT0, tb, hh, hb, hn⟩ := numberOfObjects_live s T n hT
  rcases KphCreateObject_cases env s ObjectSize Flags ObjectType AdditionalReferences with
    hf | ⟨st, s1, hst, -, hor, hheap, -, -⟩ | ⟨a, s1, H, heq, -, -, -, hheap, hH⟩
  · rw [hf] at hs; cases hs
  · have hr : r.state = s1 ∧ r.created = none ∧ r.freed = none := by
      rcases hor with hor | hor <;> rw [hor] at hs <;>
        simp only [createStep, Option.some.injEq, if_neg hst, Option.map_none'] at hs <;>
        subst hs <;> exact ⟨rfl, rfl, rfl⟩
    obtain ⟨h1, h2, h3⟩ := hr
    refine ⟨n, ?_, ?_, fun _ => rfl, ?_⟩
    · rw [h1, numberOfObjects_congr s s1 T (by rw [hheap]), hT]
    · simp only [Step.creates, h2]; omega
    · simp only [Step.frees, h3]
  · rw [heq] at hs
    simp only [createStep, if_true, Option.map_some', Option.some.injEq] at hs
    subst hs
    have hfresh : s.heap a = none := by
      simpa [Step.admissible] using hadm
    have hne : T ≠ a := by
      intro e; rw [e, hfresh] at hh; cases hh
    have hfr : Step.frees T { state := s1, created := some (ObjectType, a), freed := none }
        = 0 := rfl
    rcases hH with ⟨hnone, hHeq⟩ | ⟨T', hT', tb', hty, hh', hb', hHeq⟩
    · subst hnone
      refine ⟨n, ?_, ?_, fun _ => rfl, hfr⟩
      · show s1.numberOfObjects T = some n
        rw [numberOfObjects_congr s s1 T (by rw [hheap, heapSet_other _ _ _ _ hne, hHeq]), hT]
      · simp only [Step.creates]; omega
    · subst hty
      by_cases e : T' = T
      · subst e
        rw [hh] at hh'; cases hh'
        rw [hb] at hb'; cases hb'
        refine ⟨(n + 1) % 4294967296, ?_, ?_, ?_, hfr⟩
        · show s1.numberOfObjects T' = some ((n + 1) % 4294967296)
          simp [State.numberOfObjects, State.typeAt, hheap, hHeq, heapSet_other _ _ _ _ hne, hn]
        · simp [Step.creates]
        · intro hc; simp [Step.creates] at hc
      · have e' : T ≠ T' := fun hh => e hh.symm
        refine ⟨n, ?_, ?_, fun _ => rfl, hfr⟩
        · show s1.numberOfObjects T = some n
          rw [numberOfObjects_congr s s1 T
            (by rw [hheap, heapSet_other _ _ _ _ hne, hHeq, heapSet_other _ _ _ _ e']), hT]
        · simp only [Step.creates, if_neg e]; omega

/-- Effect of one `KphCreateObjectType` step on the counter of a live type `T`. -/
theorem createTypeStep_counter (T : Addr) (env : Env) (s : State) (DefaultPoolType : POOL_TYPE)
    (DeleteProcedure : Option Nat) (r : Step) (n : Nat)
    (hT : s.numberOfObjects T = some n) (hlt : n < 4294967296)
    (hs : createStep s.KphObjectType
      (KphCreateObjectType env s DefaultPoolType DeleteProcedure) = some r)
    (hadm : r.admissible T s = true) :
    ∃ n', r.state.numberOfObjects T = some n' ∧ n' = (n + r.creates T) % 4294967296
      ∧ (r.creates T = 0 → n' = n) ∧ r.frees T = 0 := by
  obtain ⟨hT0, tb, hh, hb, hn⟩ := numberOfObjects_live s T n hT
  unfold KphCreateObjectType at hs
  rcases KphCreateObject_cases env s env.sizeofObjectType 0 s.KphObjectType 0 with
    hf | ⟨st, s1, hst, hnt, hor, -⟩ | ⟨a, s1, H, heq, -, -, -, hheap, -⟩
  · rw [hf] at hs; cases hs
  · have hs' : createStep s.KphObjectType
        (KphCreateObject env s env.sizeofObjectType 0 s.KphObjectType 0) = some r := by
      rcases hor with hor | hor
      · rw [hor] at hs ⊢
        simpa only [hnt, Bool.not_false, if_true] using hs
      · rw [hor] at hs ⊢
        exact hs
    exact createStep_counter T env s env.sizeofObjectType 0 s.KphObjectType 0 r n hT hlt hs' hadm
  · have hlive : s1.heap a = some
        { RefCount := wrapLong (1 + 0), Flags := 0, Size := env.sizeofObjectType,
          Type_ := s.KphObjectType, Body := none } := by
      rw [hheap, heapSet_same]
    have hs0 : createStep s.KphObjectType
        (KphCreateObject env s env.sizeofObjectType 0 s.KphObjectType 0)
        = some { state := s1, created := some (s.KphObjectType, a), freed := none } := by
      rw [heq]; simp [createStep]
    rw [heq] at hs
    have hsucc : (!NT_SUCCESS STATUS_SUCCESS) = false := by decide
    simp only [hsucc, hlive, createStep, if_true, Bool.false_eq_true, if_false,
      Option.map_some', Option.some.injEq] at hs
    subst hs
    have hfresh : s.heap a = none := by
      simpa [Step.admissible] using hadm
    have hne : T ≠ a := by
      intro e; rw [e, hfresh] at hh; cases hh
    obtain ⟨n', h1, h2, h3, h4⟩ :=
      createStep_counter T env s env.sizeofObjectType 0 s.KphObjectType 0
        { state := s1, created := some (s.KphObjectType, a), freed := none } n hT hlt hs0 hadm
    refine ⟨n', ?_, h2, h3, h4⟩
    rw [← h1]
    exact numberOfObjects_congr _ _ T (heapSet_other _ _ _ _ hne)

/-- Adding references does not touch any type counter. -/
theorem referenceStep_counter (T : Addr) (s : State) (Object : Addr) (c : Int) (r : Step)
    (hs : referenceStep (KphReferenceObjectEx s Object c false) = some r
      ∨ referenceStep (KphReferenceObject s Object) = some r) :
    r.state.numberOfObjects T = s.numberOfObjects T ∧ r.creates T = 0 ∧ r.frees T = 0 := by
  rcases hs with hs | hs
  · unfold KphReferenceObjectEx at hs
    by_cases hneg : c < 0
    · rw [if_pos hneg] at hs
      simp only [referenceStep, Option.some.injEq] at hs
      subst hs
      exact ⟨rfl, rfl, rfl⟩
    · rw [if_neg hneg] at hs
      cases hlive : s.heap Object with
      | none => rw [hlive] at hs; cases hs
      | some h =>
        rw [hlive] at hs
        simp only [referenceStep, Option.some.injEq] at hs
        subst hs
        refine ⟨?_, rfl, rfl⟩
        unfold State.numberOfObjects
        rw [typeAt_heapSet_body s Object h _ hlive ?_ T]
        rfl
  · unfold KphReferenceObject at hs
    cases hlive : s.heap Object with
    | none => rw [hlive] at hs; cases hs
    | some h =>
      rw [hlive] at hs
      simp only [referenceStep, Option.some.injEq] at hs
      subst hs
      refine ⟨?_, rfl, rfl⟩
      unfold State.numberOfObjects
      rw [typeAt_heapSet_body s Object h _ hlive ?_ T]
      rfl

/-- Effect of one dereference step on the counter of a live type `T`. -/
theorem dereferenceStep_counter (T : Addr) (s : State) (Object : Addr) (c : Int) (r : Step)
    (n : Nat) (hT : s.numberOfObjects T = some n) (hlt : n < 4294967296)
    (hs : dereferenceStep Object (s.typeOf Object)
      (KphDereferenceObjectEx s Object c false).freedOnly = some r)
    (hadm : r.admissible T s = true) :
    ∃ n', r.state.numberOfObjects T = some n' ∧ n' < 4294967296
      ∧ (n' + r.frees T) % 4294967296 = (n + r.creates T) % 4294967296 := by
  obtain ⟨hT0, tb, hh, hb, hn⟩ := numberOfObjects_live s T n hT
  rcases KphDereferenceObjectEx_cases s Object c false with
    ⟨-, hraise⟩ | hf | ⟨h0, h, hlive, hnz⟩ | ⟨h0, h, T', ty, hlive, hz, hT', hty⟩
  · rw [hraise] at hs
    simp only [Outcome.freedOnly, dereferenceStep, Option.some.injEq] at hs
    subst hs
    exact ⟨n, hT, hlt, rfl⟩
  · rw [hf] at hs; cases hs
  · rw [KphDereferenceObjectEx_kept s Object h c false hlive h0 hnz] at hs
    simp only [Outcome.freedOnly, dereferenceStep, Option.some.injEq] at hs
    subst hs
    refine ⟨n, ?_, hlt, rfl⟩
    show State.numberOfObjects _ T = some n
    unfold State.numberOfObjects
    rw [typeAt_heapSet_body s Object h _ hlive ?_ T]
    · exact hT
    · rfl
  · obtain ⟨s', he, -, -, -, -, hframe, hTy⟩ :=
      KphDereferenceObjectEx_freed s Object h c false T' ty hlive h0 hz hT' hty
    have htypeOf : s.typeOf Object = some T' := by
      simp [State.typeOf, hlive, hT']
    rw [he, htypeOf] at hs
    simp only [Outcome.freedOnly, dereferenceStep, if_true, Option.some.injEq] at hs
    subst hs
    have hne : Object ≠ T := by
      simpa [Step.admissible] using hadm
    by_cases e : T' = T
    · subst e
      obtain ⟨hT1, hh1, hh2⟩ := hTy (fun hh => hne hh.symm)
      rw [hh] at hh1; cases hh1
      obtain ⟨_, hh3, hb3⟩ := (typeAt_some_iff s T' ty).mp hty
      rw [hh] at hh3; cases hh3
      rw [hb] at hb3; cases hb3
      refine ⟨(n + 4294967295) % 4294967296, ?_, by omega, ?_⟩
      · show s'.numberOfObjects T' = _
        simp [State.numberOfObjects, State.typeAt, hh2, hn]
      · simp only [Step.frees, Step.creates, if_true]
        omega
    · refine ⟨n, ?_, hlt, ?_⟩
      · show s'.numberOfObjects T = some n
        rw [numberOfObjects_congr s s' T
          (hframe T (fun hh => hne hh.symm) (fun hh => e hh.symm)), hT]
      · simp only [Step.frees, Step.creates, if_neg e]

/-- Effect of one admissible step on the counter of a live type `T`. -/
theorem step_counter (T : Addr) (s : State) (op : MgrOp) (r : Step) (n : Nat)
    (hT : s.numberOfObjects T = some n) (hlt : n < 4294967296)
    (hs : step s op = some r) (hadm : r.admissible T s = true) :
    ∃ n', r.state.numberOfObjects T = some n' ∧ n' < 4294967296
      ∧ (n' + r.frees T) % 4294967296 = (n + r.creates T) % 4294967296 := by
  cases op with
  | KphCreateObject env ObjectSize Flags ObjectType AdditionalReferences =>
    obtain ⟨n', h1, h2, -, h4⟩ :=
      createStep_counter T env s ObjectSize Flags ObjectType AdditionalReferences r n hT hlt
        hs hadm
    exact ⟨n', h1, by omega, by rw [h4, h2]; omega⟩
  | KphCreateObjectType env DefaultPoolType DeleteProcedure =>
    obtain ⟨n', h1, h2, -, h4⟩ :=
      createTypeStep_counter T env s DefaultPoolType DeleteProcedure r n hT hlt hs hadm
    exact ⟨n', h1, by omega, by rw [h4, h2]; omega⟩
  | KphReferenceObject Object =>
    obtain ⟨h1, h2, h3⟩ := referenceStep_counter T s Object 0 r (Or.inr hs)
    exact ⟨n, by rw [h1, hT], hlt, by rw [h2, h3]⟩
  | KphReferenceObjectEx Object c =>
    obtain ⟨h1, h2, h3⟩ := referenceStep_counter T s Object c r (Or.inl hs)
    exact ⟨n, by rw [h1, hT], hlt, by rw [h2, h3]⟩
  | KphDereferenceObject Object =>
    simp only [step, KphDereferenceObject_eq] at hs
    exact dereferenceStep_counter T s Object 1 r n hT hlt hs hadm
  | KphDereferenceObjectEx Object c =>
    exact dereferenceStep_counter T s Object c r n hT hlt hs hadm

/-- Along an admissible run the counter of `T` moves, modulo `2^32`, by the
number of creations minus the number of objects freed. -/
theorem accounting_counter (T : Addr) :
    ∀ (ops : List MgrOp) (s : State) (n k j : Nat) (s' : State),
      s.numberOfObjects T = some n → n < 4294967296 →
      accounting T s ops = some (k, j, s') →
      ∃ n', s'.numberOfObjects T = some n' ∧ n' < 4294967296
        ∧ (n' + j) % 4294967296 = (n + k) % 4294967296 := by
  intro ops
  induction ops with
  | nil =>
    intro s n k j s' hT hlt hacc
    simp only [accounting, Option.some.injEq, Prod.mk.injEq] at hacc
    obtain ⟨hk, hj, hs⟩ := hacc
    subst hk; subst hj; subst hs
    exact ⟨n, hT, hlt, rfl⟩
  | cons op ops ih =>
    intro s n k j s' hT hlt hacc
    simp only [accounting] at hacc
    cases hstep : step s op with
    | none => rw [hstep] at hacc; cases hacc
    | some r =>
      rw [hstep] at hacc
      simp only [] at hacc
      by_cases hadm : r.admissible T s = true
      · rw [if_pos hadm] at hacc
        cases hrest : accounting T r.state ops with
        | none => rw [hrest] at hacc; cases hacc
        | some v =>
          obtain ⟨k0, j0, s0⟩ := v
          rw [hrest] at hacc
          simp only [Option.some.injEq, Prod.mk.injEq] at hacc
          obtain ⟨hk, hj, hs⟩ := hacc
          subst hk; subst hj; subst hs
          obtain ⟨n1, h1, hlt1, hm1⟩ := step_counter T s op r n hT hlt hstep hadm
          obtain ⟨n', h2, hlt2, hm2⟩ := ih r.state n1 k0 j0 s0 h1 hlt1 hrest
          exact ⟨n', h2, hlt2, by omega⟩
      · rw [if_neg hadm] at hacc; cases hacc

/-- One admissible step that does not free the object leaves its `Flags`, `Size`
and `Type` as they are. -/
theorem step_header (a : Addr) (s : State) (op : MgrOp) (r : Step) (h : KPH_OBJECT_HEADER)
    (hlive : s.heap a = some h)
    (hs : step s op = some r) (hadm : r.admissible a s = true) :
    ∃ h', r.state.heap a = some h' ∧ h'.Flags = h.Flags ∧ h'.Size = h.Size
      ∧ h'.Type_ = h.Type_ := by
  have hcreate : ∀ env ObjectSize Flags ObjectType AdditionalReferences (r0 : Step),
      createStep ObjectType
        (KphCreateObject env s ObjectSize Flags ObjectType AdditionalReferences) = some r0 →
      r0.admissible a s = true →
      ∃ h', r0.state.heap a = some h' ∧ h'.Flags = h.Flags ∧ h'.Size = h.Size
        ∧ h'.Type_ = h.Type_ := by
    intro env ObjectSize Flags ObjectType AdditionalReferences r0 hs0 hadm0
    rcases KphCreateObject_cases env s ObjectSize Flags ObjectType AdditionalReferences with
      hf | ⟨st, s1, hst, -, hor, hheap, -, -⟩ | ⟨b, s1, H, heq, -, -, -, hheap, hH⟩
    · rw [hf] at hs0; cases hs0
    · have hr : r0.state = s1 := by
        rcases hor with hor | hor <;> rw [hor] at hs0 <;>
          simp only [createStep, Option.some.injEq] at hs0 <;> subst hs0 <;> rfl
      exact ⟨h, by rw [hr, hheap, hlive], rfl, rfl, rfl⟩
    · rw [heq] at hs0
      simp only [createStep, if_true, Option.map_some', Option.some.injEq] at hs0
      subst hs0
      have hfresh : s.heap b = none := by
        simpa [Step.admissible] using hadm0
      have hne : a ≠ b := by
        intro e; rw [e, hfresh] at hlive; cases hlive
      rcases hH with ⟨-, hHeq⟩ | ⟨T', hT', tb', -, hh', -, hHeq⟩
      · exact ⟨h, by show s1.heap a = some h; rw [hheap, heapSet_other _ _ _ _ hne, hHeq, hlive],
          rfl, rfl, rfl⟩
      · by_cases e : a = T'
        · subst e
          rw [hlive] at hh'; cases hh'
          exact ⟨{ h with Body := some { tb' with
              NumberOfObjects := (tb'.NumberOfObjects + 1) % 4294967296 } },
            by show s1.heap a = _; rw [hheap, heapSet_other _ _ _ _ hne, hHeq, heapSet_same],
            rfl, rfl, rfl⟩
        · exact ⟨h, by show s1.heap a = some h; rw [hheap, heapSet_other _ _ _ _ hne, hHeq,
            heapSet_other _ _ _ _ e, hlive], rfl, rfl, rfl⟩
  have hderef : ∀ (Object : Addr) (c : Int) (r0 : Step),
      dereferenceStep Object (s.typeOf Object)
        (KphDereferenceObjectEx s Object c false).freedOnly = some r0 →
      r0.admissible a s = true →
      ∃ h', r0.state.heap a = some h' ∧ h'.Flags = h.Flags ∧ h'.Size = h.Size
        ∧ h'.Type_ = h.Type_ := by
    intro Object c r0 hs0 hadm0
    rcases KphDereferenceObjectEx_cases s Object c false with
      ⟨-, hraise⟩ | hf | ⟨h0, ho, hlo, hnz⟩ | ⟨h0, ho, T', ty, hlo, hz, hT', hty⟩
    · rw [hraise] at hs0
      simp only [Outcome.freedOnly, dereferenceStep, Option.some.injEq] at hs0
      subst hs0
      exact ⟨h, hlive, rfl, rfl, rfl⟩
    · rw [hf] at hs0; cases hs0
    · rw [KphDereferenceObjectEx_kept s Object ho c false hlo h0 hnz] at hs0
      simp only [Outcome.freedOnly, dereferenceStep, Option.some.injEq] at hs0
      subst hs0
      by_cases e : a = Object
      · subst e
        rw [hlive] at hlo; cases hlo
        exact ⟨_, heapSet_same _ _ _, rfl, rfl, rfl⟩
      · exact ⟨h, by show heapSet _ _ _ a = some h; rw [heapSet_other _ _ _ _ e, hlive],
          rfl, rfl, rfl⟩
    · obtain ⟨s', he, -, -, -, -, hframe, hTy⟩ :=
        KphDereferenceObjectEx_freed s Object ho c false T' ty hlo h0 hz hT' hty
      have htypeOf : s.typeOf Object = some T' := by
        simp [State.typeOf, hlo, hT']
      rw [he, htypeOf] at hs0
      simp only [Outcome.freedOnly, dereferenceStep, if_true, Option.some.injEq] at hs0
      subst hs0
      have hne : Object ≠ a := by
        simpa [Step.admissible] using hadm0
      by_cases e : a = T'
      · subst e
        obtain ⟨hT1, hh1, hh2⟩ := hTy (fun hh => hne hh.symm)
        rw [hlive] at hh1; cases hh1
        exact ⟨_, hh2, rfl, rfl, rfl⟩
      · exact ⟨h, by show s'.heap a = some h; rw [hframe a (fun hh => hne hh.symm) e, hlive],
          rfl, rfl, rfl⟩
  have href : ∀ (h1 : KPH_OBJECT_HEADER) (Object : Addr) (c : Int),
      s.heap Object = some h1 →
      ∃ h', heapSet s.heap Object (some { h1 with RefCount := c }) a = some h'
        ∧ h'.Flags = h.Flags ∧ h'.Size = h.Size ∧ h'.Type_ = h.Type_ := by
    intro h1 Object c hlo
    by_cases e : a = Object
    · subst e
      rw [hlive] at hlo; cases hlo
      exact ⟨_, heapSet_same _ _ _, rfl, rfl, rfl⟩
    · exact ⟨h, by rw [heapSet_other _ _ _ _ e, hlive], rfl, rfl, rfl⟩
  cases op with
  | KphCreateObject env ObjectSize Flags ObjectType AdditionalReferences =>
    exact hcreate env ObjectSize Flags ObjectType AdditionalReferences r hs hadm
  | KphCreateObjectType env DefaultPoolType DeleteProcedure =>
    simp only [step] at hs
    unfold KphCreateObjectType at hs
    rcases KphCreateObject_cases env s env.sizeofObjectType 0 s.KphObjectType 0 with
      hf | ⟨st, s1, hst, hnt, hor, -⟩ | ⟨b, s1, H, heq, -, -, -, hheap, -⟩
    · rw [hf] at hs; cases hs
    · refine hcreate env env.sizeofObjectType 0 s.KphObjectType 0 r ?_ hadm
      rcases hor with hor | hor
      · rw [hor] at hs ⊢
        simpa only [hnt, Bool.not_false, if_true] using hs
      · rw [hor] at hs ⊢
        exact hs
    · have hliveb : s1.heap b = some
          { RefCount := wrapLong (1 + 0), Flags := 0, Size := env.sizeofObjectType,
            Type_ := s.KphObjectType, Body := none } := by
        rw [hheap, heapSet_same]
      have hs0 : createStep s.KphObjectType
          (KphCreateObject env s env.sizeofObjectType 0 s.KphObjectType 0)
          = some { state := s1, created := some (s.KphObjectType, b), freed := none } := by
        rw [heq]; simp [createStep]
      rw [heq] at hs
      have hsucc : (!NT_SUCCESS STATUS_SUCCESS) = false := by decide
      simp only [hsucc, hliveb, createStep, if_true, Bool.false_eq_true, if_false,
        Option.map_some', Option.some.injEq] at hs
      subst hs
      have hfresh : s.heap b = none := by
        simpa [Step.admissible] using hadm
      have hne : a ≠ b := by
        intro e; rw [e, hfresh] at hlive; cases hlive
      obtain ⟨h', h1, h2⟩ := hcreate env env.sizeofObjectType 0 s.KphObjectType 0 _ hs0 hadm
      exact ⟨h', by show heapSet s1.heap b _ a = some h'; rw [heapSet_other _ _ _ _ hne]; exact h1,
        h2⟩
  | KphReferenceObject Object =>
    simp only [step, KphReferenceObject] at hs
    cases hlo : s.heap Object with
    | none => rw [hlo] at hs; cases hs
    | some h1 =>
      rw [hlo] at hs
      simp only [referenceStep, Option.some.injEq] at hs
      subst hs
      exact href h1 Object _ hlo
  | KphReferenceObjectEx Object c =>
    simp only [step, KphReferenceObjectEx] at hs
    by_cases hneg : c < 0
    · rw [if_pos hneg] at hs
      simp only [referenceStep, Option.some.injEq] at hs
      subst hs
      exact ⟨h, hlive, rfl, rfl, rfl⟩
    · rw [if_neg hneg] at hs
      cases hlo : s.heap Object with
      | none => rw [hlo] at hs; cases hs
      | some h1 =>
        rw [hlo] at hs
        simp only [referenceStep, Option.some.injEq] at hs
        subst hs
        exact href h1 Object _ hlo
  | KphDereferenceObject Object =>
    simp only [step, KphDereferenceObject_eq] at hs
    exact hderef Object 1 r hs hadm
  | KphDereferenceObjectEx Object c =>
    exact hderef Object c r hs hadm

/-- Along an admissible run in which the object is not freed, its `Flags`, `Size`
and `Type` stay as they are. -/
theorem accounting_header (a : Addr) :
    ∀ (ops : List MgrOp) (s : State) (h : KPH_OBJECT_HEADER) (k j : Nat) (s' : State),
      s.heap a = some h → accounting a s ops = some (k, j, s') →
      ∃ h', s'.heap a = some h' ∧ h'.Flags = h.Flags ∧ h'.Size = h.Size
        ∧ h'.Type_ = h.Type_ := by
  intro ops
  induction ops with
  | nil =>
    intro s h k j s' hlive hacc
    simp only [accounting, Option.some.injEq, Prod.mk.injEq] at hacc
    obtain ⟨-, -, hs⟩ := hacc
    subst hs
    exact ⟨h, hlive, rfl, rfl, rfl⟩
  | cons op ops ih =>
    intro s h k j s' hlive hacc
    simp only [accounting] at hacc
    cases hstep : step s op with
    | none => rw [hstep] at hacc; cases hacc
    | some r =>
      rw [hstep] at hacc
      simp only [] at hacc
      by_cases hadm : r.admissible a s = true
      · rw [if_pos hadm] at hacc
        cases hrest : accounting a r.state ops with
        | none => rw [hrest] at hacc; cases hacc
        | some v =>
          obtain ⟨k0, j0, s0⟩ := v
          rw [hrest] at hacc
          simp only [Option.some.injEq, Prod.mk.injEq] at hacc
          obtain ⟨-, -, hs⟩ := hacc
          subst hs
          obtain ⟨h1, hl1, e1, e2, e3⟩ := step_header a s op r h hlive hstep hadm
          obtain ⟨h2, hl2, f1, f2, f3⟩ := ih r.state h1 k0 j0 s0 hl1 hrest
          exact ⟨h2, hl2, by rw [f1, e1], by rw [f2, e2], by rw [f3, e3]⟩
      · rw [if_neg hadm] at hacc; cases hacc

/-- The header of an object made by `KphCreateObject` still carries, after any
admissible run in which it is not freed, the flags, the size and the type it
was created with. -/
theorem created_header_stable (env : Env) (s0 : State) (ObjectSize Flags : Nat)
    (ObjectType : Option Addr) (AdditionalReferences : Int) (a : Addr) (s1 : State)
    (ops : List MgrOp) (k j : Nat) (s : State) (h : KPH_OBJECT_HEADER)
    (hcreate : KphCreateObject env s0 ObjectSize Flags ObjectType AdditionalReferences
      = Outcome.ret (STATUS_SUCCESS, some a) s1)
    (hrun : accounting a s1 ops = some (k, j, s))
    (hlive : s.heap a = some h) :
    h.Flags = Flags ∧ h.Size = ObjectSize ∧ h.Type_ = ObjectType := by
  rcases KphCreateObject_cases env s0 ObjectSize Flags ObjectType AdditionalReferences with
    hf | ⟨st, s2, hst, -, hor, -⟩ | ⟨b, s2, H, heq, -, -, -, hheap, -⟩
  · rw [hf] at hcreate; cases hcreate
  · rcases hor with hor | hor <;> rw [hor] at hcreate
    · simp only [Outcome.ret.injEq, Prod.mk.injEq] at hcreate
      exact absurd hcreate.1.2 (by simp)
    · cases hcreate
  · rw [heq] at hcreate
    simp only [Outcome.ret.injEq, Prod.mk.injEq, Option.some.injEq] at hcreate
    obtain ⟨⟨-, hb⟩, hs⟩ := hcreate
    subst hb; subst hs
    obtain ⟨h', hl, e1, e2, e3⟩ :=
      accounting_header b ops s2 _ k j s (by rw [hheap, heapSet_same]) hrun
    rw [hlive] at hl; cases hl
    exact ⟨e1, e2, e3⟩

/-! ## Order of the deletion steps (C3) -/

/-- Claim C3: when a `KphDereferenceObjectEx` call brings the count of a registered
object to exactly zero, the trace grows by exactly these steps in this order: the
call of the type's delete procedure (only when it is not null) with the object,
the flags and the size held in its header, made while the registry still contains
the object; the decrement of the type's `NumberOfObjects`; the unlink; the pool
free. Afterwards the counter of the type is one less, the object is in neither
registry nor pool. When the resulting count is not zero, the trace, the registry
and every type counter are unchanged and the object stays. The flags and the size
in the header are those the object was created with: if the object was made by
`KphCreateObject(size, flags, ..)` and any admissible run without its deletion
led to the present state, the header holds that `flags` and that `size`. -/
theorem KphDereferenceObjectEx_deletion_order (s : State) (Object : Addr)
    (h : KPH_OBJECT_HEADER) (n : Int) (OldRefCount : Bool) (T : Addr) (ty : KPH_OBJECT_TYPE)
    (hlive : s.heap Object = some h) (hc : InLong h.RefCount)
    (hn0 : 0 ≤ n) (hn : InLong n)
    (hT : h.Type_ = some T) (hty : s.typeAt T = some ty)
    (hreg : Object ∈ s.KphObjectListHead) (hnodup : s.KphObjectListHead.Nodup) :
    (h.RefCount - n = 0 →
      ∃ s', KphDereferenceObjectEx s Object n OldRefCount
          = Outcome.ret (true, if OldRefCount then some h.RefCount else none) s'
        ∧ (∃ registry, Object ∈ registry ∧
            s'.trace = s.trace
              ++ (match ty.DeleteProcedure with
                  | some p => [Event.DeleteProcedure p Object h.Flags h.Size registry]
                  | none => [])
              ++ [Event.InterlockedDecrementType T, Event.RemoveEntryList Object,
                  Event.ExFreePoolWithTag Object TAG_KPHOBJ])
        ∧ (T ≠ Object →
            s'.numberOfObjects T = some ((ty.NumberOfObjects + 4294967295) % 4294967296)
            ∧ (0 < ty.NumberOfObjects → ty.NumberOfObjects < 4294967296 →
                s'.numberOfObjects T = some (ty.NumberOfObjects - 1)))
        ∧ s'.KphObjectListHead = s.KphObjectListHead.erase Object
        ∧ Object ∉ s'.KphObjectListHead
        ∧ s'.heap Object = none)
    ∧ (h.RefCount - n ≠ 0 →
      ∃ s', KphDereferenceObjectEx s Object n OldRefCount
          = Outcome.ret (false, if OldRefCount then some h.RefCount else none) s'
        ∧ s'.trace = s.trace
        ∧ s'.KphObjectListHead = s.KphObjectListHead
        ∧ (∀ T', s'.numberOfObjects T' = s.numberOfObjects T')
        ∧ s'.heap Object ≠ none)
    ∧ (∀ env s0 ObjectSize Flags ObjectType AdditionalReferences s1 ops k j,
        KphCreateObject env s0 ObjectSize Flags ObjectType AdditionalReferences
          = Outcome.ret (STATUS_SUCCESS, some Object) s1 →
        accounting Object s1 ops = some (k, j, s) →
        h.Flags = Flags ∧ h.Size = ObjectSize) := by
  refine ⟨?_, ?_, ?_⟩
  · intro hzero
    have hz : wrapLong (h.RefCount - n) = 0 := by
      rw [wrapLong_sub_eq_zero _ _ hc hn]; exact hzero
    obtain ⟨s', he, htr, hlist, -, hgone, -, hcount⟩ :=
      KphDereferenceObjectEx_freed s Object h n OldRefCount T ty hlive hn0 hz hT hty
    refine ⟨s', he, ⟨s.KphObjectListHead, hreg, htr⟩, ?_, hlist, ?_, hgone⟩
    · intro hne
      obtain ⟨hT0, -, hT1⟩ := hcount hne
      have e : s'.numberOfObjects T
          = some ((ty.NumberOfObjects + 4294967295) % 4294967296) := by
        simp [State.numberOfObjects, State.typeAt, hT1]
      refine ⟨e, fun hpos hlt => ?_⟩
      have hm : (ty.NumberOfObjects + 4294967295) % 4294967296 = ty.NumberOfObjects - 1 := by
        omega
      rw [e, hm]
    · rw [hlist]
      intro hmem
      exact ((List.Nodup.mem_erase_iff hnodup).mp hmem).1 rfl
  · intro hnz
    have hz : wrapLong (h.RefCount - n) ≠ 0 := by
      rw [Ne, wrapLong_sub_eq_zero _ _ hc hn]; exact hnz
    refine ⟨_, KphDereferenceObjectEx_kept s Object h n OldRefCount hlive hn0 hz,
      rfl, rfl, ?_, ?_⟩
    · intro T'
      by_cases e : T' = Object
      · subst e
        simp [State.numberOfObjects, State.typeAt, hlive]
      · simp [State.numberOfObjects, State.typeAt, heapSet_other _ _ _ _ e]
    · simp
  · intro env s0 ObjectSize Flags ObjectType AdditionalReferences s1 ops k j hcreate hrun
    obtain ⟨e1, e2, -⟩ :=
      created_header_stable env s0 ObjectSize Flags ObjectType AdditionalReferences Object s1
        ops k j s h hcreate hrun hlive
    exact ⟨e1, e2⟩

/-- Claim C3 on the sample manager: an object is created in block 64 with flags 4
and size 24, of type 32 whose delete procedure is 7; a reference is taken,
object 48 is deleted and the reference is dropped; then the last dereference of
object 64 runs the four steps, the delete procedure receiving flags 4 and
size 24 while 64 is still registered. -/
theorem KphDereferenceObjectEx_deletion_order_witness :
    ∃ s1 s s',
      KphCreateObject (sampleEnv (some 64)) sampleState 24 4 (some 32) 0
        = Outcome.ret (STATUS_SUCCESS, some 64) s1
      ∧ accounting 64 s1
          [MgrOp.KphReferenceObject 64, MgrOp.KphDereferenceObjectEx 48 1,
           MgrOp.KphDereferenceObject 64] = some (0, 0, s)
      ∧ KphDereferenceObjectEx s 64 1 false = Outcome.ret (true, none) s'
      ∧ (∃ registry, 64 ∈ registry ∧
          s'.trace = s.trace ++ [Event.DeleteProcedure 7 64 4 24 registry,
            Event.InterlockedDecrementType 32, Event.RemoveEntryList 64,
            Event.ExFreePoolWithTag 64 TAG_KPHOBJ])
      ∧ s'.numberOfObjects 32 = some 0
      ∧ 64 ∉ s'.KphObjectListHead
      ∧ s'.heap 64 = none
      ∧ (∃ h, s.heap 64 = some h ∧ h.Flags = 4 ∧ h.Size = 24) := by
  have hx : ∃ s1 s,
      KphCreateObject (sampleEnv (some 64)) sampleState 24 4 (some 32) 0
        = Outcome.ret (STATUS_SUCCESS, some 64) s1
      ∧ accounting 64 s1
          [MgrOp.KphReferenceObject 64, MgrOp.KphDereferenceObjectEx 48 1,
           MgrOp.KphDereferenceObject 64] = some (0, 0, s)
      ∧ s.heap 64 = some { RefCount := 1, Flags := 4, Size := 24, Type_ := some 32,
                           Body := none }
      ∧ s.typeAt 32 = some sampleType
      ∧ 64 ∈ s.KphObjectListHead
      ∧ s.KphObjectListHead.Nodup :=
    ⟨_, _, rfl, rfl, by decide, by decide, by decide, by decide⟩
  obtain ⟨s1, s, e1, e2, hlive, hty, hreg, hnodup⟩ := hx
  obtain ⟨hzero, -, hprov⟩ :=
    KphDereferenceObjectEx_deletion_order s 64
      { RefCount := 1, Flags := 4, Size := 24, Type_ := some 32, Body := none }
      1 false 32 sampleType hlive (by decide) (by decide) (by decide) (by decide) hty hreg
      hnodup
  obtain ⟨s', he, ⟨registry, hmem, htr⟩, hcnt, -, hnot, hgone⟩ := hzero (by decide)
  exact ⟨s1, s, s', e1, e2, he, ⟨registry, hmem, by rw [htr]; simp [sampleType]⟩,
    (hcnt (by decide)).2 (by decide) (by decide), hnot,
    hgone, _, hlive,
    hprov (sampleEnv (some 64)) sampleState 24 4 (some 32) 0 s1 _ 0 0 e1 e2⟩

/-! ## Reference-count conservation (C4) -/

/-- An operation whose resulting count is a positive `LONG` only rewrites the count. -/
theorem applyRefOp_kept (s : State) (Object : Addr) (h : KPH_OBJECT_HEADER) (op : RefOp)
    (hlive : s.heap Object = some h) (h0 : 0 ≤ op.amount)
    (hmax : h.RefCount + op.delta < 2147483648) (hmin : 0 ≤ h.RefCount + op.delta)
    (hnz : h.RefCount + op.delta ≠ 0) :
    applyRefOp s Object op
      = Outcome.ret ()
          { s with
            heap := heapSet s.heap Object
              (some { h with RefCount := h.RefCount + op.delta }) } := by
  have hin : InLong (h.RefCount + op.delta) := by unfold InLong at *; omega
  cases op with
  | KphReferenceObject =>
    simp only [RefOp.delta] at *
    simp only [applyRefOp, KphReferenceObject, hlive, wrapLong_of_inLong _ hin]
  | KphReferenceObjectEx n =>
    simp only [RefOp.delta, RefOp.amount] at *
    simp only [applyRefOp, KphReferenceObjectEx, hlive, wrapLong_of_inLong _ hin,
      if_neg (not_lt.mpr h0), Outcome.discard]
  | KphDereferenceObject =>
    simp only [RefOp.delta, RefOp.amount] at *
    have hnz' : wrapLong (h.RefCount - 1) ≠ 0 := by
      rw [show h.RefCount - 1 = h.RefCount + -1 by ring, wrapLong_of_inLong _ hin]; exact hnz
    have e := KphDereferenceObjectEx_kept s Object h 1 false hlive (by omega) hnz'
    rw [show h.RefCount - 1 = h.RefCount + -1 by ring, wrapLong_of_inLong _ hin] at e
    simp only [applyRefOp, KphDereferenceObject, e, Outcome.discard]
  | KphDereferenceObjectEx n =>
    simp only [RefOp.delta, RefOp.amount] at *
    have hnz' : wrapLong (h.RefCount - n) ≠ 0 := by
      rw [show h.RefCount - n = h.RefCount + -n by ring, wrapLong_of_inLong _ hin]; exact hnz
    have e := KphDereferenceObjectEx_kept s Object h n false hlive h0 hnz'
    rw [show h.RefCount - n = h.RefCount + -n by ring, wrapLong_of_inLong _ hin] at e
    simp only [applyRefOp, e, Outcome.discard]

/-- An operation that brings a positive count to zero frees the object. -/
theorem applyRefOp_freed (s : State) (Object : Addr) (h : KPH_OBJECT_HEADER) (op : RefOp)
    (T : Addr) (ty : KPH_OBJECT_TYPE)
    (hlive : s.heap Object = some h) (hpos : 0 < h.RefCount) (h0 : 0 ≤ op.amount)
    (hz : h.RefCount + op.delta = 0)
    (hT : h.Type_ = some T) (hty : s.typeAt T = some ty) :
    ∃ s', applyRefOp s Object op = Outcome.ret () s'
      ∧ s'.heap Object = none
      ∧ s'.KphObjectListHead = s.KphObjectListHead.erase Object
      ∧ deleteCalls Object s'.trace
          = deleteCalls Object s.trace + (if ty.DeleteProcedure = none then 0 else 1) := by
  have key : ∀ n : Int, 0 ≤ n → h.RefCount - n = 0 →
      ∃ s', (KphDereferenceObjectEx s Object n false).discard = Outcome.ret () s'
        ∧ s'.heap Object = none
        ∧ s'.KphObjectListHead = s.KphObjectListHead.erase Object
        ∧ deleteCalls Object s'.trace
            = deleteCalls Object s.trace + (if ty.DeleteProcedure = none then 0 else 1) := by
    intro n hn hzero
    have hw : wrapLong (h.RefCount - n) = 0 := by rw [hzero]; decide
    obtain ⟨s', he, htr, hlist, -, hgone, -, -⟩ :=
      KphDereferenceObjectEx_freed s Object h n false T ty hlive hn hw hT hty
    refine ⟨s', by rw [he]; rfl, hgone, hlist, ?_⟩
    rw [htr, deleteCalls_append, deleteCalls_append]
    cases hd : ty.DeleteProcedure with
    | none => simp [deleteCalls]
    | some p => simp [deleteCalls]
  cases op with
  | KphReferenceObject => simp only [RefOp.delta] at hz; omega
  | KphReferenceObjectEx n => simp only [RefOp.delta, RefOp.amount] at hz h0; omega
  | KphDereferenceObject =>
    simp only [RefOp.delta] at hz
    obtain ⟨s', he, hrest⟩ := key 1 (by omega) (by omega)
    refine ⟨s', ?_, hrest⟩
    rw [← he]
    simp only [applyRefOp, KphDereferenceObject, Outcome.discard]
    cases KphDereferenceObjectEx s Object 1 false with
    | ret v s1 => cases v; rfl
    | raise st s1 => rfl
    | fault => rfl
  | KphDereferenceObjectEx n =>
    simp only [RefOp.delta, RefOp.amount] at hz h0
    obtain ⟨s', he, hrest⟩ := key n h0 (by omega)
    exact ⟨s', by simpa only [applyRefOp] using he, hrest⟩

/-- Conservation along a disciplined sequence, from any positive count. -/
theorem runRefOps_disciplined (Object T : Addr) (ty : KPH_OBJECT_TYPE) :
    ∀ (ops : List RefOp) (s : State) (h : KPH_OBJECT_HEADER),
      s.heap Object = some h → 0 < h.RefCount → h.RefCount < 2147483648 →
      h.Type_ = some T → s.typeAt T = some ty → Disciplined h.RefCount ops →
      ∃ s', runRefOps s Object ops = Outcome.ret () s'
        ∧ (0 ∈ countsAfter h.RefCount ops →
            s'.heap Object = none
            ∧ s'.KphObjectListHead = s.KphObjectListHead.erase Object
            ∧ deleteCalls Object s'.trace
                = deleteCalls Object s.trace + (if ty.DeleteProcedure = none then 0 else 1))
        ∧ (0 ∉ countsAfter h.RefCount ops →
            s'.heap Object = some { h with RefCount := finalCount h.RefCount ops }
            ∧ s'.trace = s.trace
            ∧ s'.KphObjectListHead = s.KphObjectListHead) := by
  intro ops
  induction ops with
  | nil =>
    intro s h hlive _ _ _ _ _
    exact ⟨s, rfl, fun hmem => by simp [countsAfter] at hmem, fun _ => ⟨hlive, rfl, rfl⟩⟩
  | cons op ops ih =>
    intro s h hlive hpos hmax hT hty hd
    obtain ⟨h0, -, hmin, hmax', hstop, hrest⟩ := hd
    by_cases hz : h.RefCount + op.delta = 0
    · have hnil : ops = [] := hstop hz
      subst hnil
      obtain ⟨s', he, hgone, hlist, hcalls⟩ :=
        applyRefOp_freed s Object h op T ty hlive hpos h0 hz hT hty
      refine ⟨s', ?_, fun _ => ⟨hgone, hlist, hcalls⟩, fun hnot => ?_⟩
      · simp only [runRefOps, he]
      · exact absurd (by simp [countsAfter, hz]) hnot
    · have he := applyRefOp_kept s Object h op hlive h0 hmax' hmin hz
      have hlive1 : State.heap
          { s with
            heap := heapSet s.heap Object
              (some { h with RefCount := h.RefCount + op.delta }) } Object
          = some { h with RefCount := h.RefCount + op.delta } := by simp
      obtain ⟨s', hrun, hdel, hkeep⟩ :=
        ih _ { h with RefCount := h.RefCount + op.delta } hlive1
          (by show 0 < h.RefCount + op.delta; omega) hmax' hT
          (by rw [typeAt_heapSet_body s Object h _ hlive ?_ T, hty]; rfl) hrest
      refine ⟨s', ?_, ?_, ?_⟩
      · simp only [runRefOps, he]
        exact hrun
      · intro hmem
        have hmem' : 0 ∈ countsAfter (h.RefCount + op.delta) ops := by
          simp only [countsAfter, List.mem_cons] at hmem
          rcases hmem with hmem | hmem
          · exact absurd hmem.symm hz
          · exact hmem
        exact hdel hmem'
      · intro hnot
        have hnot' : 0 ∉ countsAfter (h.RefCount + op.delta) ops := by
          intro hmem
          exact hnot (by simp only [countsAfter, List.mem_cons]; exact Or.inr hmem)
        exact hkeep hnot'

/-- Claim C4 (amended): take an object whose count is 1 and whose type pointer
points to a type, and a sequence of `KphReferenceObject` / `KphReferenceObjectEx`
/ `KphDereferenceObject` / `KphDereferenceObjectEx` calls with non-negative
amounts in which no call takes the count below zero or above `2^31 - 1` and no
call follows the one that reaches zero. Then every call returns; the object is
deleted (freed and unlinked) if and only if the count reaches exactly 0; when it
is deleted the type's delete procedure has been called exactly once if the type
has one and not at all otherwise; when it is not deleted its count is the net
count and nothing was called. -/
theorem refcount_conservation (s : State) (Object : Addr) (h : KPH_OBJECT_HEADER)
    (T : Addr) (ty : KPH_OBJECT_TYPE) (ops : List RefOp)
    (hlive : s.heap Object = some h) (hcount : h.RefCount = 1)
    (hT : h.Type_ = some T) (hty : s.typeAt T = some ty)
    (hd : Disciplined 1 ops) :
    ∃ s', runRefOps s Object ops = Outcome.ret () s'
      ∧ (s'.heap Object = none ↔ 0 ∈ countsAfter 1 ops)
      ∧ (s'.heap Object = none →
          s'.KphObjectListHead = s.KphObjectListHead.erase Object
          ∧ deleteCalls Object s'.trace
              = deleteCalls Object s.trace + (if ty.DeleteProcedure = none then 0 else 1))
      ∧ (s'.heap Object ≠ none →
          s'.refCount Object = some (finalCount 1 ops)
          ∧ s'.trace = s.trace
          ∧ s'.KphObjectListHead = s.KphObjectListHead) := by
  obtain ⟨s', hrun, hdel, hkeep⟩ :=
    runRefOps_disciplined Object T ty ops s h hlive (by omega) (by omega) hT hty
      (by rw [hcount]; exact hd)
  rw [hcount] at hdel hkeep
  by_cases hmem : 0 ∈ countsAfter 1 ops
  · obtain ⟨hgone, hlist, hcalls⟩ := hdel hmem
    exact ⟨s', hrun, ⟨fun _ => hmem, fun _ => hgone⟩, fun _ => ⟨hlist, hcalls⟩,
      fun hne => absurd hgone hne⟩
  · obtain ⟨hstay, htr, hlist⟩ := hkeep hmem
    refine ⟨s', hrun, ⟨fun hgone => ?_, fun hm => absurd hm hmem⟩, fun hgone => ?_,
      fun _ => ⟨by simp [State.refCount, hstay], htr, hlist⟩⟩
    · rw [hstay] at hgone; cases hgone
    · rw [hstay] at hgone; cases hgone

/-- The amended claim C4 on object 48 of the sample manager: three references
taken and four dropped, the last drop bringing the count to zero; the delete
procedure of its type has then run once. -/
theorem refcount_conservation_witness :
    ∃ s', runRefOps sampleState 48
        [RefOp.KphReferenceObject, RefOp.KphReferenceObjectEx 2, RefOp.KphDereferenceObject,
         RefOp.KphDereferenceObjectEx 3] = Outcome.ret () s'
      ∧ s'.heap 48 = none
      ∧ s'.KphObjectListHead = [32, 16]
      ∧ deleteCalls 48 s'.trace = 1 := by
  obtain ⟨s', hrun, hiff, hdel, -⟩ :=
    refcount_conservation sampleState 48 sampleObject 32 sampleType
      [RefOp.KphReferenceObject, RefOp.KphReferenceObjectEx 2, RefOp.KphDereferenceObject,
       RefOp.KphDereferenceObjectEx 3]
      (by decide) (by decide) (by decide) (by decide)
      (by simp [Disciplined, RefOp.amount, RefOp.delta])
  have hgone : s'.heap 48 = none := hiff.mpr (by simp [countsAfter, RefOp.delta])
  obtain ⟨hlist, hcalls⟩ := hdel hgone
  exact ⟨s', hrun, hgone, by rw [hlist]; decide, by rw [hcalls]; decide⟩

/-- Claim C4 fails as stated, on object 48 whose count is 1. First,
`KphDereferenceObjectEx(object, 2)` followed by `KphReferenceObject(object)` are
two accepted calls with non-negative amounts that bring the count to exactly 0,
yet the object is not deleted and no delete procedure has run. Second, adding
`2147483647` references twice and one more wraps the stored count to 0 without
deletion, and a following `KphDereferenceObjectEx(object, 0)` deletes the object
although the net count of the calls is `4294967296`. Third, the type object 32,
whose own type (the root type) has no delete procedure, is deleted by its last
dereference without any callback. -/
theorem refcount_zero_without_deletion :
    (∃ s', runRefOps sampleState 48
        [RefOp.KphDereferenceObjectEx 2, RefOp.KphReferenceObject] = Outcome.ret () s'
      ∧ finalCount 1 [RefOp.KphDereferenceObjectEx 2, RefOp.KphReferenceObject] = 0
      ∧ s'.refCount 48 = some 0
      ∧ s'.heap 48 ≠ none
      ∧ 48 ∈ s'.KphObjectListHead
      ∧ deleteCalls 48 s'.trace = 0)
    ∧ (∃ s1 s2,
        runRefOps sampleState 48
          [RefOp.KphReferenceObjectEx 2147483647, RefOp.KphReferenceObjectEx 2147483647,
           RefOp.KphReferenceObject] = Outcome.ret () s1
        ∧ s1.refCount 48 = some 0
        ∧ s1.heap 48 ≠ none
        ∧ runRefOps s1 48 [RefOp.KphDereferenceObjectEx 0] = Outcome.ret () s2
        ∧ s2.heap 48 = none
        ∧ 0 ∉ countsAfter 1
            [RefOp.KphReferenceObjectEx 2147483647, RefOp.KphReferenceObjectEx 2147483647,
             RefOp.KphReferenceObject, RefOp.KphDereferenceObjectEx 0])
    ∧ (∃ s', runRefOps sampleState 32 [RefOp.KphDereferenceObject] = Outcome.ret () s'
        ∧ s'.heap 32 = none
        ∧ deleteCalls 32 s'.trace = 0) :=
  ⟨⟨_, rfl, by decide, by decide, by decide, by decide, by decide⟩,
   ⟨_, _, rfl, by decide, by decide, rfl, by decide, by decide⟩,
   ⟨_, rfl, by decide, by decide⟩⟩

/-! ## Type accounting (C5) -/

/-- A type handed out by `KphCreateObjectType` starts with the counter at zero. -/
theorem KphCreateObjectType_counter (env : Env) (s : State) (DefaultPoolType : POOL_TYPE)
    (DeleteProcedure : Option Nat) (st : NTSTATUS) (T : Addr) (s1 : State)
    (hres : KphCreateObjectType env s DefaultPoolType DeleteProcedure
      = Outcome.ret (st, some T) s1) :
    s1.typeAt T = some { DefaultPoolType := DefaultPoolType,
                         DeleteProcedure := DeleteProcedure, NumberOfObjects := 0 } := by
  unfold KphCreateObjectType at hres
  rcases KphCreateObject_cases env s env.sizeofObjectType 0 s.KphObjectType 0 with
    hf | ⟨st1, s2, -, hnt, hor, -⟩ | ⟨a, s2, H, heq, -, -, -, hheap, -⟩
  · rw [hf] at hres; cases hres
  · rcases hor with hor | hor
    · rw [hor] at hres
      simp only [hnt, Bool.not_false, if_true, Outcome.ret.injEq, Prod.mk.injEq] at hres
      exact absurd hres.1.2 (by simp)
    · rw [hor] at hres; cases hres
  · have hlive : s2.heap a = some
        { RefCount := wrapLong (1 + 0), Flags := 0, Size := env.sizeofObjectType,
          Type_ := s.KphObjectType, Body := none } := by
      rw [hheap, heapSet_same]
    have hsucc : (!NT_SUCCESS STATUS_SUCCESS) = false := by decide
    rw [heq] at hres
    simp only [hsucc, hlive, Bool.false_eq_true, if_false, Outcome.ret.injEq, Prod.mk.injEq,
      Option.some.injEq] at hres
    obtain ⟨⟨-, ha⟩, hs⟩ := hres
    subst ha; subst hs
    simp [State.typeAt]

/-- The root type left by a successful `KphRefInit` has the counter at one. -/
theorem KphRefInit_counter (env : Env) (s s1 : State) (root : Addr)
    (hres : KphRefInit env s = Outcome.ret STATUS_SUCCESS s1)
    (hroot : s1.KphObjectType = some root) :
    s1.numberOfObjects root = some 1 := by
  unfold KphRefInit at hres
  simp only [] at hres
  cases hct : KphCreateObjectType env { s with KphObjectListHead := [] }
      POOL_TYPE.NonPagedPool none with
  | fault => rw [hct] at hres; cases hres
  | raise st s2 => rw [hct] at hres; cases hres
  | ret v s2 =>
    obtain ⟨st, out⟩ := v
    rw [hct] at hres
    simp only [] at hres
    by_cases hnt : (!NT_SUCCESS st) = true
    · rw [if_pos hnt] at hres
      simp only [Outcome.ret.injEq] at hres
      obtain ⟨hst, -⟩ := hres
      subst hst
      exact absurd hnt (by decide)
    · rw [if_neg hnt] at hres
      cases out with
      | none => cases hres
      | some r =>
        have hty := KphCreateObjectType_counter env _ POOL_TYPE.NonPagedPool none st r s2 hct
        obtain ⟨h, hh, hb⟩ := (typeAt_some_iff s2 r _).mp hty
        simp only [hh, hb, Outcome.ret.injEq] at hres
        obtain ⟨-, hs⟩ := hres
        subst hs
        simp only [Option.some.injEq] at hroot
        subst hroot
        simp [State.numberOfObjects, State.typeAt]

/-- Claim C5: for a type `T` made by `KphCreateObjectType`, after any admissible run
of object-manager calls containing `k` successful `KphCreateObject` calls with
type `T` and `j ≤ k` dereferences that freed an object of type `T`,
`T.NumberOfObjects` is `k - j` as a 32-bit counter, hence exactly `k - j`
whenever `k - j` is in the range of the `ULONG` field; for the root type made by
`KphRefInit`, where the `k` creations are those of the types and other objects
created with the root type, the counter is `1 + k - j` in the same sense. -/
theorem type_accounting :
    (∀ env s DefaultPoolType DeleteProcedure T s1 ops k j s2,
      KphCreateObjectType env s DefaultPoolType DeleteProcedure
        = Outcome.ret (STATUS_SUCCESS, some T) s1 →
      accounting T s1 ops = some (k, j, s2) →
      j ≤ k →
      s2.numberOfObjects T = some ((k - j) % 4294967296)
      ∧ (k - j < 4294967296 → s2.numberOfObjects T = some (k - j)))
    ∧ (∀ env s s1 root ops k j s2,
      KphRefInit env s = Outcome.ret STATUS_SUCCESS s1 →
      s1.KphObjectType = some root →
      accounting root s1 ops = some (k, j, s2) →
      j ≤ k →
      s2.numberOfObjects root = some ((1 + k - j) % 4294967296)
      ∧ (1 + k - j < 4294967296 → s2.numberOfObjects root = some (1 + k - j))) := by
  constructor
  · intro env s DefaultPoolType DeleteProcedure T s1 ops k j s2 hres hacc hjk
    have h0 : s1.numberOfObjects T = some 0 := by
      unfold State.numberOfObjects
      rw [KphCreateObjectType_counter env s DefaultPoolType DeleteProcedure _ T s1 hres]
      rfl
    obtain ⟨n', hn', hlt, hmod⟩ :=
      accounting_counter T ops s1 0 k j s2 h0 (by norm_num) hacc
    have e : n' = (k - j) % 4294967296 := by omega
    refine ⟨by rw [hn', e], fun hrange => ?_⟩
    have e' : n' = k - j := by omega
    rw [hn', e']
  · intro env s s1 root ops k j s2 hres hroot hacc hjk
    have h1 : s1.numberOfObjects root = some 1 := KphRefInit_counter env s s1 root hres hroot
    obtain ⟨n', hn', hlt, hmod⟩ :=
      accounting_counter root ops s1 1 k j s2 h1 (by norm_num) hacc
    have e : n' = (1 + k - j) % 4294967296 := by omega
    refine ⟨by rw [hn', e], fun hrange => ?_⟩
    have e' : n' = 1 + k - j := by omega
    rw [hn', e']

/-- Claim C5 on concrete runs. On the booted manager the type 32 is created, then
two objects of type 32 are created and one of them is dereferenced to zero: its
counter is `2 - 1`. From nothing, `KphRefInit` makes the root type 16, then two
types are created with it and one of them is dereferenced to zero: its counter
is `1 + 2 - 1`. -/
theorem type_accounting_witness :
    (∃ s1 s2,
      KphCreateObjectType (sampleEnv (some 32)) bootState POOL_TYPE.PagedPool (some 7)
        = Outcome.ret (STATUS_SUCCESS, some 32) s1
      ∧ accounting 32 s1
          [MgrOp.KphCreateObject (sampleEnv (some 48)) 8 0 (some 32) 0,
           MgrOp.KphCreateObject (sampleEnv (some 64)) 8 0 (some 32) 1,
           MgrOp.KphDereferenceObject 48] = some (2, 1, s2)
      ∧ s2.numberOfObjects 32 = some (2 - 1))
    ∧ (∃ s1 s2,
      KphRefInit (sampleEnv (some 16)) emptyState = Outcome.ret STATUS_SUCCESS s1
      ∧ accounting 16 s1
          [MgrOp.KphCreateObjectType (sampleEnv (some 32)) POOL_TYPE.PagedPool (some 7),
           MgrOp.KphCreateObjectType (sampleEnv (some 48)) POOL_TYPE.PagedPool none,
           MgrOp.KphDereferenceObjectEx 48 1] = some (2, 1, s2)
      ∧ s2.numberOfObjects 16 = some (1 + 2 - 1)) := by
  have h1 : ∃ s1 s2,
      KphCreateObjectType (sampleEnv (some 32)) bootState POOL_TYPE.PagedPool (some 7)
        = Outcome.ret (STATUS_SUCCESS, some 32) s1
      ∧ accounting 32 s1
          [MgrOp.KphCreateObject (sampleEnv (some 48)) 8 0 (some 32) 0,
           MgrOp.KphCreateObject (sampleEnv (some 64)) 8 0 (some 32) 1,
           MgrOp.KphDereferenceObject 48] = some (2, 1, s2) := ⟨_, _, rfl, rfl⟩
  have h2 : ∃ s1 s2,
      KphRefInit (sampleEnv (some 16)) emptyState = Outcome.ret STATUS_SUCCESS s1
      ∧ s1.KphObjectType = some 16
      ∧ accounting 16 s1
          [MgrOp.KphCreateObjectType (sampleEnv (some 32)) POOL_TYPE.PagedPool (some 7),
           MgrOp.KphCreateObjectType (sampleEnv (some 48)) POOL_TYPE.PagedPool none,
           MgrOp.KphDereferenceObjectEx 48 1] = some (2, 1, s2) := ⟨_, _, rfl, rfl, rfl⟩
  obtain ⟨s1, s2, e1, e2⟩ := h1
  obtain ⟨t1, t2, f1, f2, f3⟩ := h2
  exact ⟨⟨s1, s2, e1, e2,
      (type_accounting.1 (sampleEnv (some 32)) bootState POOL_TYPE.PagedPool (some 7) 32 s1 _
        2 1 s2 e1 e2 (by decide)).2 (by decide)⟩,
    ⟨t1, t2, f1, f3,
      (type_accounting.2 (sampleEnv (some 16)) emptyState t1 16 _ 2 1 t2 f1 f2 f3
        (by decide)).2 (by decide)⟩⟩

/-! ## Validation in `KphCreateObject` (C6) -/

/-- Claim C6: `KphCreateObject` returns `STATUS_INVALID_PARAMETER_3` when the flags
have a bit outside the mask `0x7` or name both pools; otherwise
`STATUS_INVALID_PARAMETER_4` when the type is null while the root type exists;
otherwise `STATUS_INVALID_PARAMETER_5` when `extraRefs < 0`; each time for every
pool behaviour and leaving the state (registry, counters, trace: no allocation
was asked for) untouched. In every other case the status returned or raised is
none of the three; in particular a null type passes while no root type exists. -/
theorem KphCreateObject_validation (env : Env) (s : State) (ObjectSize Flags : Nat)
    (ObjectType : Option Addr) (AdditionalReferences : Int) :
    ((OutsideValidMask Flags ∨ BothPools Flags) →
      KphCreateObject env s ObjectSize Flags ObjectType AdditionalReferences
        = Outcome.ret (STATUS_INVALID_PARAMETER_3, none) s)
    ∧ (¬ (OutsideValidMask Flags ∨ BothPools Flags) →
        (ObjectType = none ∧ s.KphObjectType ≠ none) →
      KphCreateObject env s ObjectSize Flags ObjectType AdditionalReferences
        = Outcome.ret (STATUS_INVALID_PARAMETER_4, none) s)
    ∧ (¬ (OutsideValidMask Flags ∨ BothPools Flags) →
        ¬ (ObjectType = none ∧ s.KphObjectType ≠ none) →
        AdditionalReferences < 0 →
      KphCreateObject env s ObjectSize Flags ObjectType AdditionalReferences
        = Outcome.ret (STATUS_INVALID_PARAMETER_5, none) s)
    ∧ (¬ (OutsideValidMask Flags ∨ BothPools Flags) →
        ¬ (ObjectType = none ∧ s.KphObjectType ≠ none) →
        0 ≤ AdditionalReferences →
      ∀ st out s',
        (KphCreateObject env s ObjectSize Flags ObjectType AdditionalReferences
            = Outcome.ret (st, out) s'
          ∨ KphCreateObject env s ObjectSize Flags ObjectType AdditionalReferences
            = Outcome.raise st s') →
        st ≠ STATUS_INVALID_PARAMETER_3 ∧ st ≠ STATUS_INVALID_PARAMETER_4
          ∧ st ≠ STATUS_INVALID_PARAMETER_5) := by
  refine ⟨?_, ?_, ?_, ?_⟩
  · intro hbad
    unfold KphCreateObject
    by_cases h1 : Flags &&& KPHOBJ_VALID_FLAGS ≠ Flags
    · rw [if_pos h1]
    · rw [if_neg h1]
      have h2 : Flags &&& KPHOBJ_PAGED_POOL ≠ 0 ∧ Flags &&& KPHOBJ_NONPAGED_POOL ≠ 0 := by
        rcases hbad with hb | hb
        · exact absurd ((outsideValidMask_iff Flags).mpr hb) h1
        · exact (bothPools_iff Flags).mpr hb
      rw [if_pos h2]
  · intro hok hnull
    have h1 : ¬ Flags &&& KPHOBJ_VALID_FLAGS ≠ Flags :=
      fun hh => hok (Or.inl ((outsideValidMask_iff Flags).mp hh))
    have h2 : ¬ (Flags &&& KPHOBJ_PAGED_POOL ≠ 0 ∧ Flags &&& KPHOBJ_NONPAGED_POOL ≠ 0) :=
      fun hh => hok (Or.inr ((bothPools_iff Flags).mp hh))
    unfold KphCreateObject
    rw [if_neg h1, if_neg h2, if_pos hnull]
  · intro hok hty hneg
    have h1 : ¬ Flags &&& KPHOBJ_VALID_FLAGS ≠ Flags :=
      fun hh => hok (Or.inl ((outsideValidMask_iff Flags).mp hh))
    have h2 : ¬ (Flags &&& KPHOBJ_PAGED_POOL ≠ 0 ∧ Flags &&& KPHOBJ_NONPAGED_POOL ≠ 0) :=
      fun hh => hok (Or.inr ((bothPools_iff Flags).mp hh))
    unfold KphCreateObject
    rw [if_neg h1, if_neg h2, if_neg hty, if_pos hneg]
  · intro hok hty hnn st out s' hres
    have h1 : ¬ Flags &&& KPHOBJ_VALID_FLAGS ≠ Flags :=
      fun hh => hok (Or.inl ((outsideValidMask_iff Flags).mp hh))
    have h2 : ¬ (Flags &&& KPHOBJ_PAGED_POOL ≠ 0 ∧ Flags &&& KPHOBJ_NONPAGED_POOL ≠ 0) :=
      fun hh => hok (Or.inr ((bothPools_iff Flags).mp hh))
    have h4 : ¬ AdditionalReferences < 0 := by omega
    unfold KphCreateObject at hres
    rw [if_neg h1, if_neg h2, if_neg hty, if_neg h4] at hres
    have key : st = STATUS_SUCCESS ∨ st = STATUS_INSUFFICIENT_RESOURCES := by
      cases hp : choosePoolType s Flags ObjectType with
      | none => rw [hp] at hres; simp at hres
      | some p =>
        rw [hp] at hres
        simp only [KphpAllocateObject] at hres
        cases hr : env.ExAllocatePoolWithTag p (KphpAddObjectHeaderSize env ObjectSize)
            TAG_KPHOBJ with
        | none =>
          rw [hr] at hres
          simp only [] at hres
          by_cases h5 : Flags &&& KPHOBJ_RAISE_ON_FAIL ≠ 0
          · rw [if_pos h5] at hres
            rcases hres with hres | hres
            · cases hres
            · simp only [Outcome.raise.injEq] at hres
              exact Or.inr hres.1.symm
          · rw [if_neg h5] at hres
            rcases hres with hres | hres
            · simp only [Outcome.ret.injEq, Prod.mk.injEq] at hres
              exact Or.inr hres.1.1.symm
            · cases hres
        | some a =>
          rw [hr] at hres
          simp only [] at hres
          split at hres
          · rcases hres with hres | hres <;> cases hres
          · rcases hres with hres | hres
            · simp only [Outcome.ret.injEq, Prod.mk.injEq] at hres
              exact Or.inl hres.1.1.symm
            · cases hres
    rcases key with e | e <;> subst e <;> decide

/-- Claim C6 on concrete calls: flags `8` and flags `6` give
`STATUS_INVALID_PARAMETER_3`, a null type on the booted manager gives
`STATUS_INVALID_PARAMETER_4`, `extraRefs = -1` gives `STATUS_INVALID_PARAMETER_5`,
and a null type on the manager without root type is not rejected. -/
theorem KphCreateObject_validation_witness :
    KphCreateObject (sampleEnv (some 64)) bootState 8 8 (some 16) 0
        = Outcome.ret (STATUS_INVALID_PARAMETER_3, none) bootState
    ∧ KphCreateObject (sampleEnv (some 64)) bootState 8 6 (some 16) 0
        = Outcome.ret (STATUS_INVALID_PARAMETER_3, none) bootState
    ∧ KphCreateObject (sampleEnv (some 64)) bootState 8 0 none 0
        = Outcome.ret (STATUS_INVALID_PARAMETER_4, none) bootState
    ∧ KphCreateObject (sampleEnv (some 64)) bootState 8 0 (some 16) (-1)
        = Outcome.ret (STATUS_INVALID_PARAMETER_5, none) bootState
    ∧ (∀ st out s',
        (KphCreateObject (sampleEnv (some 64)) emptyState 8 0 none 0 = Outcome.ret (st, out) s'
          ∨ KphCreateObject (sampleEnv (some 64)) emptyState 8 0 none 0 = Outcome.raise st s') →
        st ≠ STATUS_INVALID_PARAMETER_3 ∧ st ≠ STATUS_INVALID_PARAMETER_4
          ∧ st ≠ STATUS_INVALID_PARAMETER_5) :=
  have hno : ∀ Flags : Nat, Flags < 8 → ¬ (Flags.testBit 1 = true ∧ Flags.testBit 2 = true) →
      ¬ (OutsideValidMask Flags ∨ BothPools Flags) := by
    intro Flags hlt hb hor
    rcases hor with ⟨i, hi, hm⟩ | hb'
    · have hge : 3 ≤ i := by
        by_contra hlt3
        have : i = 0 ∨ i = 1 ∨ i = 2 := by omega
        rcases this with e | e | e <;> subst e <;> revert hm <;> decide
      have : Flags.testBit i = false :=
        Nat.testBit_lt_two_pow (lt_of_lt_of_le hlt (by
          calc 8 = 2 ^ 3 := by norm_num
            _ ≤ 2 ^ i := Nat.pow_le_pow_right (by norm_num) hge))
      rw [this] at hi; cases hi
    · exact hb hb'
  ⟨(KphCreateObject_validation (sampleEnv (some 64)) bootState 8 8 (some 16) 0).1
      (Or.inl ⟨3, by decide, by decide⟩),
   (KphCreateObject_validation (sampleEnv (some 64)) bootState 8 6 (some 16) 0).1
      (Or.inr ⟨by decide, by decide⟩),
   (KphCreateObject_validation (sampleEnv (some 64)) bootState 8 0 none 0).2.1
      (hno 0 (by decide) (by decide)) ⟨rfl, by decide⟩,
   (KphCreateObject_validation (sampleEnv (some 64)) bootState 8 0 (some 16) (-1)).2.2.1
      (hno 0 (by decide) (by decide)) (by decide) (by decide),
   (KphCreateObject_validation (sampleEnv (some 64)) emptyState 8 0 none 0).2.2.2
      (hno 0 (by decide) (by decide)) (by decide) (by decide)⟩

/-! ## Allocation failure in `KphCreateObject` (C7) -/

/-- Claim C7: a `KphCreateObject` call whose parameters are valid (flags within the
mask, not both pools, a type given or no root type yet, `extraRefs ≥ 0`, a pool
type determined) and whose allocation fails (the pool gives nothing for the
request the code makes, `KphpAddObjectHeaderSize(size)` reduced to `SIZE_T`) raises
`STATUS_INSUFFICIENT_RESOURCES` when `KPHOBJ_RAISE_ON_FAIL` (bit 0) is set and
returns it otherwise; either way the registry, the pool blocks and with them
every type's `NumberOfObjects` are unchanged. -/
theorem KphCreateObject_allocation_failure (env : Env) (s : State) (ObjectSize Flags : Nat)
    (ObjectType : Option Addr) (AdditionalReferences : Int) (p : POOL_TYPE)
    (hflags : ¬ (OutsideValidMask Flags ∨ BothPools Flags))
    (htype : ¬ (ObjectType = none ∧ s.KphObjectType ≠ none))
    (hrefs : 0 ≤ AdditionalReferences)
    (hp : choosePoolType s Flags ObjectType = some p)
    (halloc : env.ExAllocatePoolWithTag p (KphpAddObjectHeaderSize env ObjectSize) TAG_KPHOBJ
      = none) :
    ∃ s',
      (Flags.testBit 0 = true →
        KphCreateObject env s ObjectSize Flags ObjectType AdditionalReferences
          = Outcome.raise STATUS_INSUFFICIENT_RESOURCES s')
      ∧ (Flags.testBit 0 = false →
        KphCreateObject env s ObjectSize Flags ObjectType AdditionalReferences
          = Outcome.ret (STATUS_INSUFFICIENT_RESOURCES, none) s')
      ∧ s'.KphObjectListHead = s.KphObjectListHead
      ∧ s'.heap = s.heap
      ∧ s'.KphObjectType = s.KphObjectType
      ∧ (∀ T, s'.numberOfObjects T = s.numberOfObjects T) := by
  have h1 : ¬ Flags &&& KPHOBJ_VALID_FLAGS ≠ Flags :=
    fun hh => hflags (Or.inl ((outsideValidMask_iff Flags).mp hh))
  have h2 : ¬ (Flags &&& KPHOBJ_PAGED_POOL ≠ 0 ∧ Flags &&& KPHOBJ_NONPAGED_POOL ≠ 0) :=
    fun hh => hflags (Or.inr ((bothPools_iff Flags).mp hh))
  have h4 : ¬ AdditionalReferences < 0 := by omega
  have hraise : Flags &&& KPHOBJ_RAISE_ON_FAIL ≠ 0 ↔ Flags.testBit 0 = true := by
    have e : KPHOBJ_RAISE_ON_FAIL = 2 ^ 0 := by decide
    rw [e, and_two_pow_ne_zero]
  refine ⟨s.log (Event.ExAllocatePoolWithTag p (KphpAddObjectHeaderSize env ObjectSize)
    TAG_KPHOBJ none), ?_, ?_, rfl, rfl, rfl, fun T => rfl⟩
  · intro hbit
    unfold KphCreateObject
    rw [if_neg h1, if_neg h2, if_neg htype, if_neg h4]
    simp only [hp, KphpAllocateObject, halloc]
    rw [if_pos (hraise.mpr hbit)]
  · intro hbit
    unfold KphCreateObject
    rw [if_neg h1, if_neg h2, if_neg htype, if_neg h4]
    simp only [hp, KphpAllocateObject, halloc]
    rw [if_neg (fun hh => by rw [hraise.mp hh] at hbit; cases hbit)]

/-- Claim C7 on the booted manager with a pool that has nothing to give: flags
`1` (raise on failure) and flags `0` for a body of 8 bytes, and flags `0` for a
body of `0xFFFFFFFF` bytes, where the request that fails is the wrapped one, for
31 bytes. -/
theorem KphCreateObject_allocation_failure_witness :
    (∃ s', KphCreateObject (sampleEnv none) bootState 8 1 (some 16) 0
        = Outcome.raise STATUS_INSUFFICIENT_RESOURCES s'
      ∧ s'.KphObjectListHead = bootState.KphObjectListHead
      ∧ s'.numberOfObjects 16 = some 1)
    ∧ (∃ s', KphCreateObject (sampleEnv none) bootState 8 0 (some 16) 0
        = Outcome.ret (STATUS_INSUFFICIENT_RESOURCES, none) s'
      ∧ s'.KphObjectListHead = bootState.KphObjectListHead
      ∧ s'.numberOfObjects 16 = some 1)
    ∧ (KphpAddObjectHeaderSize (sampleEnv none) 4294967295 = 31
      ∧ ∃ s', KphCreateObject (sampleEnv none) bootState 4294967295 0 (some 16) 0
          = Outcome.ret (STATUS_INSUFFICIENT_RESOURCES, none) s'
        ∧ s'.KphObjectListHead = bootState.KphObjectListHead
        ∧ s'.numberOfObjects 16 = some 1) := by
  have hno : ∀ Flags : Nat, Flags < 2 → ¬ (OutsideValidMask Flags ∨ BothPools Flags) := by
    intro Flags hlt hor
    have hb : ∀ i, 1 ≤ i → Flags.testBit i = false := fun i hi =>
      Nat.testBit_lt_two_pow (lt_of_lt_of_le hlt (by
        calc 2 = 2 ^ 1 := by norm_num
          _ ≤ 2 ^ i := Nat.pow_le_pow_right (by norm_num) hi))
    rcases hor with ⟨i, hi, hm⟩ | ⟨hb1, -⟩
    · by_cases h0 : i = 0
      · subst h0; revert hm; decide
      · rw [hb i (by omega)] at hi; cases hi
    · rw [hb 1 (by omega)] at hb1; cases hb1
  obtain ⟨s1, hr1, -, hl1, -, -, hc1⟩ :=
    KphCreateObject_allocation_failure (sampleEnv none) bootState 8 1 (some 16) 0
      POOL_TYPE.NonPagedPool (hno 1 (by decide)) (by decide) (by decide) (by decide) rfl
  obtain ⟨s2, -, hr2, hl2, -, -, hc2⟩ :=
    KphCreateObject_allocation_failure (sampleEnv none) bootState 8 0 (some 16) 0
      POOL_TYPE.NonPagedPool (hno 0 (by decide)) (by decide) (by decide) (by decide) rfl
  obtain ⟨s3, -, hr3, hl3, -, -, hc3⟩ :=
    KphCreateObject_allocation_failure (sampleEnv none) bootState 4294967295 0 (some 16) 0
      POOL_TYPE.NonPagedPool (hno 0 (by decide)) (by decide) (by decide) (by decide) rfl
  exact ⟨⟨s1, hr1 (by decide), hl1, by rw [hc1]; decide⟩,
         ⟨s2, hr2 (by decide), hl2, by rw [hc2]; decide⟩,
         by decide, ⟨s3, hr3 (by decide), hl3, by rw [hc3]; decide⟩⟩

/-! ## `KphReferenceObjectEx` (C8) -/

/-- Claim C8 (amended): for an object with count `c` and an amount `n`, both `LONG`
values: for `n < 0` `KphReferenceObjectEx` raises `STATUS_INVALID_PARAMETER_2`
and changes nothing; for `n ≥ 0` with `c + n ≤ 2^31 - 1` it stores the old count
`c` and leaves the count at `c + n`, changing nothing else; and
`KphReferenceObject` leaves the count at `c + 1` when `c < 2^31 - 1`, changing
nothing else. -/
theorem KphReferenceObjectEx_amended (s : State) (Object : Addr) (h : KPH_OBJECT_HEADER)
    (n : Int) (OldRefCount : Bool)
    (hlive : s.heap Object = some h) (hc : InLong h.RefCount) :
    (n < 0 → KphReferenceObjectEx s Object n OldRefCount
        = Outcome.raise STATUS_INVALID_PARAMETER_2 s)
    ∧ (0 ≤ n → h.RefCount + n < 2147483648 →
        KphReferenceObjectEx s Object n OldRefCount
          = Outcome.ret (if OldRefCount then some h.RefCount else none)
              { s with
                heap := heapSet s.heap Object (some { h with RefCount := h.RefCount + n }) })
    ∧ (h.RefCount + 1 < 2147483648 →
        KphReferenceObject s Object
          = Outcome.ret ()
              { s with
                heap := heapSet s.heap Object (some { h with RefCount := h.RefCount + 1 }) }) := by
  refine ⟨?_, ?_, ?_⟩
  · intro hneg
    unfold KphReferenceObjectEx
    rw [if_pos hneg]
  · intro h0 hmax
    have hw : wrapLong (h.RefCount + n) = h.RefCount + n :=
      wrapLong_of_inLong _ (by unfold InLong at *; omega)
    unfold KphReferenceObjectEx
    rw [if_neg (by omega)]
    simp only [hlive, hw]
  · intro hmax
    have hw : wrapLong (h.RefCount + 1) = h.RefCount + 1 :=
      wrapLong_of_inLong _ (by unfold InLong at *; omega)
    unfold KphReferenceObject
    simp only [hlive, hw]

/-- The amended claim C8 on the object 48 of the sample manager, whose count is 1. -/
theorem KphReferenceObjectEx_amended_witness :
    KphReferenceObjectEx sampleState 48 (-1) true
        = Outcome.raise STATUS_INVALID_PARAMETER_2 sampleState
    ∧ (∃ s', KphReferenceObjectEx sampleState 48 5 true = Outcome.ret (some 1) s'
        ∧ s'.refCount 48 = some 6
        ∧ s'.KphObjectListHead = sampleState.KphObjectListHead
        ∧ s'.numberOfObjects 32 = sampleState.numberOfObjects 32)
    ∧ (∃ s', KphReferenceObject sampleState 48 = Outcome.ret () s'
        ∧ s'.refCount 48 = some 2) :=
  ⟨(KphReferenceObjectEx_amended sampleState 48 sampleObject (-1) true
      (by decide) (by decide)).1 (by decide),
   ⟨_, (KphReferenceObjectEx_amended sampleState 48 sampleObject 5 true
      (by decide) (by decide)).2.1 (by decide) (by decide), by decide, by decide, by decide⟩,
   ⟨_, (KphReferenceObjectEx_amended sampleState 48 sampleObject 0 true
      (by decide) (by decide)).2.2 (by decide), by decide⟩⟩

/-- Claim C8 fails as stated: adding `2147483647` references to the root type,
whose count is 1, is accepted and leaves the count at `-2147483648`, not at
`c + n`; and `KphReferenceObject` on a count of `2147483647` leaves
`-2147483648`, not `c + 1`. -/
theorem KphReferenceObjectEx_count_wraps :
    (∃ s', KphReferenceObjectEx bootState 16 2147483647 true = Outcome.ret (some 1) s'
      ∧ s'.refCount 16 = some (-2147483648)
      ∧ s'.refCount 16 ≠ some (1 + 2147483647))
    ∧ (∃ s1 s2, KphReferenceObjectEx bootState 16 2147483646 true = Outcome.ret (some 1) s1
      ∧ s1.refCount 16 = some 2147483647
      ∧ KphReferenceObject s1 16 = Outcome.ret () s2
      ∧ s2.refCount 16 = some (-2147483648)
      ∧ s2.refCount 16 ≠ some (2147483647 + 1)) :=
  ⟨⟨_, rfl, by decide, by decide⟩, ⟨_, _, rfl, by decide, rfl, by decide, by decide⟩⟩

/-! ## Bootstrap (C9) -/

/-- Claim C9: on a manager whose `KphObjectType` is null, when the pool hands out a
block `root`, `KphRefInit` returns `STATUS_SUCCESS` and leaves `KphObjectType =
root`, a root header whose `Type` is `root` itself, `NumberOfObjects = 1`,
`RefCount = 1`, and a registry whose only member is `root`. When creating the
root type fails, `KphRefInit` returns that failure status (and, the pool having
failed, that status is `STATUS_INSUFFICIENT_RESOURCES` with the manager still
uninitialised). -/
theorem KphRefInit_bootstrap (env : Env) (s : State) (hnull : s.KphObjectType = none) :
    (∀ root,
      env.ExAllocatePoolWithTag POOL_TYPE.NonPagedPool
          (KphpAddObjectHeaderSize env env.sizeofObjectType) TAG_KPHOBJ = some root →
      ∃ s', KphRefInit env s = Outcome.ret STATUS_SUCCESS s'
        ∧ s'.KphObjectType = some root
        ∧ s'.typeOf root = some root
        ∧ s'.numberOfObjects root = some 1
        ∧ s'.refCount root = some 1
        ∧ s'.KphObjectListHead = [root])
    ∧ (∀ st out s1,
        KphCreateObjectType env { s with KphObjectListHead := [] } POOL_TYPE.NonPagedPool none
          = Outcome.ret (st, out) s1 →
        NT_SUCCESS st = false → KphRefInit env s = Outcome.ret st s1)
    ∧ (env.ExAllocatePoolWithTag POOL_TYPE.NonPagedPool
          (KphpAddObjectHeaderSize env env.sizeofObjectType) TAG_KPHOBJ = none →
      ∃ s', KphRefInit env s = Outcome.ret STATUS_INSUFFICIENT_RESOURCES s'
        ∧ s'.KphObjectType = none ∧ s'.KphObjectListHead = [] ∧ s'.heap = s.heap) := by
  have hcp : ∀ s0 : State, choosePoolType s0 0 none = some POOL_TYPE.NonPagedPool := by
    intro s0; simp [choosePoolType, KPHOBJ_PAGED_POOL, KPHOBJ_NONPAGED_POOL]
  refine ⟨?_, ?_, ?_⟩
  · intro root halloc
    unfold KphRefInit KphCreateObjectType KphCreateObject
    simp [hnull, hcp, KphpAllocateObject, halloc, KPHOBJ_VALID_FLAGS, KPHOBJ_PAGED_POOL,
      KPHOBJ_NONPAGED_POOL, InsertHeadList, State.log, NT_SUCCESS, STATUS_SUCCESS,
      State.typeOf, State.numberOfObjects, State.typeAt, State.refCount, wrapLong]
  · intro st out s1 hres hfail
    unfold KphRefInit
    simp only [hres, hfail, Bool.not_false, if_true]
  · intro halloc
    unfold KphRefInit KphCreateObjectType KphCreateObject
    simp [hnull, hcp, KphpAllocateObject, halloc, KPHOBJ_VALID_FLAGS, KPHOBJ_PAGED_POOL,
      KPHOBJ_NONPAGED_POOL, KPHOBJ_RAISE_ON_FAIL, State.log, NT_SUCCESS,
      STATUS_INSUFFICIENT_RESOURCES]

/-- Claim C9 on the empty manager: with the block 16 the result is `bootState`;
with an exhausted pool the failure status comes back. -/
theorem KphRefInit_bootstrap_witness :
    (∃ s', KphRefInit (sampleEnv (some 16)) emptyState = Outcome.ret STATUS_SUCCESS s'
        ∧ s'.KphObjectType = some 16
        ∧ s'.typeOf 16 = some 16
        ∧ s'.numberOfObjects 16 = some 1
        ∧ s'.refCount 16 = some 1
        ∧ s'.KphObjectListHead = [16])
    ∧ (∃ s', KphRefInit (sampleEnv none) emptyState
          = Outcome.ret STATUS_INSUFFICIENT_RESOURCES s'
        ∧ s'.KphObjectType = none ∧ s'.KphObjectListHead = [] ∧ s'.heap = emptyState.heap) :=
  ⟨(KphRefInit_bootstrap (sampleEnv (some 16)) emptyState rfl).1 16 rfl,
   (KphRefInit_bootstrap (sampleEnv none) emptyState rfl).2.2 rfl⟩

/-! ## The registry invariant (C10) -/

/-- Claim C10 (amended): the invariant "every registered object has a count `≥ 0`"
is preserved by `KphCreateObject` when `extraRefs < 2^31 - 1`, by
`KphReferenceObjectEx` with `n ≥ 0` when `c + n ≤ 2^31 - 1`, and by
`KphDereferenceObjectEx` with `0 ≤ n ≤ c` (no more references dropped than the
object has). -/
theorem RegisteredNonNegative_preserved (s : State) (hinv : RegisteredNonNegative s) :
    (∀ env ObjectSize Flags ObjectType AdditionalReferences v st s',
      AdditionalReferences < 2147483647 →
      (KphCreateObject env s ObjectSize Flags ObjectType AdditionalReferences
          = Outcome.ret v s'
        ∨ KphCreateObject env s ObjectSize Flags ObjectType AdditionalReferences
          = Outcome.raise st s') →
      RegisteredNonNegative s')
    ∧ (∀ Object h n OldRefCount v s',
      s.heap Object = some h → 0 ≤ n → h.RefCount + n < 2147483648 →
      KphReferenceObjectEx s Object n OldRefCount = Outcome.ret v s' →
      RegisteredNonNegative s')
    ∧ (∀ Object h n OldRefCount v s',
      s.heap Object = some h → InLong h.RefCount → 0 ≤ n → n ≤ h.RefCount →
      KphDereferenceObjectEx s Object n OldRefCount = Outcome.ret v s' →
      RegisteredNonNegative s') := by
  refine ⟨?_, ?_, ?_⟩
  · intro env ObjectSize Flags ObjectType AdditionalReferences v st s' hmax hres
    rcases KphCreateObject_cases env s ObjectSize Flags ObjectType AdditionalReferences with
      hf | ⟨st1, s1, -, -, hor, hheap, hreg, -⟩ | ⟨a, s1, H, heq, h0, hreg, -, hheap, hH⟩
    · rw [hf] at hres; rcases hres with hres | hres <;> cases hres
    · have hs : s' = s1 := by
        rcases hor with hor | hor <;> rw [hor] at hres <;> rcases hres with hres | hres
        · simp only [Outcome.ret.injEq] at hres; exact hres.2.symm
        · cases hres
        · cases hres
        · simp only [Outcome.raise.injEq] at hres; exact hres.2.symm
      subst hs
      intro b hb x hx
      rw [hreg] at hb; rw [hheap] at hx
      exact hinv b hb x hx
    · have hs : s' = s1 := by
        rw [heq] at hres
        rcases hres with hres | hres
        · simp only [Outcome.ret.injEq] at hres; exact hres.2.symm
        · cases hres
      subst hs
      have hw : wrapLong (1 + AdditionalReferences) = 1 + AdditionalReferences :=
        wrapLong_of_inLong _ (by unfold InLong; omega)
      intro b hb x hx
      rw [hheap] at hx
      by_cases e : b = a
      · subst e
        rw [heapSet_same] at hx
        cases hx
        show 0 ≤ wrapLong (1 + AdditionalReferences)
        rw [hw]; omega
      · rw [heapSet_other _ _ _ _ e] at hx
        have hb' : b ∈ s.KphObjectListHead := by
          rw [hreg] at hb
          rcases List.mem_cons.mp hb with hb | hb
          · exact absurd hb e
          · exact hb
        rcases hH with ⟨-, hHeq⟩ | ⟨T, hT, tb, -, hhT, -, hHeq⟩
        · rw [hHeq] at hx; exact hinv b hb' x hx
        · rw [hHeq] at hx
          by_cases e2 : b = T
          · subst e2
            rw [heapSet_same] at hx
            cases hx
            exact hinv b hb' hT hhT
          · rw [heapSet_other _ _ _ _ e2] at hx
            exact hinv b hb' x hx
  · intro Object h n OldRefCount v s' hlive h0 hmax hres
    unfold KphReferenceObjectEx at hres
    rw [if_neg (by omega)] at hres
    simp only [hlive, Outcome.ret.injEq] at hres
    obtain ⟨-, hs⟩ := hres
    subst hs
    intro b hb x hx
    by_cases e : b = Object
    · subst e
      simp only [heapSet_same, Option.some.injEq] at hx
      subst hx
      have hc : 0 ≤ h.RefCount := hinv b hb h hlive
      show 0 ≤ wrapLong (h.RefCount + n)
      rw [wrapLong_of_inLong _ (by unfold InLong; omega)]; omega
    · simp only [heapSet_other _ _ _ _ e] at hx
      exact hinv b hb x hx
  · intro Object h n OldRefCount v s' hlive hc h0 hle hres
    rcases KphDereferenceObjectEx_cases s Object n OldRefCount with
      ⟨hneg, -⟩ | hf | ⟨-, h', hlive', hnz⟩ | ⟨-, h', T, ty, hlive', hz, hT, hty⟩
    · omega
    · rw [hf] at hres; cases hres
    · rw [hlive] at hlive'; cases hlive'
      rw [KphDereferenceObjectEx_kept s Object h n OldRefCount hlive h0 hnz] at hres
      simp only [Outcome.ret.injEq] at hres
      obtain ⟨-, hs⟩ := hres
      subst hs
      intro b hb x hx
      by_cases e : b = Object
      · subst e
        simp only [heapSet_same, Option.some.injEq] at hx
        subst hx
        show 0 ≤ wrapLong (h.RefCount - n)
        rw [wrapLong_of_inLong _ (by unfold InLong at *; omega)]; omega
      · simp only [heapSet_other _ _ _ _ e] at hx
        exact hinv b hb x hx
    · rw [hlive] at hlive'; cases hlive'
      obtain ⟨s2, he, -, hlist, -, hgone, hframe, hTy⟩ :=
        KphDereferenceObjectEx_freed s Object h n OldRefCount T ty hlive h0 hz hT hty
      rw [he] at hres
      simp only [Outcome.ret.injEq] at hres
      obtain ⟨-, hs⟩ := hres
      subst hs
      intro b hb x hx
      have hb' : b ∈ s.KphObjectListHead := by
        rw [hlist] at hb; exact List.mem_of_mem_erase hb
      by_cases e : b = Object
      · subst e; rw [hgone] at hx; cases hx
      · by_cases e2 : b = T
        · subst e2
          obtain ⟨hT0, hT1, hT2⟩ := hTy (fun hh => e hh)
          rw [hT2] at hx
          cases hx
          exact hinv b hb' hT0 hT1
        · rw [hframe b e e2] at hx
          exact hinv b hb' x hx

/-- The amended claim C10 on the sample manager, whose registered counts are all 1:
creating an object, adding five references to object 48 and dropping its one
reference each keep the invariant. -/
theorem RegisteredNonNegative_preserved_witness :
    (∀ v st s',
      (KphCreateObject (sampleEnv (some 64)) sampleState 8 2 (some 32) 3 = Outcome.ret v s'
        ∨ KphCreateObject (sampleEnv (some 64)) sampleState 8 2 (some 32) 3
            = Outcome.raise st s') →
      RegisteredNonNegative s')
    ∧ (∀ v s', KphReferenceObjectEx sampleState 48 5 false = Outcome.ret v s' →
        RegisteredNonNegative s')
    ∧ (∀ v s', KphDereferenceObjectEx sampleState 48 1 false = Outcome.ret v s' →
        RegisteredNonNegative s') :=
  ⟨fun v st s' hres =>
      (RegisteredNonNegative_preserved sampleState sampleState_registeredNonNegative).1
        (sampleEnv (some 64)) 8 2 (some 32) 3 v st s' (by decide) hres,
   fun v s' hres =>
      (RegisteredNonNegative_preserved sampleState sampleState_registeredNonNegative).2.1
        48 sampleObject 5 false v s' (by decide) (by decide) (by decide) hres,
   fun v s' hres =>
      (RegisteredNonNegative_preserved sampleState sampleState_registeredNonNegative).2.2
        48 sampleObject 1 false v s' (by decide) (by decide) (by decide) (by decide) hres⟩

/-- Claim C10 fails as stated. The sample manager satisfies the invariant and
object 48 is registered with count 1; `KphDereferenceObjectEx(object, 2)` is
accepted and leaves it registered with count `-1`;
`KphReferenceObjectEx(object, 2147483647)` is accepted and leaves it registered
with count `-2147483648`; and `KphCreateObject` with `extraRefs = 2147483647`
registers a new object with count `-2147483648`. -/
theorem RegisteredNonNegative_broken :
    RegisteredNonNegative sampleState
    ∧ (∃ s', KphDereferenceObjectEx sampleState 48 2 false = Outcome.ret (false, none) s'
        ∧ 48 ∈ s'.KphObjectListHead
        ∧ s'.refCount 48 = some (-1)
        ∧ ¬ RegisteredNonNegative s')
    ∧ (∃ s', KphReferenceObjectEx sampleState 48 2147483647 false = Outcome.ret none s'
        ∧ 48 ∈ s'.KphObjectListHead
        ∧ s'.refCount 48 = some (-2147483648)
        ∧ ¬ RegisteredNonNegative s')
    ∧ (∃ s', KphCreateObject (sampleEnv (some 64)) sampleState 8 0 (some 32) 2147483647
          = Outcome.ret (STATUS_SUCCESS, some 64) s'
        ∧ 64 ∈ s'.KphObjectListHead
        ∧ s'.refCount 64 = some (-2147483648)
        ∧ ¬ RegisteredNonNegative s') :=
  ⟨sampleState_registeredNonNegative,
   ⟨_, rfl, by decide, by decide,
    fun hinv => absurd (hinv 48 (by decide) _ rfl) (by decide)⟩,
   ⟨_, rfl, by decide, by decide,
    fun hinv => absurd (hinv 48 (by decide) _ rfl) (by decide)⟩,
   ⟨_, rfl, by decide, by decide,
    fun hinv => absurd (hinv 64 (by decide) _ rfl) (by decide)⟩⟩

/-! ## `KphRefDeinit` (C11) -/

/-- The loop of `KphRefDeinit` on any list of entries. -/
theorem freeAll_spec : ∀ (l : List Addr) (s : State),
    (freeAll l s).KphObjectListHead = (if l = [] then s.KphObjectListHead else [])
    ∧ (∀ a, a ∈ l → (freeAll l s).heap a = none)
    ∧ (∀ a, a ∉ l → (freeAll l s).heap a = s.heap a)
    ∧ (freeAll l s).trace = s.trace ++ l.map (fun a => Event.ExFreePoolWithTag a TAG_KPHOBJ)
    ∧ (freeAll l s).KphObjectType = s.KphObjectType := by
  intro l
  induction l with
  | nil => intro s; simp [freeAll]
  | cons b rest ih =>
    intro s
    obtain ⟨h1, h2, h3, h4, h5⟩ :=
      ih (KphpFreeObject { s with KphObjectListHead := rest } b)
    refine ⟨?_, ?_, ?_, ?_, ?_⟩
    · simp only [freeAll, h1]
      by_cases e : rest = []
      · simp [e, KphpFreeObject]
      · simp [e]
    · intro a ha
      simp only [freeAll]
      by_cases hr : a ∈ rest
      · exact h2 a hr
      · rw [h3 a hr]
        have e : a = b := by
          rcases List.mem_cons.mp ha with e | e
          · exact e
          · exact absurd e hr
        subst e
        simp [KphpFreeObject]
    · intro a ha
      simp only [freeAll]
      have hne : a ≠ b := fun e => ha (by rw [e]; exact List.mem_cons_self _ _)
      have hr : a ∉ rest := fun e => ha (List.mem_cons_of_mem _ e)
      rw [h3 a hr]
      simp [KphpFreeObject, heapSet, hne]
    · simp only [freeAll, h4]
      simp [KphpFreeObject]
    · simp only [freeAll, h5]
      simp [KphpFreeObject]

theorem deleteCalls_frees (Object : Addr) (l : List Addr) :
    deleteCalls Object (l.map (fun a => Event.ExFreePoolWithTag a TAG_KPHOBJ)) = 0 := by
  induction l with
  | nil => rfl
  | cons b rest ih => simpa [deleteCalls] using ih

/-- Claim C11: `KphRefDeinit` is total and returns `STATUS_SUCCESS`; afterwards the
registry is empty and every object that was in it is freed, whatever its
reference count; the trace grows by exactly one pool free per registry entry, in
list order, so no delete procedure is called; blocks outside the registry are
not touched. -/
theorem KphRefDeinit_frees_all (s : State) :
    ∃ s', KphRefDeinit s = Outcome.ret STATUS_SUCCESS s'
      ∧ s'.KphObjectListHead = []
      ∧ (∀ a, a ∈ s.KphObjectListHead → s'.heap a = none)
      ∧ (∀ a, a ∉ s.KphObjectListHead → s'.heap a = s.heap a)
      ∧ s'.trace = s.trace
          ++ s.KphObjectListHead.map (fun a => Event.ExFreePoolWithTag a TAG_KPHOBJ)
      ∧ (∀ Object, deleteCalls Object s'.trace = deleteCalls Object s.trace) := by
  obtain ⟨h1, h2, h3, h4, -⟩ := freeAll_spec s.KphObjectListHead s
  refine ⟨freeAll s.KphObjectListHead s, rfl, ?_, h2, h3, h4, ?_⟩
  · rw [h1]
    by_cases e : s.KphObjectListHead = []
    · simp [e]
    · simp [e]
  · intro Object
    rw [h4, deleteCalls_append, deleteCalls_frees, Nat.add_zero]

/-! ## Concurrent dereferences (C22) -/

theorem callDeleteProcedure_heap (s : State) (proc : Option Nat) (Object : Addr)
    (Flags Size : Nat) : (callDeleteProcedure s proc Object Flags Size).heap = s.heap := by
  cases proc <;> rfl

theorem derefStep_raise (s : State) (Object : Addr) (t : DerefThread)
    (hpc : t.pc = DerefPc.exchange) (hn : t.RefCount < 0) :
    derefStep s Object t = (s, { t with pc := DerefPc.raised STATUS_INVALID_PARAMETER_2 }) := by
  simp only [derefStep, hpc, hn, if_true]

theorem derefStep_exchange_fault (s : State) (Object : Addr) (t : DerefThread)
    (hpc : t.pc = DerefPc.exchange) (hn : ¬ t.RefCount < 0) (hobj : s.heap Object = none) :
    derefStep s Object t = (s, { t with pc := DerefPc.faulted }) := by
  simp only [derefStep, hpc, hn, if_false, hobj]

theorem derefStep_exchange (s : State) (Object : Addr) (t : DerefThread) (h : KPH_OBJECT_HEADER)
    (hpc : t.pc = DerefPc.exchange) (hn : ¬ t.RefCount < 0) (hobj : s.heap Object = some h) :
    derefStep s Object t
      = ({ s with
           heap := heapSet s.heap Object
             (some { h with RefCount := wrapLong (h.RefCount + wrapLong (-t.RefCount)) }) },
         { t with
           oldRefCount := some h.RefCount,
           pc := if wrapLong (h.RefCount - t.RefCount) = 0 then DerefPc.callDelete
                 else DerefPc.returned }) := by
  simp only [derefStep, hpc, hn, if_false, hobj]

theorem derefStep_callDelete (s : State) (Object : Addr) (t : DerefThread)
    (h : KPH_OBJECT_HEADER) (T : Addr) (ty : KPH_OBJECT_TYPE)
    (hpc : t.pc = DerefPc.callDelete) (hobj : s.heap Object = some h)
    (hT : h.Type_ = some T) (hty : s.typeAt T = some ty) :
    derefStep s Object t
      = (callDeleteProcedure s ty.DeleteProcedure Object h.Flags h.Size,
         { t with pc := DerefPc.decrementType }) := by
  simp only [derefStep, hpc, hobj, hT, hty]

theorem derefStep_decrementType (s s3 : State) (Object : Addr) (t : DerefThread)
    (h : KPH_OBJECT_HEADER) (T : Addr)
    (hpc : t.pc = DerefPc.decrementType) (hobj : s.heap Object = some h)
    (hT : h.Type_ = some T) (hdec : InterlockedDecrementType s T = some s3) :
    derefStep s Object t = (s3, { t with pc := DerefPc.removeEntry }) := by
  simp only [derefStep, hpc, hobj, hT, hdec]

theorem derefStep_removeEntry (s : State) (Object : Addr) (t : DerefThread)
    (hpc : t.pc = DerefPc.removeEntry) :
    derefStep s Object t = (RemoveEntryList s Object, { t with pc := DerefPc.freeObject }) := by
  simp only [derefStep, hpc]

theorem derefStep_freeObject (s : State) (Object : Addr) (t : DerefThread)
    (hpc : t.pc = DerefPc.freeObject) :
    derefStep s Object t
      = (KphpFreeObject s Object, { t with pc := DerefPc.returned, freed := true }) := by
  simp only [derefStep, hpc]

theorem derefStep_ended (s : State) (Object : Addr) (t : DerefThread)
    (hpc : t.pc = DerefPc.returned ∨ (∃ status, t.pc = DerefPc.raised status)
      ∨ t.pc = DerefPc.faulted) :
    derefStep s Object t = (s, t) := by
  rcases hpc with h | ⟨status, h⟩ | h <;> simp only [derefStep, h]

/-- A thread run alone does what the call `KphDereferenceObjectEx` does: five steps
from the entry end the call with the same result and the same state. -/
theorem derefAlone_eq (s : State) (Object : Addr) (RefCount : Int) (OldRefCount : Bool) :
    (derefAlone Object 5 (s, DerefThread.start RefCount OldRefCount)).2.result
        (derefAlone Object 5 (s, DerefThread.start RefCount OldRefCount)).1
      = KphDereferenceObjectEx s Object RefCount OldRefCount := by
  have ended : ∀ (k : Nat) (s' : State) (t' : DerefThread),
      (t'.pc = DerefPc.returned ∨ (∃ status, t'.pc = DerefPc.raised status)
        ∨ t'.pc = DerefPc.faulted) →
      derefAlone Object k (s', t') = (s', t') := by
    intro k
    induction k with
    | zero => intro s' t' _; rfl
    | succ k ih =>
      intro s' t' h
      simp only [derefAlone]
      rw [derefStep_ended s' Object t' h]
      exact ih s' t' h
  simp only [DerefThread.start]
  unfold KphDereferenceObjectEx
  by_cases hneg : RefCount < 0
  · rw [if_pos hneg]
    have e : derefAlone Object 5 (s, ⟨RefCount, OldRefCount, DerefPc.exchange, none, false⟩)
        = (s, ⟨RefCount, OldRefCount, DerefPc.raised STATUS_INVALID_PARAMETER_2, none,
            false⟩) := by
      show derefAlone Object 4 (derefStep s Object _) = _
      rw [derefStep_raise s Object _ rfl hneg]
      exact ended 4 _ _ (Or.inr (Or.inl ⟨_, rfl⟩))
    rw [e]
    rfl
  · rw [if_neg hneg]
    cases hobj : s.heap Object with
    | none =>
      have e : derefAlone Object 5 (s, ⟨RefCount, OldRefCount, DerefPc.exchange, none, false⟩)
          = (s, ⟨RefCount, OldRefCount, DerefPc.faulted, none, false⟩) := by
        show derefAlone Object 4 (derefStep s Object _) = _
        rw [derefStep_exchange_fault s Object _ rfl hneg hobj]
        exact ended 4 _ _ (Or.inr (Or.inr rfl))
      rw [e]
      rfl
    | some h =>
      simp only []
      obtain ⟨s1, hs1⟩ : ∃ s1 : State, ({ s with
          heap := heapSet s.heap Object
            (some { h with RefCount := wrapLong (h.RefCount + wrapLong (-RefCount)) }) }
          : State) = s1 := ⟨_, rfl⟩
      rw [hs1]
      have hobj1 : s1.heap Object
          = some { h with RefCount := wrapLong (h.RefCount + wrapLong (-RefCount)) } := by
        rw [← hs1]; exact heapSet_same _ _ _
      by_cases hz : wrapLong (h.RefCount - RefCount) = 0
      · rw [if_pos hz]
        have e1 : derefStep s Object ⟨RefCount, OldRefCount, DerefPc.exchange, none, false⟩
            = (s1, ⟨RefCount, OldRefCount, DerefPc.callDelete, some h.RefCount, false⟩) := by
          rw [derefStep_exchange s Object _ h rfl hneg hobj]
          simp only [hz, if_true, hs1]
        cases hT : h.Type_ with
        | none =>
          have e2 : derefStep s1 Object
              ⟨RefCount, OldRefCount, DerefPc.callDelete, some h.RefCount, false⟩
              = (s1, ⟨RefCount, OldRefCount, DerefPc.faulted, some h.RefCount, false⟩) := by
            simp only [derefStep, hobj1, hT]
          have e : derefAlone Object 5
              (s, ⟨RefCount, OldRefCount, DerefPc.exchange, none, false⟩)
              = (s1, ⟨RefCount, OldRefCount, DerefPc.faulted, some h.RefCount, false⟩) := by
            show derefAlone Object 4 (derefStep s Object _) = _
            rw [e1]
            show derefAlone Object 3 (derefStep s1 Object _) = _
            rw [e2]
            exact ended 3 _ _ (Or.inr (Or.inr rfl))
          rw [e]
          rfl
        | some T =>
          simp only []
          cases hty : s1.typeAt T with
          | none =>
            have e2 : derefStep s1 Object
                ⟨RefCount, OldRefCount, DerefPc.callDelete, some h.RefCount, false⟩
                = (s1, ⟨RefCount, OldRefCount, DerefPc.faulted, some h.RefCount, false⟩) := by
              simp only [derefStep, hobj1, hT, hty]
            have e : derefAlone Object 5
                (s, ⟨RefCount, OldRefCount, DerefPc.exchange, none, false⟩)
                = (s1, ⟨RefCount, OldRefCount, DerefPc.faulted, some h.RefCount, false⟩) := by
              show derefAlone Object 4 (derefStep s Object _) = _
              rw [e1]
              show derefAlone Object 3 (derefStep s1 Object _) = _
              rw [e2]
              exact ended 3 _ _ (Or.inr (Or.inr rfl))
            rw [e]
            rfl
          | some ty =>
            simp only []
            obtain ⟨s2, hs2⟩ : ∃ s2 : State,
                callDeleteProcedure s1 ty.DeleteProcedure Object h.Flags h.Size = s2 := ⟨_, rfl⟩
            rw [hs2]
            have e2 : derefStep s1 Object
                ⟨RefCount, OldRefCount, DerefPc.callDelete, some h.RefCount, false⟩
                = (s2, ⟨RefCount, OldRefCount, DerefPc.decrementType, some h.RefCount,
                    false⟩) := by
              simp only [derefStep, hobj1, hT, hty, hs2]
            have hobj2 : s2.heap Object
                = some { h with RefCount := wrapLong (h.RefCount + wrapLong (-RefCount)) } := by
              rw [← hs2, callDeleteProcedure_heap]; exact hobj1
            cases hdec : InterlockedDecrementType s2 T with
            | none =>
              have e3 : derefStep s2 Object
                  ⟨RefCount, OldRefCount, DerefPc.decrementType, some h.RefCount, false⟩
                  = (s2, ⟨RefCount, OldRefCount, DerefPc.faulted, some h.RefCount,
                      false⟩) := by
                simp only [derefStep, hobj2, hT, hdec]
              have e : derefAlone Object 5
                  (s, ⟨RefCount, OldRefCount, DerefPc.exchange, none, false⟩)
                  = (s2, ⟨RefCount, OldRefCount, DerefPc.faulted, some h.RefCount,
                      false⟩) := by
                show derefAlone Object 4 (derefStep s Object _) = _
                rw [e1]
                show derefAlone Object 3 (derefStep s1 Object _) = _
                rw [e2]
                show derefAlone Object 2 (derefStep s2 Object _) = _
                rw [e3]
                exact ended 2 _ _ (Or.inr (Or.inr rfl))
              rw [e]
              rfl
            | some s3 =>
              have e3 : derefStep s2 Object
                  ⟨RefCount, OldRefCount, DerefPc.decrementType, some h.RefCount, false⟩
                  = (s3, ⟨RefCount, OldRefCount, DerefPc.removeEntry, some h.RefCount,
                      false⟩) := by
                simp only [derefStep, hobj2, hT, hdec]
              have e : derefAlone Object 5
                  (s, ⟨RefCount, OldRefCount, DerefPc.exchange, none, false⟩)
                  = (KphpFreeObject (RemoveEntryList s3 Object) Object,
                     ⟨RefCount, OldRefCount, DerefPc.returned, some h.RefCount, true⟩) := by
                show derefAlone Object 4 (derefStep s Object _) = _
                rw [e1]
                show derefAlone Object 3 (derefStep s1 Object _) = _
                rw [e2]
                show derefAlone Object 2 (derefStep s2 Object _) = _
                rw [e3]
                rfl
              rw [e]
              simp only [DerefThread.result]
      · rw [if_neg hz]
        have e1 : derefStep s Object ⟨RefCount, OldRefCount, DerefPc.exchange, none, false⟩
            = (s1, ⟨RefCount, OldRefCount, DerefPc.returned, some h.RefCount, false⟩) := by
          rw [derefStep_exchange s Object _ h rfl hneg hobj]
          simp only [hz, if_false, hs1]
        have e : derefAlone Object 5
            (s, ⟨RefCount, OldRefCount, DerefPc.exchange, none, false⟩)
            = (s1, ⟨RefCount, OldRefCount, DerefPc.returned, some h.RefCount, false⟩) := by
          show derefAlone Object 4 (derefStep s Object _) = _
          rw [e1]
          exact ended 4 _ _ (Or.inl rfl)
        rw [e]
        simp only [DerefThread.result]

theorem getElem?_set_cases {α : Type} (l : List α) (i j : Nat) (x u : α)
    (h : (l.set i x)[j]? = some u) : (j = i ∧ u = x) ∨ (j ≠ i ∧ l[j]? = some u) := by
  by_cases hji : j = i
  · subst hji
    left
    refine ⟨rfl, ?_⟩
    by_cases hlt : j < l.length
    · rw [List.getElem?_set_self hlt] at h
      exact (Option.some.inj h).symm
    · rw [List.getElem?_eq_none (by simpa using hlt)] at h
      exact absurd h (by simp)
  · right
    refine ⟨hji, ?_⟩
    rwa [List.getElem?_set_ne (Ne.symm hji)] at h

theorem getElem?_set_self_of_some {α : Type} (l : List α) (i : Nat) (x t : α)
    (h : l[i]? = some t) : (l.set i x)[i]? = some x := by
  have hlt : i < l.length := by
    by_contra hge
    rw [List.getElem?_eq_none (by simpa using hge)] at h
    exact absurd h (by simp)
  exact List.getElem?_set_self hlt

theorem set_eq_self_of_getElem? {α : Type} (l : List α) (i : Nat) (t : α)
    (h : l[i]? = some t) : l.set i t = l := by
  induction l generalizing i with
  | nil => rfl
  | cons a l ih =>
    cases i with
    | zero =>
      simp only [List.getElem?_cons_zero, Option.some.injEq] at h
      simp [h]
    | succ i =>
      simp only [List.getElem?_cons_succ] at h
      simp [ih i h]

theorem pendingSum_set (l : List DerefThread) (i : Nat) (t x : DerefThread)
    (h : l[i]? = some t) : pendingSum (l.set i x) = pendingSum l - t.pending + x.pending := by
  induction l generalizing i with
  | nil => simp at h
  | cons a l ih =>
    cases i with
    | zero =>
      simp only [List.getElem?_cons_zero, Option.some.injEq] at h
      subst h
      simp only [pendingSum, List.set_cons_zero, List.map_cons, List.sum_cons]
      omega
    | succ i =>
      simp only [List.getElem?_cons_succ] at h
      have := ih i h
      simp only [pendingSum, List.set_cons_succ, List.map_cons, List.sum_cons] at this ⊢
      omega

theorem pendingSum_ge (l : List DerefThread)
    (hpos : ∀ (i : Nat) (t : DerefThread), l[i]? = some t → 0 ≤ t.pending) :
    0 ≤ pendingSum l
    ∧ ∀ (i : Nat) (t : DerefThread), l[i]? = some t → t.pending ≤ pendingSum l := by
  induction l with
  | nil => exact ⟨by simp [pendingSum], fun i t h => by simp at h⟩
  | cons a l ih =>
    have ha : 0 ≤ a.pending := hpos 0 a (by simp)
    have hl := ih (fun i t h => hpos (i + 1) t (by simpa using h))
    have hsum : pendingSum (a :: l) = a.pending + pendingSum l := by
      simp [pendingSum]
    refine ⟨by omega, fun i t h => ?_⟩
    cases i with
    | zero =>
      simp only [List.getElem?_cons_zero, Option.some.injEq] at h
      subst h
      omega
    | succ i =>
      simp only [List.getElem?_cons_succ] at h
      have := hl.2 i t h
      omega

theorem pendingSum_eq_zero (l : List DerefThread)
    (h : ∀ (i : Nat) (t : DerefThread), l[i]? = some t → t.pc ≠ DerefPc.exchange) :
    pendingSum l = 0 := by
  induction l with
  | nil => simp [pendingSum]
  | cons a l ih =>
    have ha : a.pending = 0 := by
      simp [DerefThread.pending, h 0 a (by simp)]
    have hl := ih (fun i t ht => h (i + 1) t (by simpa using ht))
    have hsum : pendingSum (a :: l) = a.pending + pendingSum l := by
      simp [pendingSum]
    omega

theorem freeCalls_append (Object : Addr) (tr ev : List Event) :
    freeCalls Object (tr ++ ev) = freeCalls Object tr + freeCalls Object ev := by
  induction tr with
  | nil => simp [freeCalls]
  | cons e rest ih =>
    cases e <;> simp [freeCalls, ih]
    omega

theorem derefStep_pc_ne_exchange (s : State) (Object : Addr) (t : DerefThread) :
    (derefStep s Object t).2.pc ≠ DerefPc.exchange
    ∧ (derefStep s Object t).2.RefCount = t.RefCount := by
  unfold derefStep
  split
  · split
    · exact ⟨by simp, rfl⟩
    · split
      · exact ⟨by simp, rfl⟩
      · refine ⟨?_, rfl⟩
        simp only []
        split <;> simp
  · split
    · exact ⟨by simp, rfl⟩
    · split
      · exact ⟨by simp, rfl⟩
      · split <;> exact ⟨by simp, rfl⟩
  · split
    · exact ⟨by simp, rfl⟩
    · split
      · exact ⟨by simp, rfl⟩
      · split <;> exact ⟨by simp, rfl⟩
  · exact ⟨by simp, rfl⟩
  · exact ⟨by simp, rfl⟩
  · next h => exact ⟨by simp [h], rfl⟩
  · next h => exact ⟨by simp [h], rfl⟩
  · next h => exact ⟨by simp [h], rfl⟩

theorem derefStep_locals (s : State) (Object : Addr) (t : DerefThread)
    (hpc : t.pc ≠ DerefPc.exchange) :
    (derefStep s Object t).2.oldRefCount = t.oldRefCount
    ∧ (derefStep s Object t).2.observedZero = t.observedZero
    ∧ (derefStep s Object t).2.pc ≠ DerefPc.callDelete
    ∧ (t.pc ≠ DerefPc.freeObject → (derefStep s Object t).2.freed = t.freed)
    ∧ (t.pc = DerefPc.freeObject →
        (derefStep s Object t).2.freed = true ∧ (derefStep s Object t).2.pc = DerefPc.returned)
    ∧ ((t.pc = DerefPc.returned ∨ (∃ status, t.pc = DerefPc.raised status)
        ∨ t.pc = DerefPc.faulted) → derefStep s Object t = (s, t)) := by
  have key : (derefStep s Object t).2.oldRefCount = t.oldRefCount
      ∧ (derefStep s Object t).2.RefCount = t.RefCount
      ∧ (derefStep s Object t).2.pc ≠ DerefPc.callDelete
      ∧ (t.pc ≠ DerefPc.freeObject → (derefStep s Object t).2.freed = t.freed)
      ∧ (t.pc = DerefPc.freeObject →
          (derefStep s Object t).2.freed = true
          ∧ (derefStep s Object t).2.pc = DerefPc.returned) := by
    unfold derefStep
    split
    · next h => exact absurd h hpc
    · next h =>
      split
      · exact ⟨rfl, rfl, by simp, fun _ => rfl, fun h' => by simp [h] at h'⟩
      · split
        · exact ⟨rfl, rfl, by simp, fun _ => rfl, fun h' => by simp [h] at h'⟩
        · split <;> exact ⟨rfl, rfl, by simp, fun _ => rfl, fun h' => by simp [h] at h'⟩
    · next h =>
      split
      · exact ⟨rfl, rfl, by simp, fun _ => rfl, fun h' => by simp [h] at h'⟩
      · split
        · exact ⟨rfl, rfl, by simp, fun _ => rfl, fun h' => by simp [h] at h'⟩
        · split <;> exact ⟨rfl, rfl, by simp, fun _ => rfl, fun h' => by simp [h] at h'⟩
    · next h => exact ⟨rfl, rfl, by simp, fun _ => rfl, fun h' => by simp [h] at h'⟩
    · next h => exact ⟨rfl, rfl, by simp, fun h' => absurd h h', fun _ => ⟨rfl, rfl⟩⟩
    · next h => exact ⟨rfl, rfl, by simp [h], fun _ => rfl, fun h' => by simp [h] at h'⟩
    · next h => exact ⟨rfl, rfl, by simp [h], fun _ => rfl, fun h' => by simp [h] at h'⟩
    · next h => exact ⟨rfl, rfl, by simp [h], fun _ => rfl, fun h' => by simp [h] at h'⟩
  refine ⟨key.1, ?_, key.2.2.1, key.2.2.2.1, key.2.2.2.2, derefStep_ended s Object t⟩
  simp only [DerefThread.observedZero, key.1, key.2.1]

theorem derefStep_wf (s : State) (Object : Addr) (t : DerefThread) (hwf : t.wf) :
    (derefStep s Object t).2.wf := by
  obtain ⟨hpos, hex, hdel, hret, hfreed⟩ := hwf
  have hn : ¬ t.RefCount < 0 := by omega
  by_cases hpc : t.pc = DerefPc.exchange
  · have hf : t.freed = false := by
      cases hfr : t.freed with
      | false => rfl
      | true => rw [hfreed hfr] at hpc; exact absurd hpc (by simp)
    cases hobj : s.heap Object with
    | none =>
      rw [derefStep_exchange_fault s Object t hpc hn hobj]
      exact ⟨hpos, by simp, by simp, by simp, by simp [hf]⟩
    | some h =>
      rw [derefStep_exchange s Object t h hpc hn hobj]
      refine ⟨hpos, ?_, ?_, ?_, by simp [hf]⟩
      · simp only []
        split <;> simp
      · simp only [DerefThread.observedZero]
        split <;> simp_all
      · simp only [DerefThread.observedZero, hf]
        split <;> simp_all
  · obtain ⟨-, hobs, hncd, hfr, hfo, hend⟩ := derefStep_locals s Object t hpc
    have hne := derefStep_pc_ne_exchange s Object t
    refine ⟨by rw [hne.2]; exact hpos, fun h => absurd h hne.1, ?_, ?_, ?_⟩
    · intro h
      rw [hobs]
      by_cases hended : t.pc = DerefPc.returned ∨ (∃ status, t.pc = DerefPc.raised status)
          ∨ t.pc = DerefPc.faulted
      · rw [hend hended] at h
        exact hdel h
      · apply hdel
        cases hp : t.pc with
        | exchange => exact absurd hp hpc
        | callDelete => simp
        | decrementType => simp
        | removeEntry => simp
        | freeObject => simp
        | returned => exact absurd (Or.inl hp) hended
        | raised status => exact absurd (Or.inr (Or.inl ⟨status, hp⟩)) hended
        | faulted => exact absurd (Or.inr (Or.inr hp)) hended
    · intro h
      rw [hobs]
      by_cases hfree : t.pc = DerefPc.freeObject
      · rw [(hfo hfree).1]
        exact (hdel (Or.inr (Or.inr (Or.inr hfree)))).symm
      · rw [hfr hfree]
        by_cases hended : t.pc = DerefPc.returned ∨ (∃ status, t.pc = DerefPc.raised status)
            ∨ t.pc = DerefPc.faulted
        · rw [hend hended] at h
          exact hret h
        · exfalso
          revert h
          unfold derefStep
          cases hp : t.pc with
          | exchange => exact absurd hp hpc
          | callDelete =>
            simp only []
            split
            · simp
            · split
              · simp
              · split <;> simp
          | decrementType =>
            simp only []
            split
            · simp
            · split
              · simp
              · split <;> simp
          | removeEntry => simp
          | freeObject => exact absurd hp hfree
          | returned => exact absurd (Or.inl hp) hended
          | raised status => exact absurd (Or.inr (Or.inl ⟨status, hp⟩)) hended
          | faulted => exact absurd (Or.inr (Or.inr hp)) hended
    · intro h
      by_cases hfree : t.pc = DerefPc.freeObject
      · exact (hfo hfree).2
      · rw [hfr hfree] at h
        have := hfreed h
        rw [hend (Or.inl this)]
        exact this

/-- What a step after the exchange does to the record of delete-procedure calls and
of frees of the object. -/
theorem derefStep_trace (s : State) (Object : Addr) (t : DerefThread)
    (hpc : t.pc ≠ DerefPc.exchange) :
    (deleteCalls Object (derefStep s Object t).1.trace = deleteCalls Object s.trace
      ∨ (t.pc = DerefPc.callDelete
          ∧ (derefStep s Object t).2.pc = DerefPc.decrementType
          ∧ deleteCalls Object (derefStep s Object t).1.trace
              = deleteCalls Object s.trace + 1))
    ∧ ((t.pc ≠ DerefPc.freeObject
          ∧ freeCalls Object (derefStep s Object t).1.trace = freeCalls Object s.trace)
      ∨ (t.pc = DerefPc.freeObject
          ∧ freeCalls Object (derefStep s Object t).1.trace
              = freeCalls Object s.trace + 1)) := by
  unfold derefStep
  cases hp : t.pc with
  | exchange => exact absurd hp hpc
  | callDelete =>
    simp only []
    split
    · exact ⟨Or.inl rfl, Or.inl ⟨by simp, rfl⟩⟩
    · split
      · exact ⟨Or.inl rfl, Or.inl ⟨by simp, rfl⟩⟩
      · split
        · exact ⟨Or.inl rfl, Or.inl ⟨by simp, rfl⟩⟩
        · next ty _ =>
          cases hproc : ty.DeleteProcedure with
          | none => exact ⟨Or.inl (by simp [callDeleteProcedure]), Or.inl ⟨by simp, by simp [callDeleteProcedure]⟩⟩
          | some p =>
            refine ⟨Or.inr ⟨trivial, rfl, ?_⟩, Or.inl ⟨by simp, ?_⟩⟩
            · simp [callDeleteProcedure, State.log, deleteCalls_append, deleteCalls]
            · simp [callDeleteProcedure, State.log, freeCalls_append, freeCalls]
  | decrementType =>
    simp only []
    split
    · exact ⟨Or.inl rfl, Or.inl ⟨by simp, rfl⟩⟩
    · split
      · exact ⟨Or.inl rfl, Or.inl ⟨by simp, rfl⟩⟩
      · next T _ =>
        split
        · exact ⟨Or.inl rfl, Or.inl ⟨by simp, rfl⟩⟩
        · next s3 hdec =>
          have htr : s3.trace = s.trace ++ [Event.InterlockedDecrementType T] := by
            unfold InterlockedDecrementType at hdec
            split at hdec
            · split at hdec
              · simp only [Option.some.injEq] at hdec
                rw [← hdec]
              · exact absurd hdec (by simp)
            · exact absurd hdec (by simp)
          simp only [htr, deleteCalls_append, freeCalls_append, deleteCalls, freeCalls]
          exact ⟨Or.inl rfl, Or.inl ⟨by simp, rfl⟩⟩
  | removeEntry =>
    simp only [RemoveEntryList, deleteCalls_append, freeCalls_append, deleteCalls, freeCalls]
    exact ⟨Or.inl rfl, Or.inl ⟨by simp, rfl⟩⟩
  | freeObject =>
    simp only [KphpFreeObject, deleteCalls_append, freeCalls_append, deleteCalls, freeCalls]
    exact ⟨Or.inl rfl, Or.inr ⟨trivial, by simp⟩⟩
  | returned => exact ⟨Or.inl rfl, Or.inl ⟨by simp, rfl⟩⟩
  | raised status => exact ⟨Or.inl rfl, Or.inl ⟨by simp, rfl⟩⟩
  | faulted => exact ⟨Or.inl rfl, Or.inl ⟨by simp, rfl⟩⟩

theorem pending_nonneg_of_wf (l : List DerefThread)
    (hwf : ∀ (i : Nat) (t : DerefThread), l[i]? = some t → t.wf) :
    ∀ (i : Nat) (t : DerefThread), l[i]? = some t → 0 ≤ t.pending := by
  intro i t h
  have := (hwf i t h).1
  unfold DerefThread.pending
  split <;> omega

/-- A thread that has ended does nothing when it is scheduled. -/
theorem DerefSystem.step_ended (Object : Addr) (c : DerefSystem) (i : Nat) (t : DerefThread)
    (hi : c.threads[i]? = some t)
    (hpc : t.pc = DerefPc.returned ∨ (∃ status, t.pc = DerefPc.raised status)
      ∨ t.pc = DerefPc.faulted) :
    DerefSystem.step Object c i = c := by
  unfold DerefSystem.step
  rw [hi]
  simp only [derefStep_ended c.shared Object t hpc, set_eq_self_of_getElem? c.threads i t hi]

/-- The step of a thread that stands before the exchange keeps the invariant. -/
theorem DerefInv_step_exchange (Object : Addr) (slack : Int) (d0 f0 : Nat) (c : DerefSystem)
    (i : Nat) (t : DerefThread) (hslack : 0 ≤ slack) (inv : DerefInv Object slack d0 f0 c)
    (hi : c.threads[i]? = some t) (hpc : t.pc = DerefPc.exchange) :
    DerefInv Object slack d0 f0 (DerefSystem.step Object c i) := by
  have hwf := inv.wf i t hi
  have hn : ¬ t.RefCount < 0 := by have := hwf.1; omega
  obtain ⟨hnoobs, h, hobj, hcount, hmax⟩ := inv.live ⟨i, t, hi, hpc⟩
  have hpend := pendingSum_ge c.threads (pending_nonneg_of_wf c.threads inv.wf)
  have htp : t.pending = t.RefCount := by simp [DerefThread.pending, hpc]
  have hle : t.RefCount ≤ h.RefCount := by
    have := hpend.2 i t hi
    omega
  have hpos := hwf.1
  have hw1 : wrapLong (h.RefCount + wrapLong (-t.RefCount)) = h.RefCount - t.RefCount := by
    unfold wrapLong; omega
  have hw2 : wrapLong (h.RefCount - t.RefCount) = h.RefCount - t.RefCount := by
    unfold wrapLong; omega
  obtain ⟨t', ht'⟩ : ∃ t' : DerefThread, ({ t with
      oldRefCount := some h.RefCount,
      pc := if wrapLong (h.RefCount - t.RefCount) = 0 then DerefPc.callDelete
            else DerefPc.returned } : DerefThread) = t' := ⟨_, rfl⟩
  have hstep : DerefSystem.step Object c i
      = { shared := { c.shared with
            heap := heapSet c.shared.heap Object
              (some { h with RefCount := h.RefCount - t.RefCount }) },
          threads := c.threads.set i t' } := by
    unfold DerefSystem.step
    rw [hi]
    simp only [derefStep_exchange c.shared Object t h hpc hn hobj, hw1, ht']
  rw [hstep]
  have ht'pc : t'.pc ≠ DerefPc.exchange := by
    rw [← ht']
    simp only []
    split <;> simp
  have ht'wf : t'.wf := by
    have := derefStep_wf c.shared Object t hwf
    rw [derefStep_exchange c.shared Object t h hpc hn hobj] at this
    simpa only [ht'] using this
  have ht'obs : t'.observedZero = true ↔ h.RefCount = t.RefCount := by
    rw [← ht']
    simp only [DerefThread.observedZero, hw2, decide_eq_true_eq]
    omega
  have ht'freed : t'.freed = false := by
    rw [← ht']
    cases hfr : t.freed with
    | false => rfl
    | true => have := hwf.2.2.2.2 hfr; rw [hpc] at this; exact absurd this (by simp)
  have ht'pend : t'.pending = 0 := by simp [DerefThread.pending, ht'pc]
  have hsum : pendingSum (c.threads.set i t') = pendingSum c.threads - t.RefCount := by
    rw [pendingSum_set c.threads i t t' hi, htp, ht'pend]; omega
  have G : ∀ (j : Nat) (u : DerefThread), (c.threads.set i t')[j]? = some u →
      (j = i ∧ u = t') ∨ (j ≠ i ∧ c.threads[j]? = some u) :=
    fun j u hu => getElem?_set_cases c.threads i j t' u hu
  have Gi : (c.threads.set i t')[i]? = some t' := getElem?_set_self_of_some c.threads i t' t hi
  have hpend' := pendingSum_ge (c.threads.set i t')
    (pending_nonneg_of_wf _ (fun j u hu => by
      rcases G j u hu with ⟨-, rfl⟩ | ⟨-, hold⟩
      · exact ht'wf
      · exact inv.wf j u hold))
  refine ⟨?_, ?_, ?_, ?_, ?_, ?_⟩
  · intro j u hu
    rcases G j u hu with ⟨-, rfl⟩ | ⟨-, hold⟩
    · exact ht'wf
    · exact inv.wf j u hold
  · intro j k tj tk hj hk hoj hok
    rcases G j tj hj with ⟨rfl, rfl⟩ | ⟨-, holdj⟩
    · rcases G k tk hk with ⟨rfl, -⟩ | ⟨-, holdk⟩
      · rfl
      · rw [hnoobs k tk holdk] at hok; exact absurd hok (by simp)
    · rw [hnoobs j tj holdj] at hoj; exact absurd hoj (by simp)
  · rintro ⟨j, u, hu, hupc⟩
    have hupend : u.pending = u.RefCount := by simp [DerefThread.pending, hupc]
    have hupos : 0 < u.RefCount := by
      rcases G j u hu with ⟨-, rfl⟩ | ⟨-, hold⟩
      · exact absurd hupc ht'pc
      · exact (inv.wf j u hold).1
    have hge := hpend'.2 j u hu
    refine ⟨?_, ⟨{ h with RefCount := h.RefCount - t.RefCount }, heapSet_same _ _ _, ?_, ?_⟩⟩
    · intro k v hv
      rcases G k v hv with ⟨-, rfl⟩ | ⟨-, hold⟩
      · cases hob : v.observedZero with
        | false => rfl
        | true =>
          have := ht'obs.mp hob
          omega
      · exact hnoobs k v hold
    · simp only []
      omega
    · simp only []
      omega
  · intro hs0 _
    by_cases hex : ∃ (j : Nat) (u : DerefThread),
        (c.threads.set i t')[j]? = some u ∧ u.pc = DerefPc.exchange
    · exact Or.inl hex
    · right
      have hz : pendingSum (c.threads.set i t') = 0 :=
        pendingSum_eq_zero _ (fun j u hu hupc => hex ⟨j, u, hu, hupc⟩)
      exact ⟨i, t', Gi, ht'obs.mpr (by omega)⟩
  · rcases inv.deletes with hd | ⟨-, j, u, hu, hob, -, -⟩
    · exact Or.inl hd
    · rw [hnoobs j u hu] at hob; exact absurd hob (by simp)
  · rcases inv.frees with ⟨hf, hall⟩ | ⟨-, j, u, hu, hfr⟩
    · refine Or.inl ⟨hf, fun j u hu => ?_⟩
      rcases G j u hu with ⟨-, rfl⟩ | ⟨-, hold⟩
      · exact ht'freed
      · exact hall j u hold
    · have hw := inv.wf j u hu
      have hret := hw.2.2.2.2 hfr
      have := hw.2.2.2.1 hret
      rw [hfr, hnoobs j u hu] at this
      exact absurd this (by simp)

/-- The step of a thread that is deleting keeps the invariant. -/
theorem DerefInv_step_deleting (Object : Addr) (slack : Int) (d0 f0 : Nat) (c : DerefSystem)
    (i : Nat) (t : DerefThread) (inv : DerefInv Object slack d0 f0 c)
    (hi : c.threads[i]? = some t)
    (hpc : t.pc = DerefPc.callDelete ∨ t.pc = DerefPc.decrementType
      ∨ t.pc = DerefPc.removeEntry ∨ t.pc = DerefPc.freeObject) :
    DerefInv Object slack d0 f0 (DerefSystem.step Object c i) := by
  have hwf := inv.wf i t hi
  have hobs : t.observedZero = true := hwf.2.2.1 hpc
  have hne : t.pc ≠ DerefPc.exchange := by
    rcases hpc with h | h | h | h <;> simp [h]
  have hfalse : t.freed = false := by
    cases hfr : t.freed with
    | false => rfl
    | true =>
      have := hwf.2.2.2.2 hfr
      rcases hpc with h | h | h | h <;> rw [h] at this <;> exact absurd this (by simp)
  have hnopend : ∀ (j : Nat) (u : DerefThread), c.threads[j]? = some u →
      u.pc ≠ DerefPc.exchange := by
    intro j u hu hupc
    have := (inv.live ⟨j, u, hu, hupc⟩).1 i t hi
    rw [hobs] at this
    exact absurd this (by simp)
  obtain ⟨r, hr⟩ : ∃ r, derefStep c.shared Object t = r := ⟨_, rfl⟩
  have hstep : DerefSystem.step Object c i
      = { shared := r.1, threads := c.threads.set i r.2 } := by
    unfold DerefSystem.step
    rw [hi]
    simp only [hr]
  rw [hstep]
  obtain ⟨-, hrobs, hrncd, hrfr, hrfo, -⟩ := derefStep_locals c.shared Object t hne
  have hrne := (derefStep_pc_ne_exchange c.shared Object t).1
  have hrwf := derefStep_wf c.shared Object t hwf
  obtain ⟨htrd, htrf⟩ := derefStep_trace c.shared Object t hne
  rw [hr] at hrobs hrncd hrfr hrfo hrne hrwf htrd htrf
  have G : ∀ (j : Nat) (u : DerefThread), (c.threads.set i r.2)[j]? = some u →
      (j = i ∧ u = r.2) ∨ (j ≠ i ∧ c.threads[j]? = some u) :=
    fun j u hu => getElem?_set_cases c.threads i j r.2 u hu
  have Gi : (c.threads.set i r.2)[i]? = some r.2 :=
    getElem?_set_self_of_some c.threads i r.2 t hi
  have Gne : ∀ (j : Nat), j ≠ i → (c.threads.set i r.2)[j]? = c.threads[j]? :=
    fun j hj => List.getElem?_set_ne (Ne.symm hj)
  have hnopend' : ∀ (j : Nat) (u : DerefThread), (c.threads.set i r.2)[j]? = some u →
      u.pc ≠ DerefPc.exchange := by
    intro j u hu
    rcases G j u hu with ⟨-, rfl⟩ | ⟨-, hold⟩
    · exact hrne
    · exact hnopend j u hold
  refine ⟨?_, ?_, ?_, ?_, ?_, ?_⟩
  · intro j u hu
    rcases G j u hu with ⟨-, rfl⟩ | ⟨-, hold⟩
    · exact hrwf
    · exact inv.wf j u hold
  · intro j k tj tk hj hk hoj hok
    have hj' : ∃ tj0, c.threads[j]? = some tj0 ∧ tj0.observedZero = true := by
      rcases G j tj hj with ⟨rfl, rfl⟩ | ⟨-, hold⟩
      · exact ⟨t, hi, hobs⟩
      · exact ⟨tj, hold, hoj⟩
    have hk' : ∃ tk0, c.threads[k]? = some tk0 ∧ tk0.observedZero = true := by
      rcases G k tk hk with ⟨rfl, rfl⟩ | ⟨-, hold⟩
      · exact ⟨t, hi, hobs⟩
      · exact ⟨tk, hold, hok⟩
    obtain ⟨tj0, hj0, hoj0⟩ := hj'
    obtain ⟨tk0, hk0, hok0⟩ := hk'
    exact inv.unique j k tj0 tk0 hj0 hk0 hoj0 hok0
  · rintro ⟨j, u, hu, hupc⟩
    exact absurd hupc (hnopend' j u hu)
  · intro _ _
    exact Or.inr ⟨i, r.2, Gi, by rw [hrobs]; exact hobs⟩
  · have hold : deleteCalls Object c.shared.trace = d0
        ∨ (deleteCalls Object c.shared.trace = d0 + 1 ∧ t.pc ≠ DerefPc.callDelete) := by
      rcases inv.deletes with hd | ⟨hd, j, u, hu, hob, -, hncd⟩
      · exact Or.inl hd
      · have := inv.unique i j t u hi hu hobs hob
        subst this
        rw [hi] at hu
        cases (Option.some.inj hu)
        exact Or.inr ⟨hd, hncd⟩
    rcases htrd with hsame | ⟨hcd, hrpc, hplus⟩
    · rcases hold with hd | ⟨hd, -⟩
      · exact Or.inl (hsame.trans hd)
      · exact Or.inr ⟨hsame.trans hd, i, r.2, Gi, by rw [hrobs]; exact hobs, hrne, hrncd⟩
    · rcases hold with hd | ⟨-, hncd⟩
      · exact Or.inr ⟨by rw [hplus, hd], i, r.2, Gi, by rw [hrobs]; exact hobs, hrne, hrncd⟩
      · exact absurd hcd hncd
  · have hold : freeCalls Object c.shared.trace = f0
        ∧ ∀ (j : Nat) (u : DerefThread), c.threads[j]? = some u → u.freed = false := by
      rcases inv.frees with hf | ⟨-, j, u, hu, hfr⟩
      · exact hf
      · have hw := inv.wf j u hu
        have hret := hw.2.2.2.2 hfr
        have hob : u.observedZero = true := by rw [← hw.2.2.2.1 hret]; exact hfr
        have := inv.unique i j t u hi hu hobs hob
        subst this
        rw [hi] at hu
        cases (Option.some.inj hu)
        rw [hfalse] at hfr
        exact absurd hfr (by simp)
    rcases htrf with ⟨hnf, hsame⟩ | ⟨hfo, hplus⟩
    · refine Or.inl ⟨hsame.trans hold.1, fun j u hu => ?_⟩
      rcases G j u hu with ⟨-, rfl⟩ | ⟨-, hold'⟩
      · rw [hrfr hnf]; exact hfalse
      · exact hold.2 j u hold'
    · exact Or.inr ⟨by rw [hplus, hold.1], i, r.2, Gi, (hrfo hfo).1⟩

/-- Every step of every thread keeps the invariant. -/
theorem DerefInv_step (Object : Addr) (slack : Int) (d0 f0 : Nat) (c : DerefSystem) (i : Nat)
    (hslack : 0 ≤ slack) (inv : DerefInv Object slack d0 f0 c) :
    DerefInv Object slack d0 f0 (DerefSystem.step Object c i) := by
  cases hi : c.threads[i]? with
  | none =>
    have : DerefSystem.step Object c i = c := by
      unfold DerefSystem.step
      rw [hi]
    rw [this]
    exact inv
  | some t =>
    cases hp : t.pc with
    | exchange => exact DerefInv_step_exchange Object slack d0 f0 c i t hslack inv hi hp
    | callDelete => exact DerefInv_step_deleting Object slack d0 f0 c i t inv hi (Or.inl hp)
    | decrementType =>
      exact DerefInv_step_deleting Object slack d0 f0 c i t inv hi (Or.inr (Or.inl hp))
    | removeEntry =>
      exact DerefInv_step_deleting Object slack d0 f0 c i t inv hi (Or.inr (Or.inr (Or.inl hp)))
    | freeObject =>
      exact DerefInv_step_deleting Object slack d0 f0 c i t inv hi (Or.inr (Or.inr (Or.inr hp)))
    | returned =>
      rw [DerefSystem.step_ended Object c i t hi (Or.inl hp)]
      exact inv
    | raised status =>
      rw [DerefSystem.step_ended Object c i t hi (Or.inr (Or.inl ⟨status, hp⟩))]
      exact inv
    | faulted =>
      rw [DerefSystem.step_ended Object c i t hi (Or.inr (Or.inr hp))]
      exact inv

theorem DerefInv_run (Object : Addr) (slack : Int) (d0 f0 : Nat) (hslack : 0 ≤ slack)
    (schedule : List Nat) :
    ∀ c : DerefSystem, DerefInv Object slack d0 f0 c →
      DerefInv Object slack d0 f0 (DerefSystem.run Object c schedule) := by
  induction schedule with
  | nil => intro c inv; exact inv
  | cons i rest ih =>
    intro c inv
    exact ih _ (DerefInv_step Object slack d0 f0 c i hslack inv)

theorem pendingSum_start (s : State) (calls : List (Int × Bool)) :
    pendingSum (DerefSystem.start s calls).threads = (calls.map Prod.fst).sum := by
  induction calls with
  | nil => rfl
  | cons c rest ih =>
    simp only [DerefSystem.start, pendingSum, List.map_cons, List.sum_cons] at ih ⊢
    rw [ih]
    simp [DerefThread.pending, DerefThread.start]

theorem start_thread (s : State) (calls : List (Int × Bool)) (i : Nat) (t : DerefThread)
    (h : (DerefSystem.start s calls).threads[i]? = some t) :
    ∃ c, c ∈ calls ∧ t = DerefThread.start c.1 c.2 := by
  simp only [DerefSystem.start, List.getElem?_map, Option.map_eq_some'] at h
  obtain ⟨c, hc, rfl⟩ := h
  exact ⟨c, List.getElem?_mem hc, rfl⟩

/-- The invariant holds when the threads enter. -/
theorem DerefInv_start (s0 : State) (Object : Addr) (h0 : KPH_OBJECT_HEADER)
    (calls : List (Int × Bool))
    (hobj : s0.heap Object = some h0) (hlong : h0.RefCount ≤ 2147483647)
    (hpos : ∀ c, c ∈ calls → 0 < c.1) :
    DerefInv Object (h0.RefCount - (calls.map Prod.fst).sum)
      (deleteCalls Object s0.trace) (freeCalls Object s0.trace)
      (DerefSystem.start s0 calls) := by
  have hnoobs : ∀ (i : Nat) (t : DerefThread),
      (DerefSystem.start s0 calls).threads[i]? = some t →
      t.observedZero = false ∧ t.freed = false ∧ t.pc = DerefPc.exchange ∧ 0 < t.RefCount := by
    intro i t h
    obtain ⟨c, hc, rfl⟩ := start_thread s0 calls i t h
    exact ⟨rfl, rfl, rfl, hpos c hc⟩
  refine ⟨?_, ?_, ?_, ?_, Or.inl rfl, Or.inl ⟨rfl, fun i t h => (hnoobs i t h).2.1⟩⟩
  · intro i t h
    obtain ⟨h1, h2, h3, h4⟩ := hnoobs i t h
    refine ⟨h4, fun _ => h1, ?_, ?_, ?_⟩
    · intro hp
      rw [h3] at hp
      simp at hp
    · intro hp
      rw [h3] at hp
      exact absurd hp (by simp)
    · intro hf
      rw [h2] at hf
      exact absurd hf (by simp)
  · intro i j ti tj hi _ hoi _
    rw [(hnoobs i ti hi).1] at hoi
    exact absurd hoi (by simp)
  · intro _
    refine ⟨fun i t h => (hnoobs i t h).1, h0, hobj, ?_, hlong⟩
    rw [pendingSum_start]
    omega
  · rintro _ ⟨i, t, h⟩
    exact Or.inl ⟨i, t, h, (hnoobs i t h).2.2.1⟩

theorem DerefSystem.step_length (Object : Addr) (c : DerefSystem) (i : Nat) :
    (DerefSystem.step Object c i).threads.length = c.threads.length := by
  unfold DerefSystem.step
  split
  · rfl
  · exact List.length_set _ _ _

theorem DerefSystem.run_length (Object : Addr) (schedule : List Nat) :
    ∀ c : DerefSystem, (DerefSystem.run Object c schedule).threads.length = c.threads.length := by
  induction schedule with
  | nil => intro c; rfl
  | cons i rest ih =>
    intro c
    exact (ih _).trans (DerefSystem.step_length Object c i)

/-- Claim C22 (amended): threads enter `KphDereferenceObjectEx` on the same live object
whose count is `c`, each with an amount greater than 0, the amounts adding up to
at most `c` (every thread releases references it holds). Under every schedule
and at every moment: at most one thread has computed `oldRefCount - RefCount == 0`;
only that thread ever returns `TRUE`, and once it has returned the object has
been freed exactly once; at most one delete-procedure call and at most one
`ExFreePoolWithTag` of the object have been made since the threads entered. When
the amounts add up to exactly `c`, as soon as every thread is past its exchange
one of them has computed zero. -/
theorem concurrent_dereference_deletes_once (s0 : State) (Object : Addr)
    (h0 : KPH_OBJECT_HEADER) (calls : List (Int × Bool)) (schedule : List Nat)
    (hobj : s0.heap Object = some h0) (hlong : h0.RefCount ≤ 2147483647)
    (hpos : ∀ c, c ∈ calls → 0 < c.1)
    (hsum : (calls.map Prod.fst).sum ≤ h0.RefCount) :
    (∀ (i j : Nat) (ti tj : DerefThread),
        (DerefSystem.run Object (DerefSystem.start s0 calls) schedule).threads[i]? = some ti →
        (DerefSystem.run Object (DerefSystem.start s0 calls) schedule).threads[j]? = some tj →
        ti.observedZero = true → tj.observedZero = true → i = j)
    ∧ (∀ (i : Nat) (t : DerefThread),
        (DerefSystem.run Object (DerefSystem.start s0 calls) schedule).threads[i]? = some t →
        t.freed = true → t.observedZero = true ∧ t.pc = DerefPc.returned)
    ∧ (∀ (i : Nat) (t : DerefThread),
        (DerefSystem.run Object (DerefSystem.start s0 calls) schedule).threads[i]? = some t →
        t.pc = DerefPc.returned → t.observedZero = true →
        t.freed = true
        ∧ freeCalls Object
            (DerefSystem.run Object (DerefSystem.start s0 calls) schedule).shared.trace
          = freeCalls Object s0.trace + 1)
    ∧ deleteCalls Object
          (DerefSystem.run Object (DerefSystem.start s0 calls) schedule).shared.trace
        ≤ deleteCalls Object s0.trace + 1
    ∧ freeCalls Object
          (DerefSystem.run Object (DerefSystem.start s0 calls) schedule).shared.trace
        ≤ freeCalls Object s0.trace + 1
    ∧ ((calls.map Prod.fst).sum = h0.RefCount → calls ≠ [] →
        (∀ (i : Nat) (t : DerefThread),
          (DerefSystem.run Object (DerefSystem.start s0 calls) schedule).threads[i]? = some t →
          t.pc ≠ DerefPc.exchange) →
        ∃ (i : Nat) (t : DerefThread),
          (DerefSystem.run Object (DerefSystem.start s0 calls) schedule).threads[i]? = some t
          ∧ t.observedZero = true) := by
  have inv := DerefInv_run Object (h0.RefCount - (calls.map Prod.fst).sum)
    (deleteCalls Object s0.trace) (freeCalls Object s0.trace) (by omega) schedule
    (DerefSystem.start s0 calls) (DerefInv_start s0 Object h0 calls hobj hlong hpos)
  have hlen := DerefSystem.run_length Object schedule (DerefSystem.start s0 calls)
  obtain ⟨r, hr⟩ : ∃ r, DerefSystem.run Object (DerefSystem.start s0 calls) schedule = r :=
    ⟨_, rfl⟩
  rw [hr] at inv hlen ⊢
  refine ⟨inv.unique, ?_, ?_, ?_, ?_, ?_⟩
  · intro i t hi hfr
    have hw := inv.wf i t hi
    have hret := hw.2.2.2.2 hfr
    exact ⟨by rw [← hw.2.2.2.1 hret]; exact hfr, hret⟩
  · intro i t hi hret hob
    have hw := inv.wf i t hi
    have hfr : t.freed = true := by rw [hw.2.2.2.1 hret]; exact hob
    refine ⟨hfr, ?_⟩
    rcases inv.frees with ⟨-, hall⟩ | ⟨hf, -⟩
    · rw [hall i t hi] at hfr
      exact absurd hfr (by simp)
    · exact hf
  · rcases inv.deletes with hd | ⟨hd, -⟩ <;> omega
  · rcases inv.frees with ⟨hf, -⟩ | ⟨hf, -⟩ <;> omega
  · intro hs hne hall
    have hex : ∃ (i : Nat) (t : DerefThread), r.threads[i]? = some t := by
      have hpos : 0 < r.threads.length := by
        rw [hlen]
        cases calls with
        | nil => exact absurd rfl hne
        | cons c rest => simp [DerefSystem.start]
      exact ⟨0, r.threads[0], by simp [hpos]⟩
    rcases inv.complete (by omega) hex with ⟨i, t, hi, hp⟩ | hobs
    · exact absurd hp (hall i t hi)
    · exact hobs

/-- Claim C22 (amended) on the sample manager with two references held on the object
48: two threads release one reference each, the second asking for the old count.
In the interleaving where the first thread is overtaken after its exchange, the
second thread computes zero and deletes; one delete-procedure call and one free
are recorded, and only the second thread returns `TRUE`. -/
theorem concurrent_dereference_deletes_once_witness :
    sampleStateTwo.heap 48 = some { sampleObject with RefCount := 2 }
    ∧ (DerefSystem.run 48 (DerefSystem.start sampleStateTwo [(1, false), (1, true)])
        [0, 1, 1, 0, 1, 1, 1]).threads
      = [{ RefCount := 1, OldRefCount := false, pc := DerefPc.returned,
           oldRefCount := some 2, freed := false },
         { RefCount := 1, OldRefCount := true, pc := DerefPc.returned,
           oldRefCount := some 1, freed := true }]
    ∧ deleteCalls 48
        (DerefSystem.run 48 (DerefSystem.start sampleStateTwo [(1, false), (1, true)])
          [0, 1, 1, 0, 1, 1, 1]).shared.trace ≤ deleteCalls 48 sampleStateTwo.trace + 1
    ∧ freeCalls 48
        (DerefSystem.run 48 (DerefSystem.start sampleStateTwo [(1, false), (1, true)])
          [0, 1, 1, 0, 1, 1, 1]).shared.trace = freeCalls 48 sampleStateTwo.trace + 1 :=
  ⟨rfl, by decide,
   (concurrent_dereference_deletes_once sampleStateTwo 48
      { sampleObject with RefCount := 2 } [(1, false), (1, true)] [0, 1, 1, 0, 1, 1, 1]
      rfl (by decide) (by decide) (by decide)).2.2.2.1,
   ((concurrent_dereference_deletes_once sampleStateTwo 48
      { sampleObject with RefCount := 2 } [(1, false), (1, true)] [0, 1, 1, 0, 1, 1, 1]
      rfl (by decide) (by decide) (by decide)).2.2.1 1
      { RefCount := 1, OldRefCount := true, pc := DerefPc.returned,
        oldRefCount := some 1, freed := true } (by decide) rfl (by decide)).2⟩

/-- Claim C22 fails as stated. On the sample manager the object 48 has count 1 and
a type with a delete procedure. One thread dereferences it by 1 and another by
0, an amount the check `RefCount < 0` lets through. When the second exchange comes
after the first and before the free, both threads compute
`oldRefCount - RefCount == 0`: the delete procedure is called twice, the block is
freed twice and both calls return `TRUE`. -/
theorem concurrent_dereference_double_free :
    sampleState.heap 48 = some sampleObject
    ∧ sampleObject.RefCount = 1
    ∧ (DerefSystem.run 48 (DerefSystem.start sampleState [(1, false), (0, false)])
        [0, 1, 0, 1, 0, 1, 0, 1, 0, 1]).threads
      = [{ RefCount := 1, OldRefCount := false, pc := DerefPc.returned,
           oldRefCount := some 1, freed := true },
         { RefCount := 0, OldRefCount := false, pc := DerefPc.returned,
           oldRefCount := some 0, freed := true }]
    ∧ deleteCalls 48
        (DerefSystem.run 48 (DerefSystem.start sampleState [(1, false), (0, false)])
          [0, 1, 0, 1, 0, 1, 0, 1, 0, 1]).shared.trace = deleteCalls 48 sampleState.trace + 2
    ∧ freeCalls 48
        (DerefSystem.run 48 (DerefSystem.start sampleState [(1, false), (0, false)])
          [0, 1, 0, 1, 0, 1, 0, 1, 0, 1]).shared.trace = freeCalls 48 sampleState.trace + 2 :=
  ⟨rfl, rfl, by decide, by decide, by decide⟩

end KphRef


namespace KphHooks

/-! ## Basic facts about tables -/

@[simp] theorem tableSet_same (t : Table) (i : Nat) (v : PVOID) : tableSet t i v i = v := by
  simp [tableSet]

theorem tableSet_other (t : Table) (i j : Nat) (v : PVOID) (h : j ≠ i) :
    tableSet t i v j = t j := by
  simp [tableSet, h]

@[simp] theorem tableSet_tableSet (t : Table) (i : Nat) (v v' : PVOID) :
    tableSet (tableSet t i v) i v' = tableSet t i v' := by
  funext j
  by_cases h : j = i <;> simp [tableSet, h]

@[simp] theorem tableSet_self (t : Table) (i : Nat) : tableSet t i (t i) = t := by
  funext j
  by_cases h : j = i
  · subst h; simp [tableSet]
  · simp [tableSet, h]

@[simp] theorem setOldNt_same (o : Routine → PVOID) (f : Routine) (v : PVOID) :
    setOldNt o f v f = v := by
  simp [setOldNt]

theorem setOldNt_other (o : Routine → PVOID) (f g : Routine) (v : PVOID) (h : g ≠ f) :
    setOldNt o f v g = o g := by
  simp [setOldNt, h]

theorem specSsdt_lawful (SYSCALL_INDEX : PVOID → Nat) : (specSsdt SYSCALL_INDEX).Lawful :=
  ⟨fun _ _ _ => rfl, fun _ _ _ => rfl, fun _ _ _ _ => rfl, fun _ _ _ _ => rfl⟩

/-- What installing does over a lawful accessor, as one equation. -/
theorem install_eq (env : Env) (s : HookState) (R : Hooked) (hlaw : env.ssdt.Lawful) :
    install env s R =
      if s.KiServiceTable (entryIndex env s R) ≠ env.NewNt R.routine then
        { s with
          KiServiceTable := tableSet s.KiServiceTable (entryIndex env s R) (env.NewNt R.routine),
          OldNt := setOldNt s.OldNt R.routine (s.KiServiceTable (entryIndex env s R)) }
      else
        { s with
          KiServiceTable := tableSet s.KiServiceTable (entryIndex env s R) (env.NewNt R.routine),
          debug := s.debug ++ [Message.warningAlreadySet R.routine] } := by
  obtain ⟨h1, h2, -, -⟩ := hlaw
  cases R with
  | ByAddress f => simp only [install, HOOK_CALL, h2, entryIndex, Hooked.routine]
  | ByIndex f => simp only [install, HOOK_INDEX, h1, entryIndex, Hooked.routine]

/-- What uninstalling does over a lawful accessor. -/
theorem uninstall_eq (env : Env) (s : HookState) (R : Hooked) (hlaw : env.ssdt.Lawful) :
    uninstall env s R =
      { s with
        KiServiceTable := tableSet s.KiServiceTable (entryIndex env s R) (s.OldNt R.routine) } := by
  obtain ⟨-, -, h3, h4⟩ := hlaw
  cases R with
  | ByAddress f => simp only [uninstall, UNHOOK_CALL, h4, entryIndex, Hooked.routine]
  | ByIndex f => simp only [uninstall, UNHOOK_INDEX, h3, entryIndex, Hooked.routine]

/-! ## The install rule (C12) -/

/-- Claim C12: over the table accessor the spec describes, installing a routine `R`
(by `HOOK_CALL` or by `HOOK_INDEX`) writes `R`'s trampoline into `R`'s table
entry; with `p` the previous entry, handed back by the accessor: if `p` is not
the trampoline, `savedOriginal` of `R` becomes `p` and nothing is logged; if `p`
is the trampoline, every saved pointer stays as it was and one warning is
logged. Nothing else changes. -/
theorem install_rule (env : Env) (s : HookState) (R : Hooked) (hlaw : env.ssdt.Lawful) :
    (install env s R).KiServiceTable
        = tableSet s.KiServiceTable (entryIndex env s R) (env.NewNt R.routine)
    ∧ (install env s R).KiServiceTable (entryIndex env s R) = env.NewNt R.routine
    ∧ (s.KiServiceTable (entryIndex env s R) ≠ env.NewNt R.routine →
        (install env s R).OldNt R.routine = s.KiServiceTable (entryIndex env s R)
        ∧ (∀ g, g ≠ R.routine → (install env s R).OldNt g = s.OldNt g)
        ∧ (install env s R).debug = s.debug)
    ∧ (s.KiServiceTable (entryIndex env s R) = env.NewNt R.routine →
        (install env s R).OldNt = s.OldNt
        ∧ (install env s R).debug = s.debug ++ [Message.warningAlreadySet R.routine])
    ∧ (∀ f, (install env s R).ZwIndex f = s.ZwIndex f)
    ∧ (install env s R).ClientPID = s.ClientPID
    ∧ (install env s R).OrigKiServiceTable = s.OrigKiServiceTable := by
  rw [install_eq env s R hlaw]
  by_cases hp : s.KiServiceTable (entryIndex env s R) ≠ env.NewNt R.routine
  · rw [if_pos hp]
    refine ⟨rfl, tableSet_same _ _ _, fun _ => ⟨setOldNt_same _ _ _, ?_, rfl⟩,
      fun h => absurd h hp, fun f => by cases f <;> rfl, rfl, rfl⟩
    intro g hg
    exact setOldNt_other _ _ _ _ hg
  · rw [if_neg hp]
    refine ⟨rfl, tableSet_same _ _ _, fun h => absurd h hp, fun _ => ⟨rfl, rfl⟩,
      fun f => by cases f <;> rfl, rfl, rfl⟩


/-- Claim C12 on the sample driver: installing `CreateFile` over the original entry
`0x8000` saves it; installing `OpenThread` (by index `0x80`) over an entry that
already holds its trampoline `0x900A` keeps the saved pointer and logs the
warning. -/
theorem install_rule_witness :
    (install sampleHookEnv (sampleHookState none) (Hooked.ByAddress Routine.CreateFile)).KiServiceTable 0
        = 0x9000
    ∧ (install sampleHookEnv (sampleHookState none)
        (Hooked.ByAddress Routine.CreateFile)).OldNt Routine.CreateFile = 0x8000
    ∧ (install sampleHookEnv
        { sampleHookState none with KiServiceTable := fun _ => 0x900A }
        (Hooked.ByIndex IndexRoutine.OpenThread)).OldNt Routine.OpenThread = 0x600A
    ∧ (install sampleHookEnv
        { sampleHookState none with KiServiceTable := fun _ => 0x900A }
        (Hooked.ByIndex IndexRoutine.OpenThread)).debug
          = [Message.warningAlreadySet Routine.OpenThread] :=
  ⟨(install_rule sampleHookEnv (sampleHookState none) (Hooked.ByAddress Routine.CreateFile)
      (specSsdt_lawful _)).2.1,
   ((install_rule sampleHookEnv (sampleHookState none) (Hooked.ByAddress Routine.CreateFile)
      (specSsdt_lawful _)).2.2.1 (by decide)).1,
   congrFun ((install_rule sampleHookEnv
      { sampleHookState none with KiServiceTable := fun _ => 0x900A }
      (Hooked.ByIndex IndexRoutine.OpenThread) (specSsdt_lawful _)).2.2.2.1 (by decide)).1
      Routine.OpenThread,
   ((install_rule sampleHookEnv
      { sampleHookState none with KiServiceTable := fun _ => 0x900A }
      (Hooked.ByIndex IndexRoutine.OpenThread) (specSsdt_lawful _)).2.2.2.1 (by decide)).2⟩

/-! ## Round trip (C13) -/

/-- Claim C13 (amended): over an accessor whose modify operation writes the new
entry and returns the previous one and whose restore operation writes the old
entry it is given, for every routine `R` and every prior `savedOriginal`:
when the prior entry `e` of `R` is not `R`'s trampoline, install followed by
uninstall leaves the whole table as it was, so `R`'s entry is `e` again; when
`e` is `R`'s trampoline, it leaves in `R`'s entry the prior `savedOriginal`. -/
theorem install_uninstall_round_trip (env : Env) (s : HookState) (R : Hooked)
    (hlaw : env.ssdt.Lawful) :
    (s.KiServiceTable (entryIndex env s R) ≠ env.NewNt R.routine →
      (uninstall env (install env s R) R).KiServiceTable = s.KiServiceTable)
    ∧ (s.KiServiceTable (entryIndex env s R) = env.NewNt R.routine →
      (uninstall env (install env s R) R).KiServiceTable
        = tableSet s.KiServiceTable (entryIndex env s R) (s.OldNt R.routine)) := by
  rw [uninstall_eq env _ R hlaw, install_eq env s R hlaw]
  constructor
  · intro hp
    rw [if_pos hp]
    cases R with
    | ByAddress f => simp [entryIndex, Hooked.routine]
    | ByIndex f => cases f <;> simp [entryIndex, Hooked.routine, HookState.ZwIndex]
  · intro hp
    rw [if_neg (not_not.mpr hp)]
    cases R with
    | ByAddress f => simp [entryIndex, Hooked.routine]
    | ByIndex f => cases f <;> simp [entryIndex, Hooked.routine, HookState.ZwIndex]

/-- The amended claim C13 on the sample driver: `CreateFile` over the original entry
`0x8000`. -/
theorem install_uninstall_round_trip_witness :
    (uninstall sampleHookEnv
        (install sampleHookEnv (sampleHookState none) (Hooked.ByAddress Routine.CreateFile))
        (Hooked.ByAddress Routine.CreateFile)).KiServiceTable
      = (sampleHookState none).KiServiceTable :=
  (install_uninstall_round_trip sampleHookEnv (sampleHookState none)
    (Hooked.ByAddress Routine.CreateFile) (specSsdt_lawful _)).1 (by decide)

/-- Claim C13 fails as stated: with the accessor of the spec, when the entry of
`CreateFile` already holds its trampoline `0x9000` and the saved pointer is
still `NULL` (the driver has never installed), install followed by uninstall
leaves `NULL` in the entry, not `0x9000`. -/
theorem round_trip_lost_entry :
    (specSsdt (fun z => z - 0x1000)).Lawful
    ∧ (initialHookState (fun _ => 0x9000) 1234 none).KiServiceTable 0 = 0x9000
    ∧ (uninstall sampleHookEnv
        (install sampleHookEnv (initialHookState (fun _ => 0x9000) 1234 none)
          (Hooked.ByAddress Routine.CreateFile))
        (Hooked.ByAddress Routine.CreateFile)).KiServiceTable 0 = 0
    ∧ (uninstall sampleHookEnv
        (install sampleHookEnv (initialHookState (fun _ => 0x9000) 1234 none)
          (Hooked.ByAddress Routine.CreateFile))
        (Hooked.ByAddress Routine.CreateFile)).KiServiceTable 0 ≠ 0x9000 :=
  ⟨specSsdt_lawful _, by decide, by decide, by decide⟩


/-! ## The re-entrancy scenario (C14) -/

theorem entryIndex_install (env : Env) (s : HookState) (R R' : Hooked)
    (hlaw : env.ssdt.Lawful) :
    entryIndex env (install env s R') R = entryIndex env s R := by
  rw [install_eq env s R' hlaw]
  cases R with
  | ByAddress f => rfl
  | ByIndex f => split <;> cases f <;> rfl

/-- A plain trampoline forwards to the saved pointer whenever the call is not
routed to the snapshot. -/
theorem NewNt_savedOriginal (env : Env) (s : HookState) (f : Routine) (caller : Caller)
    (args : List Nat) (w : World)
    (hP : f ≠ Routine.OpenProcess) (hT : f ≠ Routine.OpenThread)
    (hcond : ¬ (caller.ProcessId = handleOfInt s.ClientPID ∧ s.OrigEmpty = false)) :
    NewNt env s f caller args w = some (callPointer env (s.OldNt f) args caller w) := by
  cases f <;>
    first
    | exact absurd rfl hP
    | exact absurd rfl hT
    | (simp only [NewNt, NewNtByCall, NewNtByIndex, IndexRoutine.routine]
       rw [if_neg hcond])

/-- On the path that is not routed to the snapshot, the first thing
`NewNtOpenThread` does is to call the saved pointer with its four arguments. -/
theorem NewNtOpenThread_first_call (env : Env) (s : HookState) (caller : Caller)
    (a b c d : Nat) (w : World)
    (hcond : ¬ (caller.ProcessId = handleOfInt s.ClientPID ∧ s.OrigEmpty = false)) :
    NewNtOpenThread env s caller a b c d w = none
    ∨ ∃ status w' rest, NewNtOpenThread env s caller a b c d w = some (status, w')
        ∧ w'.trace = w.trace ++ Event.call (s.OldNt Routine.OpenThread) [a, b, c, d] :: rest := by
  simp only [NewNtOpenThread]
  rw [if_neg hcond]
  simp only [callPointer]
  split
  · split
    · split
      · left; rfl
      · split
        · right; exact ⟨_, _, _, rfl, by simp only [List.append_assoc]; rfl⟩
        · split
          · right; exact ⟨_, _, _, rfl, by simp only [List.append_assoc]; rfl⟩
          · right; exact ⟨_, _, _, rfl, by simp only [List.append_assoc]; rfl⟩
    · right; exact ⟨_, _, [], rfl, rfl⟩
  · right; exact ⟨_, _, [], rfl, rfl⟩

theorem SavedNeverTrampoline_install (env : Env) (s : HookState) (R : Hooked)
    (h : SavedNeverTrampoline env s) : SavedNeverTrampoline env (install env s R) := by
  intro g
  cases R with
  | ByAddress f =>
    simp only [install, HOOK_CALL]
    split
    · simp only [setOldNt]
      split
      · next hg => subst hg; assumption
      · exact h g
    · exact h g
  | ByIndex f =>
    simp only [install, HOOK_INDEX]
    split
    · simp only [setOldNt]
      split
      · next hg => subst hg; assumption
      · exact h g
    · exact h g

theorem SavedNeverTrampoline_uninstall (env : Env) (s : HookState) (R : Hooked)
    (h : SavedNeverTrampoline env s) : SavedNeverTrampoline env (uninstall env s R) := by
  intro g
  cases R with
  | ByAddress f => exact h g
  | ByIndex f => exact h g

theorem SavedNeverTrampoline_applyHookOp (env : Env) (s : HookState) (op : HookOp)
    (h : SavedNeverTrampoline env s) : SavedNeverTrampoline env (applyHookOp env s op) := by
  cases op with
  | install R => exact SavedNeverTrampoline_install env s R h
  | uninstall R => exact SavedNeverTrampoline_uninstall env s R h
  | tableWrite i v => exact fun g => h g

theorem SavedNeverTrampoline_runHookOps (env : Env) (ops : List HookOp) :
    ∀ s : HookState, SavedNeverTrampoline env s →
      SavedNeverTrampoline env (runHookOps env s ops) := by
  induction ops with
  | nil => intro s h; exact h
  | cons op ops ih =>
    intro s h
    exact ih (applyHookOp env s op) (SavedNeverTrampoline_applyHookOp env s op h)

/-- Claim C15: whatever the table accessor does, no saved pointer `OldNt..` is the
address of its own trampoline `NewNt..`. The property holds for the globals as
initialised (every saved pointer is `NULL`, and no trampoline is at `NULL`), for
every table content; each install and each uninstall preserves it, in every
state; hence it holds after any run of installs, uninstalls and writes to the
table by other code. -/
theorem SavedNeverTrampoline_invariant (env : Env) :
    (∀ table ClientPID orig, (∀ f, env.NewNt f ≠ 0) →
        SavedNeverTrampoline env (initialHookState table ClientPID orig))
    ∧ (∀ s R, SavedNeverTrampoline env s → SavedNeverTrampoline env (install env s R))
    ∧ (∀ s R, SavedNeverTrampoline env s → SavedNeverTrampoline env (uninstall env s R))
    ∧ (∀ table ClientPID orig ops, (∀ f, env.NewNt f ≠ 0) →
        SavedNeverTrampoline env
          (runHookOps env (initialHookState table ClientPID orig) ops)) := by
  have h0 : ∀ table ClientPID orig, (∀ f, env.NewNt f ≠ 0) →
      SavedNeverTrampoline env (initialHookState table ClientPID orig) := by
    intro table ClientPID orig hnull g
    exact fun e => hnull g e.symm
  exact ⟨h0, SavedNeverTrampoline_install env, SavedNeverTrampoline_uninstall env,
    fun table ClientPID orig ops hnull =>
      SavedNeverTrampoline_runHookOps env ops _ (h0 table ClientPID orig hnull)⟩

theorem sampleHookEnv_NewNt_ne_zero (f : Routine) : sampleHookEnv.NewNt f ≠ 0 := by
  cases f <;> decide

/-- Claim C15 on the sample driver: from the initial globals, `CreateFile` is
installed over a table that already holds its trampoline `0x9000` everywhere, then
over a table another agent has written `0x9000` into again, then uninstalled;
the saved pointer of `CreateFile` stays `NULL` and is not `0x9000`. -/
theorem SavedNeverTrampoline_invariant_witness :
    (∀ f, sampleHookEnv.NewNt f ≠ 0)
    ∧ SavedNeverTrampoline sampleHookEnv
        (runHookOps sampleHookEnv (initialHookState (fun _ => 0x9000) 1234 none)
          [HookOp.install (Hooked.ByAddress Routine.CreateFile),
           HookOp.tableWrite 0 0x9000,
           HookOp.install (Hooked.ByAddress Routine.CreateFile),
           HookOp.uninstall (Hooked.ByAddress Routine.CreateFile)])
    ∧ (runHookOps sampleHookEnv (initialHookState (fun _ => 0x9000) 1234 none)
          [HookOp.install (Hooked.ByAddress Routine.CreateFile),
           HookOp.tableWrite 0 0x9000,
           HookOp.install (Hooked.ByAddress Routine.CreateFile),
           HookOp.uninstall (Hooked.ByAddress Routine.CreateFile)]).OldNt Routine.CreateFile
        = 0 :=
  ⟨sampleHookEnv_NewNt_ne_zero,
   (SavedNeverTrampoline_invariant sampleHookEnv).2.2.2 (fun _ => 0x9000) 1234 none _
      sampleHookEnv_NewNt_ne_zero,
   rfl⟩

/-! ## Routing (C16) -/

/-- A plain trampoline entered by the client while the snapshot is present calls the
entry of the snapshot. -/
theorem NewNt_snapshot (env : Env) (s : HookState) (f : Routine) (caller : Caller)
    (args : List Nat) (w : World) (orig : Table)
    (hP : f ≠ Routine.OpenProcess) (hT : f ≠ Routine.OpenThread)
    (hclient : caller.ProcessId = handleOfInt s.ClientPID)
    (horig : s.OrigKiServiceTable = some orig) :
    NewNt env s f caller args w
      = some (callPointer env (orig (snapshotIndex env s f)) args caller w) := by
  have hcond : caller.ProcessId = handleOfInt s.ClientPID ∧ s.OrigEmpty = false :=
    ⟨hclient, by simp [HookState.OrigEmpty, horig]⟩
  cases f <;>
    first
    | exact absurd rfl hP
    | exact absurd rfl hT
    | (simp only [NewNt, NewNtByCall, NewNtByIndex, IndexRoutine.routine]
       rw [if_pos hcond]
       simp only [CallOrig, CallOrigByIndex, horig, snapshotIndex, HookState.ZwIndex])

theorem callPointer_spec (env : Env) (target : PVOID) (args : List Nat) (caller : Caller)
    (w : World) :
    (callPointer env target args caller w).1 = (env.invoke target args caller w.kernel).1
    ∧ (callPointer env target args caller w).2.kernel
        = (env.invoke target args caller w.kernel).2
    ∧ (callPointer env target args caller w).2.trace = w.trace ++ [Event.call target args] :=
  ⟨rfl, rfl, rfl⟩

/-- Claim C16: for a routine `f` other than open-process and open-thread, any caller,
any argument list and any world, the trampoline returns. When the caller's
process id is `ClientPID` and the snapshot is present it makes one call, to the
entry of the snapshot at the index of `f` (`SYSCALL_INDEX(Zw f)`, or the variable
`Zw..Index` for the six routines hooked by index); otherwise it makes one call,
to the saved pointer `OldNt f`. In both cases the call receives the argument list
as given and the trampoline returns the status and the kernel state the called
code returns. -/
theorem NewNt_routing (env : Env) (s : HookState) (f : Routine) (caller : Caller)
    (args : List Nat) (w : World)
    (hP : f ≠ Routine.OpenProcess) (hT : f ≠ Routine.OpenThread) :
    (∀ orig, caller.ProcessId = handleOfInt s.ClientPID → s.OrigKiServiceTable = some orig →
        NewNt env s f caller args w
          = some ((env.invoke (orig (snapshotIndex env s f)) args caller w.kernel).1,
              { kernel := (env.invoke (orig (snapshotIndex env s f)) args caller w.kernel).2,
                trace := w.trace ++ [Event.call (orig (snapshotIndex env s f)) args] }))
    ∧ ((caller.ProcessId ≠ handleOfInt s.ClientPID ∨ s.OrigKiServiceTable = none) →
        NewNt env s f caller args w
          = some ((env.invoke (s.OldNt f) args caller w.kernel).1,
              { kernel := (env.invoke (s.OldNt f) args caller w.kernel).2,
                trace := w.trace ++ [Event.call (s.OldNt f) args] })) := by
  constructor
  · intro orig hclient horig
    rw [NewNt_snapshot env s f caller args w orig hP hT hclient horig]
    rfl
  · intro h
    have hcond : ¬ (caller.ProcessId = handleOfInt s.ClientPID ∧ s.OrigEmpty = false) := by
      rintro ⟨h1, h2⟩
      rcases h with h | h
      · exact h h1
      · simp [HookState.OrigEmpty, h] at h2
    rw [NewNt_savedOriginal env s f caller args w hP hT hcond]
    rfl

/-- Claim C16 on the sample driver, `ClientPID = 1234` with the snapshot present:
`NtCreateFile` called by process 1234 goes to the snapshot entry `0x8000`, the
same call by process 999 goes to the saved pointer `0x6000`; `NtTerminateThread`,
hooked by index `0x102`, goes to the snapshot entry `0x8102` for process 1234. The
sample code at a pointer returns the pointer as its status. -/
theorem NewNt_routing_witness :
    (NewNt sampleHookEnv (sampleHookState (some sampleSnapshot)) Routine.CreateFile
        { ProcessId := 1234, IsSystemThread := false } [7, 8, 9] sampleWorld).map
      (fun r => (r.1, r.2.trace))
      = some (0x8000, [Event.call 0x8000 [7, 8, 9]])
    ∧ (NewNt sampleHookEnv (sampleHookState (some sampleSnapshot)) Routine.CreateFile
        { ProcessId := 999, IsSystemThread := false } [7, 8, 9] sampleWorld).map
      (fun r => (r.1, r.2.trace))
      = some (0x6000, [Event.call 0x6000 [7, 8, 9]])
    ∧ (NewNt sampleHookEnv (sampleHookState (some sampleSnapshot)) Routine.TerminateThread
        { ProcessId := 1234, IsSystemThread := false } [7, 8] sampleWorld).map
      (fun r => (r.1, r.2.trace))
      = some (0x8102, [Event.call 0x8102 [7, 8]]) :=
  ⟨by rw [(NewNt_routing sampleHookEnv (sampleHookState (some sampleSnapshot))
        Routine.CreateFile { ProcessId := 1234, IsSystemThread := false } [7, 8, 9] sampleWorld
        (by decide) (by decide)).1 sampleSnapshot rfl rfl]; rfl,
   by rw [(NewNt_routing sampleHookEnv (sampleHookState (some sampleSnapshot))
        Routine.CreateFile { ProcessId := 999, IsSystemThread := false } [7, 8, 9] sampleWorld
        (by decide) (by decide)).2 (Or.inl (by decide))]; rfl,
   by rw [(NewNt_routing sampleHookEnv (sampleHookState (some sampleSnapshot))
        Routine.TerminateThread { ProcessId := 1234, IsSystemThread := false } [7, 8]
        sampleWorld (by decide) (by decide)).1 sampleSnapshot rfl rfl]; rfl⟩

/-! ## The guard of `NewNtOpenProcess` (C17) -/

/-- Claim C17: with `PROTECT_CLIENT` defined, take a call of `NewNtOpenProcess`.
When the caller is neither the client process nor a system thread: if the probe
of `ClientId` or the read of `ClientId->UniqueProcess` faults, the result is
`STATUS_ACCESS_VIOLATION`; if the target read is `ClientPID`, the result is
`STATUS_NOT_IMPLEMENTED`; in both cases the world is returned as it was (no call
is made, the handle table and the memory are untouched); if the target read is
another process, the call is routed as `NewNtByCall` routes any other routine.
When the caller is the client process or a system thread, the call is routed as
`NewNtByCall` routes it, whatever `ClientId` is. -/
theorem NewNtOpenProcess_guard (env : Env) (s : HookState) (caller : Caller)
    (ProcessHandle DesiredAccess ObjectAttributes ClientId : Nat) (w : World)
    (hprot : env.PROTECT_CLIENT = true) :
    (caller.ProcessId ≠ handleOfInt s.ClientPID → caller.IsSystemThread = false →
      ((env.ProbeForRead w.kernel ClientId env.sizeofCLIENT_ID 1 = false
          ∨ w.kernel.memory ClientId = none) →
        NewNtOpenProcess env s caller ProcessHandle DesiredAccess ObjectAttributes ClientId w
          = some (STATUS_ACCESS_VIOLATION, w))
      ∧ (env.ProbeForRead w.kernel ClientId env.sizeofCLIENT_ID 1 = true →
          w.kernel.memory ClientId = some (handleOfInt s.ClientPID) →
        NewNtOpenProcess env s caller ProcessHandle DesiredAccess ObjectAttributes ClientId w
          = some (STATUS_NOT_IMPLEMENTED, w))
      ∧ (∀ UniqueProcess, env.ProbeForRead w.kernel ClientId env.sizeofCLIENT_ID 1 = true →
          w.kernel.memory ClientId = some UniqueProcess →
          UniqueProcess ≠ handleOfInt s.ClientPID →
        NewNtOpenProcess env s caller ProcessHandle DesiredAccess ObjectAttributes ClientId w
          = NewNtByCall env s Routine.OpenProcess caller
              [ProcessHandle, DesiredAccess, ObjectAttributes, ClientId] w))
    ∧ ((caller.ProcessId = handleOfInt s.ClientPID ∨ caller.IsSystemThread = true) →
        NewNtOpenProcess env s caller ProcessHandle DesiredAccess ObjectAttributes ClientId w
          = NewNtByCall env s Routine.OpenProcess caller
              [ProcessHandle, DesiredAccess, ObjectAttributes, ClientId] w) := by
  constructor
  · intro hpid hsys
    have hg : env.PROTECT_CLIENT = true ∧ caller.ProcessId ≠ handleOfInt s.ClientPID
        ∧ caller.IsSystemThread = false := ⟨hprot, hpid, hsys⟩
    refine ⟨?_, ?_, ?_⟩
    · intro hfault
      simp only [NewNtOpenProcess]
      rw [if_pos hg]
      rcases hfault with hf | hf
      · simp [hf]
      · simp [hf]
    · intro hprobe hmem
      simp only [NewNtOpenProcess]
      rw [if_pos hg]
      simp [hprobe, hmem]
    · intro UniqueProcess hprobe hmem hne
      simp only [NewNtOpenProcess]
      rw [if_pos hg]
      simp [hprobe, hmem, hne, NewNtByCall]
  · intro h
    have hg : ¬ (env.PROTECT_CLIENT = true ∧ caller.ProcessId ≠ handleOfInt s.ClientPID
        ∧ caller.IsSystemThread = false) := by
      rintro ⟨_, h1, h2⟩
      rcases h with h | h
      · exact h1 h
      · rw [h2] at h; exact Bool.false_ne_true h
    simp only [NewNtOpenProcess]
    rw [if_neg hg]
    simp [NewNtByCall]

/-- Claim C17 on the sample driver, `ClientPID = 1234`, for a caller of process
999: a `CLIENT_ID` at the unreadable address `0x900` gives
`STATUS_ACCESS_VIOLATION`, the `CLIENT_ID` at `0x600`, which names process 1234,
gives `STATUS_NOT_IMPLEMENTED`, both with no call made; the `CLIENT_ID` at
`0x700`, which names process 999, is forwarded to the saved pointer `0x6009`. The
client itself opening process 1234 is forwarded to the snapshot entry `0x8009`. -/
theorem NewNtOpenProcess_guard_witness :
    sampleHookEnv.PROTECT_CLIENT = true
    ∧ (NewNtOpenProcess sampleHookEnv (sampleHookState (some sampleSnapshot))
        { ProcessId := 999, IsSystemThread := false } 0x500 1 0 0x900 sampleWorld).map
      (fun r => (r.1, r.2.trace, r.2.kernel.handleTable))
      = some (STATUS_ACCESS_VIOLATION, [], [])
    ∧ (NewNtOpenProcess sampleHookEnv (sampleHookState (some sampleSnapshot))
        { ProcessId := 999, IsSystemThread := false } 0x500 1 0 0x600 sampleWorld).map
      (fun r => (r.1, r.2.trace, r.2.kernel.handleTable))
      = some (STATUS_NOT_IMPLEMENTED, [], [])
    ∧ (NewNtOpenProcess sampleHookEnv (sampleHookState (some sampleSnapshot))
        { ProcessId := 999, IsSystemThread := false } 0x500 1 0 0x700 sampleWorld).map
      (fun r => (r.1, r.2.trace))
      = some (0x6009, [Event.call 0x6009 [0x500, 1, 0, 0x700]])
    ∧ (NewNtOpenProcess sampleHookEnv (sampleHookState (some sampleSnapshot))
        { ProcessId := 1234, IsSystemThread := false } 0x500 1 0 0x600 sampleWorld).map
      (fun r => (r.1, r.2.trace))
      = some (0x8009, [Event.call 0x8009 [0x500, 1, 0, 0x600]]) :=
  ⟨rfl,
   by rw [((NewNtOpenProcess_guard sampleHookEnv (sampleHookState (some sampleSnapshot))
        { ProcessId := 999, IsSystemThread := false } 0x500 1 0 0x900 sampleWorld rfl).1
        (by decide) rfl).1 (Or.inr rfl)]; rfl,
   by rw [((NewNtOpenProcess_guard sampleHookEnv (sampleHookState (some sampleSnapshot))
        { ProcessId := 999, IsSystemThread := false } 0x500 1 0 0x600 sampleWorld rfl).1
        (by decide) rfl).2.1 (by decide) rfl]; rfl,
   by rw [((NewNtOpenProcess_guard sampleHookEnv (sampleHookState (some sampleSnapshot))
        { ProcessId := 999, IsSystemThread := false } 0x500 1 0 0x700 sampleWorld rfl).1
        (by decide) rfl).2.2 999 (by decide) rfl (by decide)]; rfl,
   by rw [(NewNtOpenProcess_guard sampleHookEnv (sampleHookState (some sampleSnapshot))
        { ProcessId := 1234, IsSystemThread := false } 0x500 1 0 0x600 sampleWorld rfl).2
        (Or.inl rfl)]; rfl⟩

/-! ## The policy of `NewNtOpenThread` (C18) -/

/-- Claim C18: with `PROTECT_CLIENT` defined, take a call of `NewNtOpenThread` that is
not routed to the snapshot, and let the saved pointer `OldNtOpenThread` return
`status` and leave the world `w1`. If `status` is not `STATUS_SUCCESS` or the
caller is a system thread, the result is `status` and `w1`. Otherwise the handle
stored in `*ThreadHandle` is looked up once: if the lookup fails, its status is
the result and nothing is released; if the thread belongs to the client
process, the result is `STATUS_NOT_IMPLEMENTED`, `*ThreadHandle` is 0 and the
rest of the kernel state is that of `w1`; if not, the result is
`STATUS_SUCCESS` and the kernel state is that of `w1`, the stored handle
included. On both of the last two branches the object is released by exactly one
`ObDereferenceObject`, after the lookup. -/
theorem NewNtOpenThread_policy (env : Env) (s : HookState) (caller : Caller)
    (ThreadHandle DesiredAccess ObjectAttributes ClientId : Nat) (w : World)
    (status : KphRef.NTSTATUS) (w1 : World)
    (hprot : env.PROTECT_CLIENT = true)
    (hpath : ¬ (caller.ProcessId = handleOfInt s.ClientPID ∧ s.OrigEmpty = false))
    (hopen : callPointer env (s.OldNt Routine.OpenThread)
        [ThreadHandle, DesiredAccess, ObjectAttributes, ClientId] caller w = (status, w1)) :
    ((status ≠ KphRef.STATUS_SUCCESS ∨ caller.IsSystemThread = true) →
        NewNtOpenThread env s caller ThreadHandle DesiredAccess ObjectAttributes ClientId w
          = some (status, w1))
    ∧ (status = KphRef.STATUS_SUCCESS → caller.IsSystemThread = false →
        ∀ handle status2 eThread,
          w1.kernel.memory ThreadHandle = some handle →
          env.ObReferenceObjectByHandle w1.kernel caller handle = (status2, eThread) →
          (status2 ≠ KphRef.STATUS_SUCCESS →
            NewNtOpenThread env s caller ThreadHandle DesiredAccess ObjectAttributes ClientId w
              = some (status2,
                  { kernel := w1.kernel,
                    trace := w1.trace
                      ++ [Event.ObReferenceObjectByHandle handle status2 eThread] }))
          ∧ (status2 = KphRef.STATUS_SUCCESS →
              env.threadProcessId w1.kernel eThread = handleOfInt s.ClientPID →
            NewNtOpenThread env s caller ThreadHandle DesiredAccess ObjectAttributes ClientId w
              = some (STATUS_NOT_IMPLEMENTED,
                  { kernel :=
                      { memory := fun a => if a = ThreadHandle then some 0
                                           else w1.kernel.memory a,
                        handleTable := w1.kernel.handleTable },
                    trace := w1.trace
                      ++ [Event.ObReferenceObjectByHandle handle status2 eThread,
                          Event.ObDereferenceObject eThread] }))
          ∧ (status2 = KphRef.STATUS_SUCCESS →
              env.threadProcessId w1.kernel eThread ≠ handleOfInt s.ClientPID →
            NewNtOpenThread env s caller ThreadHandle DesiredAccess ObjectAttributes ClientId w
              = some (KphRef.STATUS_SUCCESS,
                  { kernel := w1.kernel,
                    trace := w1.trace
                      ++ [Event.ObReferenceObjectByHandle handle status2 eThread,
                          Event.ObDereferenceObject eThread] }))) := by
  constructor
  · intro h
    have hc : ¬ (status = KphRef.STATUS_SUCCESS ∧ caller.IsSystemThread = false) := by
      rintro ⟨h1, h2⟩
      rcases h with h | h
      · exact h h1
      · rw [h2] at h; exact Bool.false_ne_true h
    simp only [NewNtOpenThread]
    rw [if_neg hpath, hopen]
    simp only [hprot, if_true]
    rw [if_neg hc]
  · intro hs hsys handle status2 eThread hmem hob
    have hc : status = KphRef.STATUS_SUCCESS ∧ caller.IsSystemThread = false := ⟨hs, hsys⟩
    refine ⟨?_, ?_, ?_⟩
    · intro h2
      simp only [NewNtOpenThread]
      rw [if_neg hpath, hopen]
      simp only [hprot, if_true]
      rw [if_pos hc]
      simp only [hmem, hob]
      rw [if_pos h2]
    · intro h2 hown
      simp only [NewNtOpenThread]
      rw [if_neg hpath, hopen]
      simp only [hprot, if_true]
      rw [if_pos hc]
      simp only [hmem, hob]
      rw [if_neg (not_not.mpr h2), if_pos hown]
      simp
    · intro h2 hown
      simp only [NewNtOpenThread]
      rw [if_neg hpath, hopen]
      simp only [hprot, if_true]
      rw [if_pos hc]
      simp only [hmem, hob]
      rw [if_neg (not_not.mpr h2), if_neg hown]
      simp

/-- Claim C18 on the sample driver, `ClientPID = 1234`: process 999 opens the thread
`0x7000` of process 1234 through the saved pointer `0x600A`, which succeeds and
stores the handle `0x44` at `0x500`. The trampoline returns
`STATUS_NOT_IMPLEMENTED`, the word at `0x500` is 0, and the calls made are the
open, one lookup of handle `0x44` and one release of the object `0x7000`. -/
theorem NewNtOpenThread_policy_witness :
    (NewNtOpenThread sampleHookEnv (sampleHookState (some sampleSnapshot))
        { ProcessId := 999, IsSystemThread := false } 0x500 1 0 0x600 sampleWorld).map
      (fun r => (r.1, r.2.kernel.memory 0x500, r.2.trace))
      = some (STATUS_NOT_IMPLEMENTED, some 0,
          [Event.call 0x600A [0x500, 1, 0, 0x600],
           Event.ObReferenceObjectByHandle 0x44 KphRef.STATUS_SUCCESS 0x7000,
           Event.ObDereferenceObject 0x7000]) := by
  rw [((NewNtOpenThread_policy sampleHookEnv (sampleHookState (some sampleSnapshot))
      { ProcessId := 999, IsSystemThread := false } 0x500 1 0 0x600 sampleWorld
      KphRef.STATUS_SUCCESS
      (callPointer sampleHookEnv 0x600A [0x500, 1, 0, 0x600]
        { ProcessId := 999, IsSystemThread := false } sampleWorld).2
      rfl (by decide) rfl).2 rfl rfl 0x44 KphRef.STATUS_SUCCESS 0x7000 rfl rfl).2.1 rfl rfl]
  rfl

/-! ## The handle of a denied open (C19) -/

/-- Whatever the kernel is, when `NewNtOpenThread` denies a call the handle table is
the one the underlying open left: the trampoline releases the object reference
and zeroes `*ThreadHandle`, and closes nothing. -/
theorem NewNtOpenThread_denied_handleTable (env : Env) (s : HookState) (caller : Caller)
    (ThreadHandle DesiredAccess ObjectAttributes ClientId : Nat) (w w' : World)
    (hpath : ¬ (caller.ProcessId = handleOfInt s.ClientPID ∧ s.OrigEmpty = false))
    (hdeny : NewNtOpenThread env s caller ThreadHandle DesiredAccess ObjectAttributes ClientId w
      = some (STATUS_NOT_IMPLEMENTED, w')) :
    w'.kernel.handleTable
      = (env.invoke (s.OldNt Routine.OpenThread)
          [ThreadHandle, DesiredAccess, ObjectAttributes, ClientId] caller
          w.kernel).2.handleTable := by
  simp only [NewNtOpenThread] at hdeny
  rw [if_neg hpath] at hdeny
  simp only [callPointer] at hdeny
  split at hdeny
  · split at hdeny
    · split at hdeny
      · exact absurd hdeny (by simp)
      · split at hdeny
        · simp only [Option.some.injEq, Prod.mk.injEq] at hdeny
          rw [← hdeny.2]
        · split at hdeny
          · simp only [Option.some.injEq, Prod.mk.injEq] at hdeny
            rw [← hdeny.2]
          · simp only [Option.some.injEq, Prod.mk.injEq] at hdeny
            rw [← hdeny.2]
    · simp only [Option.some.injEq, Prod.mk.injEq] at hdeny
      rw [← hdeny.2]
  · simp only [Option.some.injEq, Prod.mk.injEq] at hdeny
    rw [← hdeny.2]

/-- Claim C19, the failing call: on the sample driver (`ClientPID = 1234`,
`PROTECT_CLIENT` defined) process 999, which holds no handle, opens the thread
`0x7000` of process 1234 with `ThreadHandle = 0x500`. `NewNtOpenThread` denies the
call with `STATUS_NOT_IMPLEMENTED` and zeroes the word at `0x500`, but the handle
`0x44` to the thread `0x7000` that the underlying open created is still in the
handle table of the caller, and it still resolves to that thread. -/
theorem NewNtOpenThread_denied_handle_stays_open :
    sampleWorld.kernel.handleTable = []
    ∧ (NewNtOpenThread sampleHookEnv (sampleHookState (some sampleSnapshot))
        { ProcessId := 999, IsSystemThread := false } 0x500 1 0 0x600 sampleWorld).map
      (fun r => (r.1, r.2.kernel.memory 0x500, r.2.kernel.handleTable,
        sampleHookEnv.ObReferenceObjectByHandle r.2.kernel
          { ProcessId := 999, IsSystemThread := false } 0x44,
        sampleHookEnv.threadProcessId r.2.kernel 0x7000))
      = some (STATUS_NOT_IMPLEMENTED, some 0, [(0x44, 0x7000)],
          (KphRef.STATUS_SUCCESS, 0x7000), 1234) :=
  ⟨rfl, rfl⟩

/-! ## The client opening its own thread (C20) -/

/-- Claim C20, the failing call: on the sample driver (`ClientPID = 1234`,
`PROTECT_CLIENT` defined) a thread of process 1234 that is not a system thread
opens the thread `0x7000` of process 1234 with `ThreadHandle = 0x500`, and the
underlying open succeeds with the handle `0x44`. With the snapshot present the
trampoline returns `STATUS_SUCCESS` and leaves `0x44` at `0x500`; with the
snapshot absent the same call returns `STATUS_NOT_IMPLEMENTED` and the word at
`0x500` is 0. -/
theorem NewNtOpenThread_client_denied_without_snapshot :
    (NewNtOpenThread sampleHookEnv (sampleHookState (some sampleSnapshot))
        { ProcessId := 1234, IsSystemThread := false } 0x500 1 0 0x600 sampleWorld).map
      (fun r => (r.1, r.2.kernel.memory 0x500, r.2.trace))
      = some (KphRef.STATUS_SUCCESS, some 0x44, [Event.call 0x8080 [0x500, 1, 0, 0x600]])
    ∧ (NewNtOpenThread sampleHookEnv (sampleHookState none)
        { ProcessId := 1234, IsSystemThread := false } 0x500 1 0 0x600 sampleWorld).map
      (fun r => (r.1, r.2.kernel.memory 0x500, r.2.trace))
      = some (STATUS_NOT_IMPLEMENTED, some 0,
          [Event.call 0x600A [0x500, 1, 0, 0x600],
           Event.ObReferenceObjectByHandle 0x44 KphRef.STATUS_SUCCESS 0x7000,
           Event.ObDereferenceObject 0x7000])
    ∧ (sampleHookEnv.invoke ((sampleHookState none).OldNt Routine.OpenThread)
        [0x500, 1, 0, 0x600] { ProcessId := 1234, IsSystemThread := false }
        sampleWorld.kernel).1 = KphRef.STATUS_SUCCESS :=
  ⟨rfl, rfl, rfl⟩

/-! ## `KPHHook` and `KPHUnhook`: what a run keeps -/

theorem install_ZwIndex (env : Env) (s : HookState) (R : Hooked) (f : IndexRoutine) :
    (install env s R).ZwIndex f = s.ZwIndex f := by
  cases R <;> simp only [install, HOOK_CALL, HOOK_INDEX] <;> split <;> cases f <;> rfl

theorem uninstall_ZwIndex (env : Env) (s : HookState) (R : Hooked) (f : IndexRoutine) :
    (uninstall env s R).ZwIndex f = s.ZwIndex f := by
  cases R <;> cases f <;> rfl

theorem uninstall_OldNt (env : Env) (s : HookState) (R : Hooked) :
    (uninstall env s R).OldNt = s.OldNt := by
  cases R <;> rfl

/-- The two statements of a hook macro, run one after the other, are the macro:
the globals they leave are those of `HOOK_CALL` or `HOOK_INDEX`. -/
theorem modifyEntry_saveOriginal_state (env : Env) (r : HookRun) (R : Hooked) :
    ((r.modifyEntry env R).saveOriginal env R.routine).state = install env r.state R := by
  cases R with
  | ByAddress f =>
    simp only [HookRun.modifyEntry, HookRun.saveOriginal, install, HOOK_CALL, Hooked.routine]
    split <;> rfl
  | ByIndex f =>
    simp only [HookRun.modifyEntry, HookRun.saveOriginal, install, HOOK_INDEX, Hooked.routine]
    split <;> rfl

/-- `HOOK_CALL(f);` in `KPHHook` leaves the globals of the macro `HOOK_CALL`. -/
theorem hook_state (env : Env) (r : HookRun) (f : Routine) :
    (r.hook env f).state = HOOK_CALL env r.state f :=
  modifyEntry_saveOriginal_state env r (Hooked.ByAddress f)

/-- With an index that is not 0, the guarded `HOOK_INDEX(f);` leaves the globals of
the macro `HOOK_INDEX`. -/
theorem hookIndex_state_of_ne_zero (env : Env) (r : HookRun) (f : IndexRoutine)
    (hz : r.state.ZwIndex f ≠ 0) :
    (r.hookIndex env f).state = HOOK_INDEX env r.state f := by
  unfold HookRun.hookIndex
  rw [if_pos hz]
  exact modifyEntry_saveOriginal_state env r (Hooked.ByIndex f)

/-- With an index of 0, the guarded `HOOK_INDEX(f);` is the second statement of the
macro alone. -/
theorem hookIndex_of_zero (env : Env) (r : HookRun) (f : IndexRoutine)
    (hz : r.state.ZwIndex f = 0) :
    r.hookIndex env f = r.saveOriginal env f.routine := by
  unfold HookRun.hookIndex
  rw [if_neg (not_not.mpr hz)]

theorem saveOriginal_keeps (env : Env) (r : HookRun) (f : Routine) :
    (r.saveOriginal env f).calls = r.calls
    ∧ (r.saveOriginal env f).temp = r.temp
    ∧ (r.saveOriginal env f).state.KiServiceTable = r.state.KiServiceTable
    ∧ (r.saveOriginal env f).state.ZwIndex = r.state.ZwIndex
    ∧ (r.temp ≠ env.NewNt f → (r.saveOriginal env f).state.OldNt f = r.temp)
    ∧ (∀ g, g ≠ f → (r.saveOriginal env f).state.OldNt g = r.state.OldNt g) := by
  unfold HookRun.saveOriginal
  split
  · next h =>
    exact ⟨rfl, rfl, rfl, by funext g; cases g <;> rfl, fun _ => setOldNt_same _ _ _,
      fun g hg => setOldNt_other _ _ _ _ hg⟩
  · next h =>
    exact ⟨rfl, rfl, rfl, by funext g; cases g <;> rfl, fun h' => absurd h' h, fun _ _ => rfl⟩

theorem modifyEntry_keeps (env : Env) (r : HookRun) (R : Hooked) :
    (r.modifyEntry env R).calls = r.calls ++ [R]
    ∧ (r.modifyEntry env R).state.ZwIndex = r.state.ZwIndex
    ∧ (r.modifyEntry env R).state.OldNt = r.state.OldNt := by
  cases R with
  | ByAddress f =>
    refine ⟨by simp [HookRun.modifyEntry], ?_, by simp [HookRun.modifyEntry]⟩
    funext g
    cases g <;> simp [HookRun.modifyEntry, HookState.ZwIndex]
  | ByIndex f =>
    refine ⟨by simp [HookRun.modifyEntry], ?_, by simp [HookRun.modifyEntry]⟩
    funext g
    cases g <;> simp [HookRun.modifyEntry, HookState.ZwIndex]

/-- The slip of the guarded `HOOK_INDEX`, for any kernel: when the index of `f` is 0
and the value left in `temp` by the last table write is not the trampoline of
`f`, the saved pointer of `f` becomes that value, although no table entry is
written and nothing is recorded for `f`. -/
theorem hookIndex_zero_saves_temp (env : Env) (r : HookRun) (f : IndexRoutine)
    (hz : r.state.ZwIndex f = 0) (hne : r.temp ≠ env.NewNt f.routine) :
    (r.hookIndex env f).state.OldNt f.routine = r.temp
    ∧ (r.hookIndex env f).state.KiServiceTable = r.state.KiServiceTable
    ∧ (r.hookIndex env f).calls = r.calls := by
  rw [hookIndex_of_zero env r f hz]
  have h := saveOriginal_keeps env r f.routine
  exact ⟨h.2.2.2.2.1 hne, h.2.2.1, h.1⟩

theorem dprintf_ZwIndex (r : HookRun) (m : Message) :
    (r.dprintf m).state.ZwIndex = r.state.ZwIndex := by
  funext f
  cases f <;> rfl

theorem unhook_dprintf_ZwIndex (r : UnhookRun) (m : Message) :
    (r.dprintf m).state.ZwIndex = r.state.ZwIndex := by
  funext f
  cases f <;> rfl

theorem hook_keeps (env : Env) (r : HookRun) (f : Routine) :
    (r.hook env f).calls = r.calls ++ [Hooked.ByAddress f]
    ∧ (r.hook env f).state.ZwIndex = r.state.ZwIndex := by
  unfold HookRun.hook
  have h1 := saveOriginal_keeps env (r.modifyEntry env (Hooked.ByAddress f)) f
  have h2 := modifyEntry_keeps env r (Hooked.ByAddress f)
  exact ⟨h1.1.trans h2.1, h1.2.2.2.1.trans h2.2.1⟩

theorem hookIndex_keeps (env : Env) (r : HookRun) (f : IndexRoutine) :
    (r.hookIndex env f).calls = r.calls ++ indexPlan r.state.ZwIndex f
    ∧ (r.hookIndex env f).state.ZwIndex = r.state.ZwIndex := by
  unfold HookRun.hookIndex indexPlan
  split
  · have h1 := saveOriginal_keeps env (r.modifyEntry env (Hooked.ByIndex f)) f.routine
    have h2 := modifyEntry_keeps env r (Hooked.ByIndex f)
    exact ⟨h1.1.trans h2.1, h1.2.2.2.1.trans h2.2.1⟩
  · have h1 := saveOriginal_keeps env r f.routine
    exact ⟨h1.1.trans (by simp), h1.2.2.2.1⟩

theorem unhook_keeps (env : Env) (r : UnhookRun) (R : Hooked) :
    (r.unhook env R).calls = r.calls ++ [R]
    ∧ (r.unhook env R).state.ZwIndex = r.state.ZwIndex
    ∧ (r.unhook env R).state.OldNt = r.state.OldNt :=
  ⟨rfl, funext (uninstall_ZwIndex env r.state R), uninstall_OldNt env r.state R⟩

theorem unhookIndex_keeps (env : Env) (r : UnhookRun) (f : IndexRoutine) :
    (r.unhookIndex env f).calls = r.calls ++ indexPlan r.state.ZwIndex f
    ∧ (r.unhookIndex env f).state.ZwIndex = r.state.ZwIndex
    ∧ (r.unhookIndex env f).state.OldNt = r.state.OldNt := by
  unfold UnhookRun.unhookIndex indexPlan
  split
  · exact unhook_keeps env r (Hooked.ByIndex f)
  · exact ⟨by simp, rfl, rfl⟩

/-- The record of table writes of the four blocks of `KPHHook` in closed form; the
blocks leave the six indices as they find them. -/
theorem hookBlocks_calls (env : Env) (r0 : HookRun) :
    (hookInformationFunctions env (hookProcessFunctions env
        (hookKeyFunctions env (hookFileFunctions env r0)))).calls
      = r0.calls ++ hookPlan env r0.state.ZwIndex
    ∧ (hookInformationFunctions env (hookProcessFunctions env
        (hookKeyFunctions env (hookFileFunctions env r0)))).state.ZwIndex
      = r0.state.ZwIndex := by
  have hHc : ∀ (r : HookRun) (f : Routine),
      (r.hook env f).calls = r.calls ++ [Hooked.ByAddress f] := fun r f => (hook_keeps env r f).1
  have hHz : ∀ (r : HookRun) (f : Routine), (r.hook env f).state.ZwIndex = r.state.ZwIndex :=
    fun r f => (hook_keeps env r f).2
  have hIc : ∀ (r : HookRun) (f : IndexRoutine),
      (r.hookIndex env f).calls = r.calls ++ indexPlan r.state.ZwIndex f :=
    fun r f => (hookIndex_keeps env r f).1
  have hIz : ∀ (r : HookRun) (f : IndexRoutine),
      (r.hookIndex env f).state.ZwIndex = r.state.ZwIndex := fun r f => (hookIndex_keeps env r f).2
  have hDz := dprintf_ZwIndex
  have hDc : ∀ (r : HookRun) (m : Message), (r.dprintf m).calls = r.calls := fun _ _ => rfl
  have hF : ∀ r, (hookFileFunctions env r).calls = r.calls ++ filePlan env
      ∧ (hookFileFunctions env r).state.ZwIndex = r.state.ZwIndex := by
    intro r
    unfold hookFileFunctions filePlan
    split
    · simp [hHc, hDc, hHz, hDz]
    · simp
  have hK : ∀ r, (hookKeyFunctions env r).calls = r.calls ++ keyPlan env
      ∧ (hookKeyFunctions env r).state.ZwIndex = r.state.ZwIndex := by
    intro r
    unfold hookKeyFunctions keyPlan
    split
    · simp [hHc, hDc, hHz, hDz]
    · simp
  have hP : ∀ r, (hookProcessFunctions env r).calls = r.calls ++ processPlan env r.state.ZwIndex
      ∧ (hookProcessFunctions env r).state.ZwIndex = r.state.ZwIndex := by
    intro r
    unfold hookProcessFunctions processPlan
    split
    · simp [hHc, hDc, hHz, hDz, hIz, hIc]
    · simp
  have hN : ∀ r, (hookInformationFunctions env r).calls
        = r.calls ++ informationPlan env r.state.ZwIndex
      ∧ (hookInformationFunctions env r).state.ZwIndex = r.state.ZwIndex := by
    intro r
    unfold hookInformationFunctions informationPlan
    split
    · simp [hHc, hDc, hHz, hDz, hIz, hIc]
    · simp
  constructor
  · simp only [fun r => (hN r).1, fun r => (hP r).1, fun r => (hK r).1, fun r => (hF r).1,
      fun r => (hP r).2, fun r => (hK r).2, fun r => (hF r).2, hookPlan, List.append_assoc]
  · simp only [fun r => (hN r).2, fun r => (hP r).2, fun r => (hK r).2, fun r => (hF r).2]

/-- The record of table writes of the four blocks of `KPHUnhook` in closed form; the
blocks leave the six indices and every saved pointer as they find them. -/
theorem unhookBlocks_calls (env : Env) (r0 : UnhookRun) :
    (unhookInformationFunctions env (unhookProcessFunctions env
        (unhookKeyFunctions env (unhookFileFunctions env r0)))).calls
      = r0.calls ++ hookPlan env r0.state.ZwIndex
    ∧ (unhookInformationFunctions env (unhookProcessFunctions env
        (unhookKeyFunctions env (unhookFileFunctions env r0)))).state.ZwIndex
      = r0.state.ZwIndex
    ∧ (unhookInformationFunctions env (unhookProcessFunctions env
        (unhookKeyFunctions env (unhookFileFunctions env r0)))).state.OldNt
      = r0.state.OldNt := by
  have hHc : ∀ (r : UnhookRun) (R : Hooked), (r.unhook env R).calls = r.calls ++ [R] :=
    fun _ _ => rfl
  have hHz : ∀ (r : UnhookRun) (R : Hooked), (r.unhook env R).state.ZwIndex = r.state.ZwIndex :=
    fun r R => (unhook_keeps env r R).2.1
  have hHo : ∀ (r : UnhookRun) (R : Hooked), (r.unhook env R).state.OldNt = r.state.OldNt :=
    fun r R => (unhook_keeps env r R).2.2
  have hIc : ∀ (r : UnhookRun) (f : IndexRoutine),
      (r.unhookIndex env f).calls = r.calls ++ indexPlan r.state.ZwIndex f :=
    fun r f => (unhookIndex_keeps env r f).1
  have hIz : ∀ (r : UnhookRun) (f : IndexRoutine),
      (r.unhookIndex env f).state.ZwIndex = r.state.ZwIndex :=
    fun r f => (unhookIndex_keeps env r f).2.1
  have hIo : ∀ (r : UnhookRun) (f : IndexRoutine),
      (r.unhookIndex env f).state.OldNt = r.state.OldNt :=
    fun r f => (unhookIndex_keeps env r f).2.2
  have hDz := unhook_dprintf_ZwIndex
  have hDc : ∀ (r : UnhookRun) (m : Message), (r.dprintf m).calls = r.calls := fun _ _ => rfl
  have hDo : ∀ (r : UnhookRun) (m : Message), (r.dprintf m).state.OldNt = r.state.OldNt :=
    fun _ _ => rfl
  have hF : ∀ r, (unhookFileFunctions env r).calls = r.calls ++ filePlan env
      ∧ (unhookFileFunctions env r).state.ZwIndex = r.state.ZwIndex
      ∧ (unhookFileFunctions env r).state.OldNt = r.state.OldNt := by
    intro r
    unfold unhookFileFunctions filePlan
    split
    · simp [hHc, hDc, hHz, hDz, hHo, hDo]
    · simp
  have hK : ∀ r, (unhookKeyFunctions env r).calls = r.calls ++ keyPlan env
      ∧ (unhookKeyFunctions env r).state.ZwIndex = r.state.ZwIndex
      ∧ (unhookKeyFunctions env r).state.OldNt = r.state.OldNt := by
    intro r
    unfold unhookKeyFunctions keyPlan
    split
    · simp [hHc, hDc, hHz, hDz, hHo, hDo]
    · simp
  have hP : ∀ r, (unhookProcessFunctions env r).calls
        = r.calls ++ processPlan env r.state.ZwIndex
      ∧ (unhookProcessFunctions env r).state.ZwIndex = r.state.ZwIndex
      ∧ (unhookProcessFunctions env r).state.OldNt = r.state.OldNt := by
    intro r
    unfold unhookProcessFunctions processPlan
    split
    · simp [hHc, hDc, hHz, hDz, hIz, hIc, hHo, hDo, hIo]
    · simp
  have hN : ∀ r, (unhookInformationFunctions env r).calls
        = r.calls ++ informationPlan env r.state.ZwIndex
      ∧ (unhookInformationFunctions env r).state.ZwIndex = r.state.ZwIndex
      ∧ (unhookInformationFunctions env r).state.OldNt = r.state.OldNt := by
    intro r
    unfold unhookInformationFunctions informationPlan
    split
    · simp [hHc, hDc, hHz, hDz, hIz, hIc, hHo, hDo, hIo]
    · simp
  refine ⟨?_, ?_, ?_⟩
  · simp only [fun r => (hN r).1, fun r => (hP r).1, fun r => (hK r).1, fun r => (hF r).1,
      fun r => (hP r).2.1, fun r => (hK r).2.1, fun r => (hF r).2.1, hookPlan,
      List.append_assoc]
  · simp only [fun r => (hN r).2.1, fun r => (hP r).2.1, fun r => (hK r).2.1,
      fun r => (hF r).2.1]
  · simp only [fun r => (hN r).2.2, fun r => (hP r).2.2, fun r => (hK r).2.2,
      fun r => (hF r).2.2]

theorem KPHHook_success (env : Env) (s : HookState) (dwMajorVersion dwMinorVersion : Nat) :
    KPHHook env (KphRef.STATUS_SUCCESS, dwMajorVersion, dwMinorVersion) s
      = (KphRef.STATUS_SUCCESS,
          (hookInformationFunctions env (hookProcessFunctions env (hookKeyFunctions env
            (hookFileFunctions env
              { state := setIndices s dwMajorVersion dwMinorVersion,
                temp := 0,
                calls := [] })))).dprintf Message.hooked) := by
  simp [KPHHook]

theorem indexPlan_zero (Z : IndexRoutine → Nat) (f g : IndexRoutine) (hz : Z f = 0) :
    Hooked.ByIndex f ∉ indexPlan Z g := by
  unfold indexPlan
  split
  · next h =>
    simp only [List.mem_singleton, Hooked.ByIndex.injEq]
    intro e
    subst e
    exact h hz
  · simp

/-- A routine whose index is 0 is not in the list of table writes. -/
theorem hookPlan_zero (env : Env) (Z : IndexRoutine → Nat) (f : IndexRoutine) (hz : Z f = 0) :
    Hooked.ByIndex f ∉ hookPlan env Z := by
  have hi := fun g => indexPlan_zero Z f g hz
  unfold hookPlan filePlan keyPlan processPlan informationPlan
  simp only [List.mem_append, not_or]
  refine ⟨⟨⟨?_, ?_⟩, ?_⟩, ?_⟩
  · split <;> simp
  · split <;> simp
  · split
    · simp only [List.mem_append, not_or]
      exact ⟨⟨⟨⟨⟨⟨by simp, hi _⟩, hi _⟩, hi _⟩, hi _⟩, by simp⟩, hi _⟩
    · simp
  · split
    · simp only [List.mem_append, not_or]
      exact ⟨by simp, hi _⟩
    · simp

/-- What `KPHHook` and `KPHUnhook` do keep, for every build, every kernel and every
table accessor. When `RtlGetVersion` succeeds `KPHHook` returns `STATUS_SUCCESS`;
the six indices are `0x80`, `0x9a`, `0x9b`, `0xad`, `0xe4`, `0x102` on version 5.1,
`0xc9`, `0xe4`, `0xe5`, `0xf8`, `0x131`, `0x14f` on version 6.0 and as before on any
other version; the table writes of `KPHHook` are the list `hookPlan` for these
indices, and so are those of `KPHUnhook` run on globals with the same indices;
a routine whose index is 0 is in neither; `KPHUnhook` writes no saved pointer. -/
theorem KPHHook_KPHUnhook_table_writes (env : Env) (s s' : HookState)
    (dwMajorVersion dwMinorVersion : Nat) :
    (KPHHook env (KphRef.STATUS_SUCCESS, dwMajorVersion, dwMinorVersion) s).1
      = KphRef.STATUS_SUCCESS
    ∧ (KPHHook env (KphRef.STATUS_SUCCESS, dwMajorVersion, dwMinorVersion) s).2.state.ZwIndex
      = (setIndices s dwMajorVersion dwMinorVersion).ZwIndex
    ∧ (dwMajorVersion = 5 → dwMinorVersion = 1 →
        ∀ f, (setIndices s dwMajorVersion dwMinorVersion).ZwIndex f
          = match f with
            | IndexRoutine.OpenThread => 0x80
            | IndexRoutine.QueryInformationProcess => 0x9a
            | IndexRoutine.QueryInformationThread => 0x9b
            | IndexRoutine.QuerySystemInformation => 0xad
            | IndexRoutine.SetInformationProcess => 0xe4
            | IndexRoutine.TerminateThread => 0x102)
    ∧ (dwMajorVersion = 6 → dwMinorVersion = 0 →
        ∀ f, (setIndices s dwMajorVersion dwMinorVersion).ZwIndex f
          = match f with
            | IndexRoutine.OpenThread => 0xc9
            | IndexRoutine.QueryInformationProcess => 0xe4
            | IndexRoutine.QueryInformationThread => 0xe5
            | IndexRoutine.QuerySystemInformation => 0xf8
            | IndexRoutine.SetInformationProcess => 0x131
            | IndexRoutine.TerminateThread => 0x14f)
    ∧ (¬ (dwMajorVersion = 5 ∧ dwMinorVersion = 1) →
        ¬ (dwMajorVersion = 6 ∧ dwMinorVersion = 0) →
        ∀ f, (setIndices s dwMajorVersion dwMinorVersion).ZwIndex f = s.ZwIndex f)
    ∧ (KPHHook env (KphRef.STATUS_SUCCESS, dwMajorVersion, dwMinorVersion) s).2.calls
      = hookPlan env (setIndices s dwMajorVersion dwMinorVersion).ZwIndex
    ∧ (KPHUnhook env s').calls = hookPlan env s'.ZwIndex
    ∧ (KPHUnhook env s').state.OldNt = s'.OldNt
    ∧ (KPHUnhook env s').state.ZwIndex = s'.ZwIndex := by
  obtain ⟨X, hX⟩ : ∃ X, hookInformationFunctions env (hookProcessFunctions env
      (hookKeyFunctions env (hookFileFunctions env
        { state := setIndices s dwMajorVersion dwMinorVersion, temp := 0, calls := [] })))
      = X := ⟨_, rfl⟩
  have hb := hookBlocks_calls env
    { state := setIndices s dwMajorVersion dwMinorVersion, temp := 0, calls := [] }
  rw [hX] at hb
  have hK : KPHHook env (KphRef.STATUS_SUCCESS, dwMajorVersion, dwMinorVersion) s
      = (KphRef.STATUS_SUCCESS, X.dprintf Message.hooked) := by
    rw [KPHHook_success, hX]
  have hu := unhookBlocks_calls env { state := s', calls := [] }
  rw [hK]
  refine ⟨rfl, (dprintf_ZwIndex X _).trans hb.2, ?_, ?_, ?_, hb.1.trans (by simp), ?_, ?_, ?_⟩
  · intro hM hm f
    subst hM hm
    cases f <;> rfl
  · intro hM hm f
    subst hM hm
    cases f <;> rfl
  · intro h51 h60 f
    unfold setIndices
    rw [if_neg h51, if_neg h60]
    cases f <;> rfl
  · exact hu.1.trans (by simp)
  · exact hu.2.2
  · exact (unhook_dprintf_ZwIndex _ _).trans hu.2.1

/-! ## Index resolution (C21) -/

/-- Claim C21, the failing call: on the sample driver (all four groups defined) with
the initial globals, `RtlGetVersion` reports version 5.2. `KPHHook` returns
`STATUS_SUCCESS`, the six indices stay 0 and no table write is made for the six
routines that have an index. But their saved pointers, all `NULL` before, are
written: `OpenThread`, `QueryInformationProcess`, `QueryInformationThread` and
`SetInformationProcess` get `0x8009`, the entry `HOOK_CALL(OpenProcess)` had found
and saved for `OpenProcess`; `TerminateThread` gets `0x8016`, the one found for
`TerminateProcess`; `QuerySystemInformation` gets `0x8004`, the one found for
`DuplicateObject`. On version 5.1 the index of `OpenThread` is `0x80` and its saved
pointer is the entry `0x8080` found there. -/
theorem KPHHook_index_zero_overwrites_saved :
    (KPHHook sampleHookEnv (KphRef.STATUS_SUCCESS, 5, 2)
        (initialHookState sampleSnapshot 1234 none)).1 = KphRef.STATUS_SUCCESS
    ∧ [IndexRoutine.OpenThread, IndexRoutine.QueryInformationProcess,
        IndexRoutine.QueryInformationThread, IndexRoutine.QuerySystemInformation,
        IndexRoutine.SetInformationProcess, IndexRoutine.TerminateThread].map
        (fun f => ((KPHHook sampleHookEnv (KphRef.STATUS_SUCCESS, 5, 2)
            (initialHookState sampleSnapshot 1234 none)).2.state.ZwIndex f,
          decide (Hooked.ByIndex f ∈ (KPHHook sampleHookEnv (KphRef.STATUS_SUCCESS, 5, 2)
            (initialHookState sampleSnapshot 1234 none)).2.calls),
          (initialHookState sampleSnapshot 1234 none).OldNt f.routine,
          (KPHHook sampleHookEnv (KphRef.STATUS_SUCCESS, 5, 2)
            (initialHookState sampleSnapshot 1234 none)).2.state.OldNt f.routine))
      = [(0, false, 0, 0x8009), (0, false, 0, 0x8009), (0, false, 0, 0x8009),
         (0, false, 0, 0x8004), (0, false, 0, 0x8009), (0, false, 0, 0x8016)]
    ∧ [Routine.OpenProcess, Routine.TerminateProcess, Routine.DuplicateObject].map
        (KPHHook sampleHookEnv (KphRef.STATUS_SUCCESS, 5, 2)
          (initialHookState sampleSnapshot 1234 none)).2.state.OldNt
      = [0x8009, 0x8016, 0x8004]
    ∧ (KPHHook sampleHookEnv (KphRef.STATUS_SUCCESS, 5, 1)
        (initialHookState sampleSnapshot 1234 none)).2.state.ZwIndex IndexRoutine.OpenThread
      = 0x80
    ∧ (KPHHook sampleHookEnv (KphRef.STATUS_SUCCESS, 5, 1)
        (initialHookState sampleSnapshot 1234 none)).2.state.OldNt Routine.OpenThread
      = 0x8080 := by
  set_option maxRecDepth 100000 in
  refine ⟨by decide, by decide, by decide, by decide, by decide⟩

/-! ## Install and uninstall (C23) -/

end KphHooks
